import Mathlib

/-!
# ARM kernel loader (`hw/arm_boot.c`) and three device models

Shallow embedding of the kernel loader `hw/arm_boot.c` (namespace `ArmBoot`): the image
loading of `arm_load_kernel`, the blobs it registers, the boot-parameter encoders and the
per-CPU reset callback; of the register file of `hw/s3c24xx_gpio.c` (namespace
`S3C24xx`); and of the receive FIFO of `hw/char/bcm2835_aux.c` and the tag loop of
`hw/misc/bcm2835_property.c` (namespace `BCM2835`).

* Guest physical memory is a byte-addressed map `Nat → Nat`.
* Every guest-memory access the C code performs is recorded as a `MemOp`, in program
  order; `run_ops` replays such a trace on a memory.
* C integers are natural numbers (or integers, for `int` results that may be negative)
  with the conversions the C code performs written out: `u32` for a conversion to
  `uint32_t`, `Target.paddr` for arithmetic in `target_phys_addr_t`.
-/

namespace ArmBoot

/-! ## Machine integers and target description -/

/-- Conversion of a non-negative C value to `uint32_t`. -/
def u32 (x : Nat) : Nat := x % 2 ^ 32

/-- Conversion of a C `int` to `uint32_t` (two's complement). -/
def u32_of_int (x : Int) : Nat := (x % 2 ^ 32).toNat

/-- Build-time description of host and guest. `hw/hw.h` and the configure output are
not part of the sources, so the width of `target_phys_addr_t` and the two byte orders
are parameters of the development. -/
structure Target where
  /-- Width in bits of `target_phys_addr_t`. -/
  phys_addr_bits : Nat
  /-- Guest byte order (`TARGET_WORDS_BIGENDIAN`). -/
  words_bigendian : Bool
  /-- Host byte order (`HOST_WORDS_BIGENDIAN`). -/
  host_words_bigendian : Bool

/-- Arithmetic in `target_phys_addr_t` wraps at the physical address width. -/
def Target.paddr (t : Target) (x : Nat) : Nat := x % 2 ^ t.phys_addr_bits

/-- Conversion of a (possibly negative) C integer to `target_phys_addr_t`. -/
def Target.paddr_of_int (t : Target) (x : Int) : Nat := (x % 2 ^ t.phys_addr_bits).toNat

/-! ## Guest physical memory -/

/-- Guest physical memory: one byte per address. -/
abbrev Mem := Nat → Nat

/-- Byte `i` (0 = least significant) of a word. -/
def word_byte (v i : Nat) : Nat := (v >>> (8 * i)) % 256

/-- The four bytes of a 32-bit word in memory order. -/
def word_bytes (bigendian : Bool) (v : Nat) : List Nat :=
  if bigendian then [word_byte v 3, word_byte v 2, word_byte v 1, word_byte v 0]
  else [word_byte v 0, word_byte v 1, word_byte v 2, word_byte v 3]

/-- The 32-bit word denoted by four bytes in memory order. -/
def word_of_bytes (bigendian : Bool) (b0 b1 b2 b3 : Nat) : Nat :=
  if bigendian then b3 + 256 * (b2 + 256 * (b1 + 256 * b0))
  else b0 + 256 * (b1 + 256 * (b2 + 256 * b3))

/-- Modelled from the spec: the guest-physical-memory write primitive
`cpu_physical_memory_write(addr, buf, len)` (defined in `exec.c`, not among the
sources) copies the `len` bytes of `buf` to guest addresses `addr .. addr + len - 1`. -/
def cpu_physical_memory_write (m : Mem) (addr : Nat) (buf : List Nat) : Mem :=
  fun a => if addr ≤ a ∧ a < addr + buf.length then buf.getD (a - addr) 0 else m a

/-- Modelled from the spec: the guest-physical-memory write primitive
`stl_phys_notdirty(addr, val)` (defined in `exec.c`, not among the sources) stores the
32-bit value `val` at `addr` in the guest's byte order. -/
def stl_phys_notdirty (t : Target) (m : Mem) (addr val : Nat) : Mem :=
  cpu_physical_memory_write m addr (word_bytes t.words_bigendian (u32 val))

/-- Modelled from the spec: the guest-physical-memory read primitive `ldl_phys(addr)`
(defined in `exec.c`, not among the sources) loads the 32-bit word stored at `addr` in
the guest's byte order. -/
def ldl_phys (t : Target) (m : Mem) (addr : Nat) : Nat :=
  word_of_bytes t.words_bigendian (m addr) (m (addr + 1)) (m (addr + 2)) (m (addr + 3))

/-- One guest-memory access made by the loader. -/
inductive MemOp where
  /-- The call `stl_phys_notdirty(addr, val)`; `val` is already converted to `uint32_t`. -/
  | stl (addr val : Nat)
  /-- The call `cpu_physical_memory_write(addr, buf, len)` with `buf[0 .. len-1] = bytes`. -/
  | write (addr : Nat) (bytes : List Nat)
  deriving DecidableEq, Repr

/-- Effect of one recorded access on guest memory. -/
def MemOp.apply (t : Target) (m : Mem) : MemOp → Mem
  | MemOp.stl addr val => stl_phys_notdirty t m addr val
  | MemOp.write addr bytes => cpu_physical_memory_write m addr bytes

/-- Replay a trace of accesses, first access first. -/
def run_ops (t : Target) (m : Mem) (ops : List MemOp) : Mem :=
  ops.foldl (MemOp.apply t) m

/-! ## Boot configuration -/

/-- Result of the board callback `atag_board(info, buf)`: the `int` it returns and the
contents of the 4096-byte buffer afterwards. -/
structure BoardTag where
  ret : Int
  buf : Nat → Nat

/-- The part of `CPUState` the loader touches: the sixteen core registers `regs[0..15]`
(`regs[15]` is the program counter) and the instruction-set flag `thumb`. -/
structure CPUState where
  regs : Nat → Nat
  thumb : Nat

/-- A non-`NULL` value of the function pointer `write_secondary_boot`: the loader's own
`default_write_secondary`, or a function of the board, which is represented by the blobs
it registers when it is called. -/
inductive SecondaryBoot where
  | default_hook
  | board_hook (blobs : List MemOp)

/-- The `struct arm_boot_info` of `hw/arm-misc.h`. The header is not among the sources, so
the scalar fields are natural numbers, converted where the code stores them.
A `const char *` is `none` for `NULL` and otherwise the bytes before the terminating NUL.
The callback `atag_board` maps the initial contents of the caller's buffer to its result.
The function pointer `secondary_cpu_reset_hook` is `none` for `NULL`; a hook is the
function applied to its `info` argument, and maps the CPU state to the new CPU state and
the guest-memory accesses it makes. The function pointer `write_secondary_boot` is `none`
for `NULL`. -/
structure arm_boot_info where
  ram_size : Nat := 0
  kernel_filename : Option (List Nat) := none
  kernel_cmdline : Option (List Nat) := none
  initrd_filename : Option (List Nat) := none
  loader_start : Nat := 0
  smp_loader_start : Nat := 0
  smp_bootreg_addr : Nat := 0
  gic_cpu_if_addr : Nat := 0
  nb_cpus : Nat := 0
  board_id : Nat := 0
  atag_revision : Nat := 0
  atag_board : Option ((Nat → Nat) → BoardTag) := none
  is_linux : Bool := false
  initrd_size : Nat := 0
  entry : Nat := 0
  secondary_cpu_reset_hook : Option (CPUState → CPUState × List MemOp) := none
  write_secondary_boot : Option SecondaryBoot := none

def KERNEL_ARGS_ADDR : Nat := 0x100
def KERNEL_LOAD_ADDR : Nat := 0x00010000
def INITRD_LOAD_ADDR : Nat := 0x00d00000

/-- `strlen` of a C string given by its bytes before the NUL. -/
def strlen (s : List Nat) : Nat := s.length

/-! ## `set_kernel_args`: the tagged list -/

/-- The write cursor `p` of the encoders together with the accesses made so far. -/
structure Writer where
  p : Nat
  ops : List MemOp
  deriving DecidableEq, Repr

/-- The macro `WRITE_WORD(p, value)`: `stl_phys_notdirty(p, value); p += 4;`. -/
def WRITE_WORD (t : Target) (w : Writer) (value : Nat) : Writer :=
  { p := t.paddr (w.p + 4), ops := w.ops ++ [MemOp.stl w.p (u32 value)] }

/-- A `cpu_physical_memory_write` call recorded in the trace; `p` is unchanged. -/
def Writer.write (w : Writer) (addr : Nat) (bytes : List Nat) : Writer :=
  { w with ops := w.ops ++ [MemOp.write addr bytes] }

/-- Lines 91-96: `ATAG_CORE`. -/
def atag_core (t : Target) (w : Writer) : Writer :=
  let w := WRITE_WORD t w 5
  let w := WRITE_WORD t w 0x54410001
  let w := WRITE_WORD t w 1
  let w := WRITE_WORD t w 0x1000
  WRITE_WORD t w 0

/-- Lines 97-102: `ATAG_MEM`. -/
def atag_mem (t : Target) (info : arm_boot_info) (w : Writer) : Writer :=
  let w := WRITE_WORD t w 4
  let w := WRITE_WORD t w 0x54410002
  let w := WRITE_WORD t w info.ram_size
  WRITE_WORD t w info.loader_start

/-- Lines 103-109: `ATAG_INITRD2`, under `if (info->initrd_size)`. -/
def atag_initrd2 (t : Target) (info : arm_boot_info) (w : Writer) : Writer :=
  if info.initrd_size ≠ 0 then
    let w := WRITE_WORD t w 4
    let w := WRITE_WORD t w 0x54420005
    let w := WRITE_WORD t w (t.paddr (info.loader_start + INITRD_LOAD_ADDR))
    WRITE_WORD t w info.initrd_size
  else w

/-- Lines 110-115: `ATAG_REVISION`, under `if (info->atag_revision)`. -/
def atag_revision (t : Target) (info : arm_boot_info) (w : Writer) : Writer :=
  if info.atag_revision ≠ 0 then
    let w := WRITE_WORD t w 3
    let w := WRITE_WORD t w 0x54410007
    WRITE_WORD t w info.atag_revision
  else w

/-- Lines 116-127: `ATAG_CMDLINE`, under
`if (info->kernel_cmdline && *info->kernel_cmdline)`. -/
def atag_cmdline (t : Target) (info : arm_boot_info) (w : Writer) : Writer :=
  match info.kernel_cmdline with
  | none => w
  | some [] => w
  | some (c :: cs) =>
    let cmdline_size := strlen (c :: cs)
    let w := w.write (t.paddr (w.p + 8)) ((c :: cs) ++ [0])
    let cmdline_size := (cmdline_size >>> 2) + 1
    let w := WRITE_WORD t w (cmdline_size + 2)
    let w := WRITE_WORD t w 0x54410009
    { w with p := t.paddr (w.p + cmdline_size * 4) }

/-- Lines 128-138: `ATAG_BOARD`, under `if (info->atag_board)`. The argument
`atag_board_buf` is the initial content of the local array of that name. -/
def atag_board (t : Target) (info : arm_boot_info) (atag_board_buf : Nat → Nat)
    (w : Writer) : Writer :=
  match info.atag_board with
  | none => w
  | some cb =>
    let r := cb atag_board_buf
    let atag_board_len : Int := Int.land (r.ret + 3) (Int.not 3)
    let w := WRITE_WORD t w (u32_of_int ((atag_board_len + 8) >>> (2 : Nat)))
    let w := WRITE_WORD t w 0x414f4d50
    let w := w.write w.p ((List.range atag_board_len.toNat).map r.buf)
    { w with p := t.paddr_of_int (w.p + atag_board_len) }

/-- Lines 139-141: `ATAG_END`. -/
def atag_end (t : Target) (w : Writer) : Writer :=
  let w := WRITE_WORD t w 0
  WRITE_WORD t w 0

/-- The function `set_kernel_args` as a transformation of the write cursor. -/
def set_kernel_args_writer (t : Target) (info : arm_boot_info)
    (atag_board_buf : Nat → Nat) : Writer :=
  let w : Writer := { p := t.paddr (info.loader_start + KERNEL_ARGS_ADDR), ops := [] }
  let w := atag_core t w
  let w := atag_mem t info w
  let w := atag_initrd2 t info w
  let w := atag_revision t info w
  let w := atag_cmdline t info w
  let w := atag_board t info atag_board_buf w
  atag_end t w

/-- The guest-memory accesses of `set_kernel_args(info)`, in program order. -/
def set_kernel_args (t : Target) (info : arm_boot_info)
    (atag_board_buf : Nat → Nat) : List MemOp :=
  (set_kernel_args_writer t info atag_board_buf).ops

/-! ## Reading a tagged list back from guest memory -/

def ATAG_CORE : Nat := 0x54410001
def ATAG_MEM : Nat := 0x54410002
def ATAG_INITRD2 : Nat := 0x54420005
def ATAG_REVISION : Nat := 0x54410007
def ATAG_CMDLINE : Nat := 0x54410009
def ATAG_BOARD : Nat := 0x414f4d50

/-- A record header found in guest memory: its address, size word and tag id. -/
structure TagRecord where
  addr : Nat
  size : Nat
  tag : Nat
  deriving DecidableEq, Repr

/-- Walk a tagged list in guest memory as its consumer does: the record at `a` has its
size (in words) at `a` and its tag id at `a + 4`; the next record starts at `a + 4 * size`;
a size word of 0 is the terminator. Returns the records met and the terminator's
address, or `none` if no terminator is met within `fuel` records. -/
def atag_walk (t : Target) (m : Mem) : Nat → Nat → Option (List TagRecord × Nat)
  | _, 0 => none
  | a, fuel + 1 =>
    if ldl_phys t m a = 0 then some ([], a)
    else
      (atag_walk t m (a + 4 * ldl_phys t m a) fuel).map
        (fun r => (⟨a, ldl_phys t m a, ldl_phys t m (a + 4)⟩ :: r.1, r.2))

/-- Payload word `i` of a record. -/
def TagRecord.word (t : Target) (m : Mem) (r : TagRecord) (i : Nat) : Nat :=
  ldl_phys t m (r.addr + 8 + 4 * i)

/-- The payload bytes of a record: everything after the two header words. -/
def TagRecord.bytes (m : Mem) (r : TagRecord) : List Nat :=
  (List.range (4 * (r.size - 2))).map (fun i => m (r.addr + 8 + i))

/-- What a consumer of the tagged list learns from it. -/
structure Decoded where
  /-- `ATAG_MEM`: size and start. -/
  mem : Option (Nat × Nat)
  /-- `ATAG_INITRD2`: start and size, if the tag is present. -/
  initrd : Option (Nat × Nat)
  /-- `ATAG_REVISION`, if the tag is present. -/
  revision : Option Nat
  /-- `ATAG_CMDLINE`: the text before the NUL, if the tag is present. -/
  cmdline : Option (List Nat)
  deriving DecidableEq, Repr

/-- Decode the records of a tagged list: each field is taken from the first record
carrying the corresponding tag id. -/
def decode_records (t : Target) (m : Mem) (rs : List TagRecord) : Decoded :=
  { mem := (rs.find? (fun r => r.tag = ATAG_MEM)).map (fun r => (r.word t m 0, r.word t m 1))
    initrd :=
      (rs.find? (fun r => r.tag = ATAG_INITRD2)).map (fun r => (r.word t m 0, r.word t m 1))
    revision := (rs.find? (fun r => r.tag = ATAG_REVISION)).map (fun r => r.word t m 0)
    cmdline :=
      (rs.find? (fun r => r.tag = ATAG_CMDLINE)).map
        (fun r => (r.bytes m).takeWhile (fun b => b ≠ 0)) }

/-- Decode the tagged list that starts at `a`. -/
def atag_decode (t : Target) (m : Mem) (a fuel : Nat) : Option Decoded :=
  (atag_walk t m a fuel).map (fun r => decode_records t m r.1)

/-- The configuration as a consumer of the tagged list should see it. -/
def arm_boot_info.configured (info : arm_boot_info) : Decoded :=
  { mem := some (info.ram_size, info.loader_start)
    initrd :=
      if info.initrd_size ≠ 0 then
        some (info.loader_start + INITRD_LOAD_ADDR, info.initrd_size)
      else none
    revision := if info.atag_revision ≠ 0 then some info.atag_revision else none
    cmdline :=
      match info.kernel_cmdline with
      | some (c :: cs) => some (c :: cs)
      | _ => none }

/-- The value `(L + 3) & ~3` computed on the callback's result, as an `int`. -/
def atag_board_len (info : arm_boot_info) (atag_board_buf : Nat → Nat) : Int :=
  match info.atag_board with
  | none => 0
  | some cb => Int.land ((cb atag_board_buf).ret + 3) (Int.not 3)

/-- Number of bytes between the start of the tagged list and the end of its
terminator, for a callback result that is not negative. -/
def atag_list_bytes (info : arm_boot_info) (atag_board_buf : Nat → Nat) : Nat :=
  20 + 16 + (if info.initrd_size ≠ 0 then 16 else 0)
    + (if info.atag_revision ≠ 0 then 12 else 0)
    + (match info.kernel_cmdline with
       | some (c :: cs) => 8 + 4 * (strlen (c :: cs) / 4 + 1)
       | _ => 0)
    + (match info.atag_board with
       | some _ => 8 + (atag_board_len info atag_board_buf).toNat
       | none => 0)
    + 8

/-- Well-formed input of `set_kernel_args`: the tagged list does not wrap around the
guest physical address space, the command line is a C string whose length fits `int`,
and the board callback returns a length within its 4096-byte buffer. -/
structure WellFormed (t : Target) (info : arm_boot_info) (atag_board_buf : Nat → Nat) :
    Prop where
  no_wrap :
    info.loader_start + KERNEL_ARGS_ADDR + atag_list_bytes info atag_board_buf
      < 2 ^ t.phys_addr_bits
  cmdline_chars : ∀ s, info.kernel_cmdline = some s → ∀ c ∈ s, c ≠ 0
  cmdline_len : ∀ s, info.kernel_cmdline = some s → strlen s < 2 ^ 31
  board_len : ∀ cb, info.atag_board = some cb →
    0 ≤ (cb atag_board_buf).ret ∧ (cb atag_board_buf).ret ≤ 0x1000

/-- The scalar values that `set_kernel_args` stores are 32-bit quantities, as the words
of a tag are; the initrd address, when an initrd is present, is computed without
wrapping. -/
structure FitsWords (t : Target) (info : arm_boot_info) : Prop where
  ram_size : info.ram_size < 2 ^ 32
  loader_start : info.loader_start < 2 ^ 32
  initrd_size : info.initrd_size < 2 ^ 32
  atag_revision : info.atag_revision < 2 ^ 32
  initrd_start : info.initrd_size ≠ 0 →
    info.loader_start + INITRD_LOAD_ADDR < 2 ^ 32
      ∧ info.loader_start + INITRD_LOAD_ADDR < 2 ^ t.phys_addr_bits

/-! ## The bootstrap trampoline -/

/-- The static array `bootloader[]` as initialised (lines 21-29). -/
def bootloader : List Nat :=
  [ 0xe3a00000, /- mov     r0, #0 -/
    0xe59f1004, /- ldr     r1, [pc, #4] -/
    0xe59f2004, /- ldr     r2, [pc, #4] -/
    0xe59ff004, /- ldr     pc, [pc, #4] -/
    0, /- Board ID -/
    0, /- Address of kernel args. -/
    0  /- Kernel entry point. -/ ]

/-- Byte reversal of a 32-bit word. -/
def bswap32 (v : Nat) : Nat :=
  word_of_bytes true (word_byte v 0) (word_byte v 1) (word_byte v 2) (word_byte v 3)

/-- Modelled from the spec: `tswap32` (from `cpu-all.h`, not among the sources) is the
byte-order correction between host and guest: a byte swap when the two byte orders
differ, the identity otherwise. -/
def tswap32 (t : Target) (v : Nat) : Nat :=
  if t.host_words_bigendian != t.words_bigendian then bswap32 v else v

/-- The bytes of a host `uint32_t` array, as `rom_add_blob_fixed` copies them. -/
def host_bytes (t : Target) (ws : List Nat) : List Nat :=
  ws.flatMap (word_bytes t.host_words_bigendian)

/-- Lines 304-309 of `arm_load_kernel`: patch the three literal words of the array `bl`
(the current content of `bootloader[]`) and convert every word with `tswap32`. -/
def patch_bootloader (t : Target) (bl : List Nat) (info : arm_boot_info) (entry : Nat) :
    List Nat :=
  let bl := bl.set 4 (u32 info.board_id)
  let bl := bl.set 5 (u32 (t.paddr (info.loader_start + KERNEL_ARGS_ADDR)))
  let bl := bl.set 6 (u32 entry)
  bl.map (tswap32 t)

/-- Modelled from the spec: `rom_add_blob_fixed(name, blob, len, addr)` (from
`loader.c`, not among the sources) has the `len` bytes of `blob` written to guest
address `addr`. Lines 310-311 of `arm_load_kernel`, on the first call. -/
def arm_load_kernel_bootloader (t : Target) (info : arm_boot_info) (entry : Nat) : MemOp :=
  MemOp.write info.loader_start (host_bytes t (patch_bootloader t bootloader info entry))

/-- State of the modelled ARM core: the registers `regs 0 .. regs 15`, `regs 15` being
the address of the instruction to execute next, the zero flag `zf`, the instruction-set
flag `thumb`, and guest memory. -/
structure Core where
  regs : Nat → Nat
  mem : Mem
  zf : Bool := false
  thumb : Nat := 0

/-- Write a core register. -/
def Core.set_reg (c : Core) (r v : Nat) : Core :=
  { c with regs := fun i => if i = r then v else c.regs i }

/-- Rotate the 32-bit value `v` right by `n` bits. -/
def ror32 (v n : Nat) : Nat :=
  (v >>> (n % 32) + v <<< (32 - n % 32)) % 2 ^ 32

/-- Modelled from the spec: one instruction of a minimal ARM core (the CPU emulation
is not among the sources). The core fetches the word at `regs 15` in guest byte order
and executes it; an instruction that reads `pc` sees the instruction address + 8; a
load into `pc` jumps to the loaded value. The instructions decoded are those of the two
blobs of the loader: `mov rd, #imm`, `ldr rd, [rn, #imm12]` and `str rd, [rn, #imm12]`
(offset added or subtracted), `tst rn, rm`, `b`, `bx rm` and `wfi`, under the conditions
"always" and "equal"; every other word yields `none`. `wfi` is a wait that an interrupt
may end at any time: the core goes on with the next instruction. -/
def Core.step (t : Target) (c : Core) : Option Core :=
  let pc := c.regs 15
  let insn := ldl_phys t c.mem pc
  let rn := insn / 2 ^ 16 % 16
  let rd := insn / 2 ^ 12 % 16
  let rm := insn % 16
  if insn / 2 ^ 28 ≠ 0xe ∧ insn / 2 ^ 28 ≠ 0x0 then none
  else if insn / 2 ^ 28 = 0x0 ∧ c.zf = false then
    /- condition "equal" not met: the instruction is skipped -/
    some (c.set_reg 15 (u32 (pc + 4)))
  else if insn / 2 ^ 20 % 256 = 0x3a then
    /- mov rd, #imm : immediate operand, opcode 1101, S = 0 -/
    let imm := ror32 (insn % 256) (2 * (insn / 2 ^ 8 % 16))
    if rd = 15 then some (c.set_reg 15 imm)
    else some ((c.set_reg rd imm).set_reg 15 (u32 (pc + 4)))
  else if insn / 2 ^ 20 % 256 = 0x59 ∨ insn / 2 ^ 20 % 256 = 0x51 then
    /- ldr rd, [rn, #imm12] : offset addressing, word access, U bit = add -/
    let base := if rn = 15 then u32 (pc + 8) else c.regs rn
    let addr :=
      if insn / 2 ^ 23 % 2 = 1 then u32 (base + insn % 2 ^ 12)
      else u32 (base + 2 ^ 32 - insn % 2 ^ 12)
    let v := ldl_phys t c.mem addr
    if rd = 15 then some (c.set_reg 15 v)
    else some ((c.set_reg rd v).set_reg 15 (u32 (pc + 4)))
  else if insn / 2 ^ 20 % 256 = 0x58 ∨ insn / 2 ^ 20 % 256 = 0x50 then
    /- str rd, [rn, #imm12] : offset addressing, word access, U bit = add -/
    let base := if rn = 15 then u32 (pc + 8) else c.regs rn
    let addr :=
      if insn / 2 ^ 23 % 2 = 1 then u32 (base + insn % 2 ^ 12)
      else u32 (base + 2 ^ 32 - insn % 2 ^ 12)
    if rd = 15 then none
    else
      some ({ c with mem := stl_phys_notdirty t c.mem addr (c.regs rd) }.set_reg 15
        (u32 (pc + 4)))
  else if insn / 2 ^ 20 % 256 = 0x11 ∧ insn / 2 ^ 4 % 256 = 0 then
    /- tst rn, rm : register operand without shift, sets the zero flag -/
    if rn = 15 ∨ rm = 15 then none
    else some ({ c with zf := decide (c.regs rn &&& c.regs rm = 0) }.set_reg 15 (u32 (pc + 4)))
  else if insn / 2 ^ 24 % 16 = 0xa then
    /- b label : signed 24-bit word offset from the instruction address + 8 -/
    let off := insn % 2 ^ 24
    if off < 2 ^ 23 then some (c.set_reg 15 (u32 (pc + 8 + 4 * off)))
    else some (c.set_reg 15 (u32 (pc + 8 + 4 * off + (2 ^ 32 - 2 ^ 26))))
  else if insn / 2 ^ 4 % 2 ^ 24 = 0x12fff1 then
    /- bx rm : jump to rm with bit 0 selecting the instruction set -/
    if rm = 15 then none
    else some ({ c with thumb := c.regs rm % 2 }.set_reg 15 (2 * (c.regs rm / 2)))
  else if insn % 2 ^ 28 = 0x320f003 then
    /- wfi -/
    some (c.set_reg 15 (u32 (pc + 4)))
  else none

/-- Run the core for `n` instructions. -/
def Core.run (t : Target) : Nat → Core → Option Core
  | 0, c => some c
  | n + 1, c => (Core.step t c).bind (Core.run t n)

/-! ## Address ranges of accesses -/

/-- First guest address an access touches. -/
def MemOp.lo : MemOp → Nat
  | MemOp.stl addr _ => addr
  | MemOp.write addr _ => addr

/-- The bytes an access stores, in address order. -/
def MemOp.data (t : Target) : MemOp → List Nat
  | MemOp.stl _ val => word_bytes t.words_bigendian (u32 val)
  | MemOp.write _ bytes => bytes

/-- Number of bytes an access stores. -/
def MemOp.len : MemOp → Nat
  | MemOp.stl _ _ => 4
  | MemOp.write _ bytes => bytes.length

/-- Two accesses touch disjoint address ranges. -/
def MemOp.Disjoint (a b : MemOp) : Prop :=
  a.lo + a.len ≤ b.lo ∨ b.lo + b.len ≤ a.lo

/-- Every access of a trace lies in the address range `[lo, hi)`. -/
def Within (lo hi : Nat) (ops : List MemOp) : Prop :=
  ∀ op ∈ ops, lo ≤ op.lo ∧ op.lo + op.len ≤ hi

/-! ## The accesses of each tag, for a cursor that does not wrap -/

/-- Accesses of `ATAG_CORE` written at `a`. -/
def core_ops (a : Nat) : List MemOp :=
  [MemOp.stl a 5, MemOp.stl (a + 4) ATAG_CORE, MemOp.stl (a + 8) 1,
   MemOp.stl (a + 12) 0x1000, MemOp.stl (a + 16) 0]

/-- Accesses of `ATAG_MEM` written at `a`. -/
def mem_ops (info : arm_boot_info) (a : Nat) : List MemOp :=
  [MemOp.stl a 4, MemOp.stl (a + 4) ATAG_MEM, MemOp.stl (a + 8) (u32 info.ram_size),
   MemOp.stl (a + 12) (u32 info.loader_start)]

/-- Accesses of `ATAG_INITRD2` written at `a`, if the tag is emitted. -/
def initrd_ops (t : Target) (info : arm_boot_info) (a : Nat) : List MemOp :=
  if info.initrd_size ≠ 0 then
    [MemOp.stl a 4, MemOp.stl (a + 4) ATAG_INITRD2,
     MemOp.stl (a + 8) (u32 (t.paddr (info.loader_start + INITRD_LOAD_ADDR))),
     MemOp.stl (a + 12) (u32 info.initrd_size)]
  else []

/-- Bytes taken by `ATAG_INITRD2`. -/
def initrd_bytes (info : arm_boot_info) : Nat := if info.initrd_size ≠ 0 then 16 else 0

/-- Accesses of `ATAG_REVISION` written at `a`, if the tag is emitted. -/
def revision_ops (info : arm_boot_info) (a : Nat) : List MemOp :=
  if info.atag_revision ≠ 0 then
    [MemOp.stl a 3, MemOp.stl (a + 4) ATAG_REVISION, MemOp.stl (a + 8) (u32 info.atag_revision)]
  else []

/-- Bytes taken by `ATAG_REVISION`. -/
def revision_bytes (info : arm_boot_info) : Nat := if info.atag_revision ≠ 0 then 12 else 0

/-- Accesses of `ATAG_CMDLINE` written at `a`, if the tag is emitted. -/
def cmdline_ops (info : arm_boot_info) (a : Nat) : List MemOp :=
  match info.kernel_cmdline with
  | some (c :: cs) =>
    [MemOp.write (a + 8) ((c :: cs) ++ [0]), MemOp.stl a (strlen (c :: cs) / 4 + 3),
     MemOp.stl (a + 4) ATAG_CMDLINE]
  | _ => []

/-- Bytes taken by `ATAG_CMDLINE`. -/
def cmdline_bytes (info : arm_boot_info) : Nat :=
  match info.kernel_cmdline with
  | some (c :: cs) => 8 + 4 * (strlen (c :: cs) / 4 + 1)
  | _ => 0

/-- Accesses of the board tag written at `a`, if the tag is emitted. -/
def board_ops (info : arm_boot_info) (atag_board_buf : Nat → Nat) (a : Nat) : List MemOp :=
  match info.atag_board with
  | some cb =>
    [MemOp.stl a (((atag_board_len info atag_board_buf).toNat + 8) / 4),
     MemOp.stl (a + 4) ATAG_BOARD,
     MemOp.write (a + 8)
       ((List.range (atag_board_len info atag_board_buf).toNat).map (cb atag_board_buf).buf)]
  | none => []

/-- Bytes taken by the board tag. -/
def board_bytes (info : arm_boot_info) (atag_board_buf : Nat → Nat) : Nat :=
  match info.atag_board with
  | some _ => 8 + (atag_board_len info atag_board_buf).toNat
  | none => 0

/-- Accesses of the terminator written at `a`. -/
def end_ops (a : Nat) : List MemOp := [MemOp.stl a 0, MemOp.stl (a + 4) 0]

/-- Address of the `ATAG_INITRD2` slot. -/
def initrd_addr (info : arm_boot_info) : Nat := info.loader_start + KERNEL_ARGS_ADDR + 36

/-- Address of the `ATAG_REVISION` slot. -/
def revision_addr (info : arm_boot_info) : Nat := initrd_addr info + initrd_bytes info

/-- Address of the `ATAG_CMDLINE` slot. -/
def cmdline_addr (info : arm_boot_info) : Nat := revision_addr info + revision_bytes info

/-- Address of the board tag slot. -/
def board_addr (info : arm_boot_info) : Nat := cmdline_addr info + cmdline_bytes info

/-- Address of the terminator. -/
def end_addr (info : arm_boot_info) (atag_board_buf : Nat → Nat) : Nat :=
  board_addr info + board_bytes info atag_board_buf

/-! ## The records a consumer should find -/

/-- The `ATAG_INITRD2` record header, if the tag is emitted. -/
def initrd_recs (info : arm_boot_info) : List TagRecord :=
  if info.initrd_size ≠ 0 then [⟨initrd_addr info, 4, ATAG_INITRD2⟩] else []

/-- The `ATAG_REVISION` record header, if the tag is emitted. -/
def revision_recs (info : arm_boot_info) : List TagRecord :=
  if info.atag_revision ≠ 0 then [⟨revision_addr info, 3, ATAG_REVISION⟩] else []

/-- The `ATAG_CMDLINE` record header, if the tag is emitted. -/
def cmdline_recs (info : arm_boot_info) : List TagRecord :=
  match info.kernel_cmdline with
  | some (c :: cs) => [⟨cmdline_addr info, strlen (c :: cs) / 4 + 3, ATAG_CMDLINE⟩]
  | _ => []

/-- The board record header, if the tag is emitted. -/
def board_recs (info : arm_boot_info) (atag_board_buf : Nat → Nat) : List TagRecord :=
  match info.atag_board with
  | some _ =>
    [⟨board_addr info, ((atag_board_len info atag_board_buf).toNat + 8) / 4, ATAG_BOARD⟩]
  | none => []

/-- The record headers of the tagged list, in address order. -/
def expected_records (info : arm_boot_info) (atag_board_buf : Nat → Nat) : List TagRecord :=
  [⟨info.loader_start + KERNEL_ARGS_ADDR, 5, ATAG_CORE⟩,
   ⟨info.loader_start + KERNEL_ARGS_ADDR + 20, 4, ATAG_MEM⟩]
    ++ initrd_recs info ++ revision_recs info ++ cmdline_recs info
    ++ board_recs info atag_board_buf

/-- The core as the primary CPU leaves reset on an OS-style boot: the trampoline blob
has been copied to guest memory `m` and `regs 15` is `loader_start`; the other
registers are those of `regs`. -/
def trampoline_start (t : Target) (info : arm_boot_info) (entry : Nat) (regs : Nat → Nat)
    (m : Mem) : Core :=
  { regs := fun i => if i = 15 then info.loader_start else regs i
    mem := MemOp.apply t m (arm_load_kernel_bootloader t info entry) }

/-- The records `rs` follow one another from `a` to `e`: each record starts where the
size word of the one before says, `e` is where the last one ends. -/
def TagRecord.Linked : Nat → List TagRecord → Nat → Prop
  | a, [], e => a = e
  | a, r :: rs, e => r.addr = a ∧ TagRecord.Linked (a + 4 * r.size) rs e

/-- The C condition `info->kernel_cmdline && *info->kernel_cmdline`. -/
def arm_boot_info.has_cmdline (info : arm_boot_info) : Bool :=
  match info.kernel_cmdline with
  | some (_ :: _) => true
  | _ => false

/-- A little-endian guest with 32-bit physical addresses on a little-endian host. -/
def arm_le32 : Target := ⟨32, false, false⟩

/-- The bytes of the C string `"console=ttyAMA0"`. -/
def console_cmdline : List Nat :=
  [99, 111, 110, 115, 111, 108, 101, 61, 116, 116, 121, 65, 77, 65, 48]

/-- The concrete scenario of the specification: 256 MiB of RAM, no initrd, no revision,
no board tag, command line `"console=ttyAMA0"`. -/
def scenario_info (loader_start : Nat) : arm_boot_info :=
  { ram_size := 0x10000000, loader_start := loader_start,
    kernel_cmdline := some console_cmdline }

/-- A configuration that emits every tag: initrd of 2 MiB, revision 0x10, command line
`"console=ttyAMA0"` and a board callback that stores the bytes 1..5 and returns 5. -/
def full_info : arm_boot_info :=
  { ram_size := 0x10000000, loader_start := 0x8000, board_id := 0x183,
    initrd_size := 0x200000, atag_revision := 0x10,
    kernel_cmdline := some console_cmdline,
    atag_board := some (fun b => ⟨5, fun i => if i < 5 then i + 1 else b i⟩) }

/-- A configuration whose command line is the one-character string `"a"`. -/
def short_cmdline_info : arm_boot_info :=
  { ram_size := 0x10000000, kernel_cmdline := some [97] }

/-- Guest memory and scratch buffer filled with zero bytes. -/
def zero_bytes : Nat → Nat := fun _ => 0

/-! ## `set_kernel_args_old`: the legacy fixed-layout block -/

def FLAG_READONLY : Nat := 1
def FLAG_RDLOAD : Nat := 4
def FLAG_RDPROMPT : Nat := 8

/-- Lines 206-208: `while (p < bound) { WRITE_WORD(p, 0); }`. The loop is run for at
most `fuel` tests of its condition; `none` means the fuel ran out. -/
def zero_unused_fields (t : Target) (bound : Nat) : Nat → Writer → Option Writer
  | 0, _ => none
  | fuel + 1, w =>
    if w.p < bound then zero_unused_fields t bound fuel (WRITE_WORD t w 0) else some w

/-- The function `set_kernel_args_old` as a transformation of the write cursor. -/
def set_kernel_args_old_writer (t : Target) (info : arm_boot_info) (fuel : Nat) :
    Option Writer :=
  let w : Writer := { p := t.paddr (info.loader_start + KERNEL_ARGS_ADDR), ops := [] }
  /- page_size -/
  let w := WRITE_WORD t w 4096
  /- nr_pages -/
  let w := WRITE_WORD t w (info.ram_size / 4096)
  /- ramdisk_size -/
  let w := WRITE_WORD t w 0
  /- flags -/
  let w := WRITE_WORD t w (FLAG_READONLY ||| FLAG_RDLOAD ||| FLAG_RDPROMPT)
  /- rootdev -/
  let w := WRITE_WORD t w ((31 <<< 8) ||| 0)
  /- video_num_cols -/
  let w := WRITE_WORD t w 0
  /- video_num_rows -/
  let w := WRITE_WORD t w 0
  /- video_x -/
  let w := WRITE_WORD t w 0
  /- video_y -/
  let w := WRITE_WORD t w 0
  /- memc_control_reg -/
  let w := WRITE_WORD t w 0
  /- sounddefault, adfsdrives, bytes_per_char_h, bytes_per_char_v -/
  let w := WRITE_WORD t w 0
  /- pages_in_bank[4] -/
  let w := WRITE_WORD t w 0
  let w := WRITE_WORD t w 0
  let w := WRITE_WORD t w 0
  let w := WRITE_WORD t w 0
  /- pages_in_vram -/
  let w := WRITE_WORD t w 0
  /- initrd_start -/
  let w :=
    if info.initrd_size ≠ 0 then
      WRITE_WORD t w (t.paddr (info.loader_start + INITRD_LOAD_ADDR))
    else WRITE_WORD t w 0
  /- initrd_size -/
  let w := WRITE_WORD t w info.initrd_size
  /- rd_start -/
  let w := WRITE_WORD t w 0
  /- system_rev -/
  let w := WRITE_WORD t w 0
  /- system_serial_low -/
  let w := WRITE_WORD t w 0
  /- system_serial_high -/
  let w := WRITE_WORD t w 0
  /- mem_fclk_21285 -/
  let w := WRITE_WORD t w 0
  /- zero unused fields -/
  (zero_unused_fields t (t.paddr (info.loader_start + KERNEL_ARGS_ADDR + 256 + 1024)) fuel w).map
    fun w =>
      match info.kernel_cmdline with
      | some s => w.write w.p (s ++ [0])
      | none => WRITE_WORD t w 0

/-- The guest-memory accesses of `set_kernel_args_old(info)`, in program order; `none`
if the zero-fill loop does not finish within `fuel` tests of its condition. -/
def set_kernel_args_old (t : Target) (info : arm_boot_info) (fuel : Nat) :
    Option (List MemOp) :=
  (set_kernel_args_old_writer t info fuel).map Writer.ops

/-- The 23 fixed words of the legacy block, as the specification lists them. -/
def legacy_fixed_words (t : Target) (info : arm_boot_info) : List Nat :=
  [4096, u32 (info.ram_size / 4096), 0, 13, 0x1f00]
    ++ List.replicate 11 0
    ++ [if info.initrd_size = 0 then 0 else u32 (t.paddr (info.loader_start + INITRD_LOAD_ADDR)),
        u32 info.initrd_size]
    ++ List.replicate 5 0

/-- The 320 words of the legacy block up to byte offset 1280: the fixed words, then
zeros. -/
def legacy_words (t : Target) (info : arm_boot_info) : List Nat :=
  legacy_fixed_words t info ++ List.replicate 297 0

/-- The stores `WRITE_WORD` makes for the words `ws`, starting at address `a`. -/
def word_stores (a : Nat) (ws : List Nat) : List MemOp :=
  (List.range ws.length).map (fun i => MemOp.stl (a + 4 * i) (ws.getD i 0))

/-- The last access of `set_kernel_args_old`: the command line with its NUL, or a zero
word when there is none, at address `a`. -/
def legacy_cmdline_op (info : arm_boot_info) (a : Nat) : MemOp :=
  match info.kernel_cmdline with
  | some s => MemOp.write a (s ++ [0])
  | none => MemOp.stl a 0

/-- A run of `WRITE_WORD`s, one for each value of `vs`. -/
def write_words (t : Target) (w : Writer) (vs : List Nat) : Writer :=
  vs.foldl (WRITE_WORD t) w

/-- The values of the 23 `WRITE_WORD`s that open `set_kernel_args_old`, as the code
computes them. -/
def legacy_fixed_values (t : Target) (info : arm_boot_info) : List Nat :=
  [4096, info.ram_size / 4096, 0, FLAG_READONLY ||| FLAG_RDLOAD ||| FLAG_RDPROMPT,
   (31 <<< 8) ||| 0, 0, 0, 0, 0, 0, 0, 0, 0, 0, 0, 0,
   if info.initrd_size ≠ 0 then t.paddr (info.loader_start + INITRD_LOAD_ADDR) else 0,
   info.initrd_size, 0, 0, 0, 0, 0]

/-! ## The per-CPU reset dispatcher -/

/-- Assignment to `env->regs[r]`. -/
def CPUState.set_reg (env : CPUState) (r v : Nat) : CPUState :=
  { env with regs := fun i => if i = r then v else env.regs i }

/-- Lines 72-77: `default_reset_secondary(env, info)`. -/
def default_reset_secondary (info : arm_boot_info) (env : CPUState) :
    CPUState × List MemOp :=
  (env.set_reg 15 (u32 info.smp_loader_start), [MemOp.stl info.smp_bootreg_addr (u32 0)])

/-- Lines 217-241: `do_cpu_reset(opaque)`, applied to the CPU `env` whose `boot_info` is
`boot_info`; it yields the new CPU state and the guest-memory accesses made.

* `cpu_reset` is the core reset of the CPU emulation, which is not among the sources: it
  is a parameter, and by its type changes nothing but the CPU state.
* `old_param` is the global of that name, `is_first_cpu` the test `env == first_cpu`.
* `fuel` bounds the zero-fill loop of `set_kernel_args_old`, `atag_board_buf` is the
  initial content of the scratch array of `set_kernel_args`.
* The result is `none` if the zero-fill loop runs out of fuel or if the hook called is
  `NULL`. -/
def do_cpu_reset (t : Target) (cpu_reset : CPUState → CPUState) (old_param : Bool)
    (fuel : Nat) (atag_board_buf : Nat → Nat) (is_first_cpu : Bool)
    (boot_info : Option arm_boot_info) (env : CPUState) : Option (CPUState × List MemOp) :=
  let info := boot_info
  let env := cpu_reset env
  match info with
  | none => some (env, [])
  | some info =>
    if !info.is_linux then
      /- Jump to the entry point. -/
      let env := env.set_reg 15 (u32 (info.entry &&& 0xfffffffe))
      let env := { env with thumb := info.entry &&& 1 }
      some (env, [])
    else if is_first_cpu then
      let env := env.set_reg 15 (u32 info.loader_start)
      if old_param then
        (set_kernel_args_old t info fuel).map (fun ops => (env, ops))
      else
        some (env, set_kernel_args t info atag_board_buf)
    else
      match info.secondary_cpu_reset_hook with
      | some hook => some (hook env)
      | none => none

/-- A core reset used in examples: every register and the `thumb` flag become 0. -/
def zero_cpu_reset (_env : CPUState) : CPUState := { regs := fun _ => 0, thumb := 0 }

/-- A CPU state used in examples. -/
def example_env : CPUState := { regs := fun i => 0x1000 + i, thumb := 1 }

/-- The address `a` lies in the range of some access of the trace. -/
def Covered (ops : List MemOp) (a : Nat) : Prop :=
  ∃ op ∈ ops, op.lo ≤ a ∧ a < op.lo + op.len

/-- The configuration `full_info` booted OS-style on four CPUs, with the default
secondary reset hook installed. -/
def smp_info : arm_boot_info :=
  { full_info with
    is_linux := true, nb_cpus := 4, entry := 0x18000,
    smp_loader_start := 0x4000, smp_bootreg_addr := 0x10000030, gic_cpu_if_addr := 0x1e000100,
    secondary_cpu_reset_hook :=
      some (default_reset_secondary
        { smp_loader_start := 0x4000, smp_bootreg_addr := 0x10000030 }) }

/-! ## Resetting the CPUs of a machine -/

/-- The CPUs of a machine, by index, and its guest memory; CPU 0 is `first_cpu`. -/
structure Machine where
  cpus : Nat → CPUState
  mem : Mem

/-- Modelled from the spec: the reset sequencer (not among the sources) invokes the reset
callback `do_cpu_reset` registered for CPU `i`, every CPU sharing the same `boot_info`;
the accesses the callback makes are applied to guest memory. -/
def reset_cpu (t : Target) (cpu_reset : CPUState → CPUState) (old_param : Bool) (fuel : Nat)
    (atag_board_buf : Nat → Nat) (info : arm_boot_info) (s : Machine) (i : Nat) :
    Option Machine :=
  (do_cpu_reset t cpu_reset old_param fuel atag_board_buf (i == 0) (some info) (s.cpus i)).map
    fun r => { cpus := fun j => if j = i then r.1 else s.cpus j, mem := run_ops t s.mem r.2 }

/-- Reset the CPUs listed in `order`, one after the other. -/
def reset_cpus (t : Target) (cpu_reset : CPUState → CPUState) (old_param : Bool) (fuel : Nat)
    (atag_board_buf : Nat → Nat) (info : arm_boot_info) : Machine → List Nat → Option Machine
  | s, [] => some s
  | s, i :: rest =>
    (reset_cpu t cpu_reset old_param fuel atag_board_buf info s i).bind
      (fun s' => reset_cpus t cpu_reset old_param fuel atag_board_buf info s' rest)

/-- A four-CPU configuration whose boot register is the first word of the
boot-parameter block. -/
def overlap_info : arm_boot_info :=
  { ram_size := 0x10000000, loader_start := 0x8000, is_linux := true, nb_cpus := 4,
    smp_loader_start := 0x4000, smp_bootreg_addr := 0x8100,
    secondary_cpu_reset_hook :=
      some (default_reset_secondary { smp_loader_start := 0x4000, smp_bootreg_addr := 0x8100 }) }

/-- A machine whose CPUs are all in the state `example_env` and whose memory is zero. -/
def example_machine : Machine := { cpus := fun _ => example_env, mem := zero_bytes }

/-- The configuration `overlap_info` with its boot register moved away from the
boot-parameter block. -/
def apart_info : arm_boot_info :=
  { overlap_info with
    smp_bootreg_addr := 0x10000030,
    secondary_cpu_reset_hook :=
      some (default_reset_secondary
        { smp_loader_start := 0x4000, smp_bootreg_addr := 0x10000030 }) }

/-! ## The secondary-CPU spin loop -/

/-- The static array `smpboot[]` as initialised (lines 45-57). -/
def smpboot : List Nat :=
  [ 0xe59f201c, /- ldr r2, gic_cpu_if -/
    0xe59f001c, /- ldr r0, startaddr -/
    0xe3a01001, /- mov r1, #1 -/
    0xe5821000, /- str r1, [r2] -/
    0xe320f003, /- wfi -/
    0xe5901000, /- ldr     r1, [r0] -/
    0xe1110001, /- tst     r1, r1 -/
    0x0afffffb, /- beq     <wfi> -/
    0xe12fff11, /- bx      r1 -/
    0,          /- gic_cpu_if: base address of GIC CPU interface -/
    0           /- bootreg: Boot register address is held here -/ ]

/-- Lines 63-67 of `default_write_secondary`: patch the two literal words of the array
`sb` (the current content of `smpboot[]`) and convert every word with `tswap32`. -/
def patch_smpboot (t : Target) (sb : List Nat) (info : arm_boot_info) : List Nat :=
  let sb := sb.set (sb.length - 1) (u32 info.smp_bootreg_addr)
  let sb := sb.set (sb.length - 2) (u32 info.gic_cpu_if_addr)
  sb.map (tswap32 t)

/-- Lines 59-70: `default_write_secondary(env, info)`, on the first call: the blob
registered with `rom_add_blob_fixed` at `smp_loader_start`. -/
def default_write_secondary (t : Target) (info : arm_boot_info) : MemOp :=
  MemOp.write info.smp_loader_start (host_bytes t (patch_smpboot t smpboot info))

/-- The words of the spin-loop blob as the specification lists them: the nine
instructions, then `gic_cpu_if_addr` and `smp_bootreg_addr`. -/
def smpboot_words (info : arm_boot_info) : List Nat :=
  [0xe59f201c, 0xe59f001c, 0xe3a01001, 0xe5821000, 0xe320f003, 0xe5901000, 0xe1110001,
   0x0afffffb, 0xe12fff11, u32 info.gic_cpu_if_addr, u32 info.smp_bootreg_addr]

/-- A secondary core parked by `default_reset_secondary`: `regs 15` is
`smp_loader_start`; the other registers, the flags and guest memory are those given. -/
def spin_start (info : arm_boot_info) (regs : Nat → Nat) (zf : Bool) (m : Mem) : Core :=
  { regs := fun i => if i = 15 then info.smp_loader_start else regs i, mem := m, zf := zf }

/-- Guest memory for the spin-loop example: the word stored at `0x8000` is
`0x12345678`, the spin-loop blob of `smp_info` is in place, and the boot register at
`0x10000030` holds 0. -/
def spin_example_mem : Mem :=
  MemOp.apply arm_le32 (stl_phys_notdirty arm_le32 zero_bytes 0x8000 0x12345678)
    (default_write_secondary arm_le32 smp_info)

/-! ## Loading the kernel: `arm_load_kernel` -/

/-- Modelled from the spec: the image loaders of `loader.c` (not among the sources) are
opaque services that report a size, negative on failure, and an entry point.

* `load_elf filename` is the call `load_elf(filename, NULL, NULL, &elf_entry, NULL, NULL,
  env->bigendian, ELF_MACHINE, 1)`: the `int` returned and the value of `elf_entry`
  after the call.
* `load_uimage filename entry is_linux` is the call `load_uimage(filename, &entry, NULL,
  &is_linux)` made when `entry` and `is_linux` hold the values given: the `int` returned
  and the values of `entry` and `is_linux` after the call.
* `load_image_targphys filename addr max_sz` is the call of that name: the `int`
  returned. -/
structure Loaders where
  load_elf : List Nat → Int × Nat
  load_uimage : List Nat → Nat → Int → Int × Nat × Int
  load_image_targphys : List Nat → Nat → Int → Int

/-- The C string `"vmlinux"`. -/
def vmlinux : List Nat := [118, 109, 108, 105, 110, 117, 120]

/-- The test `strstr(haystack, needle) != NULL` of the C library: `needle` occurs in
`haystack`. -/
def strstr (haystack needle : List Nat) : Bool :=
  haystack.tails.any (fun tl => needle.isPrefixOf tl)

/-- The three places where `arm_load_kernel` ends the process with `exit(1)`: line 255
(no kernel file name), line 287 (no loader took the kernel) and line 299 (the initrd
could not be loaded). -/
inductive Fatal where
  | no_kernel
  | kernel_load
  | initrd_load
  deriving DecidableEq

/-- What `arm_load_kernel` reads and changes besides `info`: the static arrays
`bootloader[]` and `smpboot[]`, the blobs registered with `rom_add_blob_fixed` (oldest
first), the number of calls of `info->write_secondary_boot`, and the CPUs for which
`qemu_register_reset(do_cpu_reset, env)` was called, each with the `boot_info` attached
to it. -/
structure LoaderState where
  bootloader : List Nat
  smpboot : List Nat
  roms : List MemOp
  secondary_boot_calls : Nat
  resets : List (Nat × arm_boot_info)

/-- The state of a process in which `arm_load_kernel` has not run yet. -/
def initial_state : LoaderState :=
  { bootloader := bootloader, smpboot := smpboot, roms := [], secondary_boot_calls := 0,
    resets := [] }

/-- How a call of `arm_load_kernel` ends: `fatal` is `some` when it ended in `exit(1)`,
`info` and `st` are the configuration and the state at that moment. -/
structure LoadResult where
  fatal : Option Fatal
  info : arm_boot_info
  st : LoaderState

/-- Lines 268-283 of `arm_load_kernel`: the three loaders tried in turn on the kernel
file. The result is the final `kernel_size`, `entry` and `is_linux`. `entry` has the
type `target_phys_addr_t`; `ram_size` is the global of that name. -/
def arm_load_kernel_image (t : Target) (ld : Loaders) (ram_size : Nat)
    (info : arm_boot_info) (kernel_filename : List Nat) : Int × Nat × Int :=
  let is_linux : Int := if strstr kernel_filename vmlinux then 1 else 0
  let kernel_size := (ld.load_elf kernel_filename).1
  let elf_entry := (ld.load_elf kernel_filename).2
  let entry := t.paddr elf_entry
  let r : Int × Nat × Int :=
    if kernel_size < 0 then
      let u := ld.load_uimage kernel_filename entry is_linux
      (u.1, t.paddr u.2.1, u.2.2)
    else (kernel_size, entry, is_linux)
  if r.1 < 0 then
    let entry := t.paddr (info.loader_start + KERNEL_LOAD_ADDR)
    (ld.load_image_targphys kernel_filename entry ((ram_size : Int) - KERNEL_LOAD_ADDR),
      entry, 1)
  else r

/-- Lines 59-70: `default_write_secondary(env, info)` on the state `st`: the array
`smpboot[]` is patched and converted in place, and registered as a blob. -/
def default_write_secondary_on (t : Target) (info : arm_boot_info) (st : LoaderState) :
    LoaderState :=
  let sb := patch_smpboot t st.smpboot info
  { st with
    smpboot := sb
    roms := st.roms ++ [MemOp.write info.smp_loader_start (host_bytes t sb)] }

/-- Line 313: the call `info->write_secondary_boot(env, info)`. The pointer is not `NULL`
at this place (lines 261-263). -/
def write_secondary_boot (t : Target) (info : arm_boot_info) (st : LoaderState) :
    LoaderState :=
  let st := { st with secondary_boot_calls := st.secondary_boot_calls + 1 }
  match info.write_secondary_boot with
  | some SecondaryBoot.default_hook => default_write_secondary_on t info st
  | some (SecondaryBoot.board_hook blobs) => { st with roms := st.roms ++ blobs }
  | none => st

/-- Lines 304-314 of `arm_load_kernel`: the array `bootloader[]` is patched and converted
in place and registered as a blob at `loader_start`; with more than one CPU the
secondary boot code is written. -/
def arm_load_kernel_blobs (t : Target) (info : arm_boot_info) (entry : Nat)
    (st : LoaderState) : LoaderState :=
  let bl := patch_bootloader t st.bootloader info entry
  let st : LoaderState :=
    { st with
      bootloader := bl
      roms := st.roms ++ [MemOp.write info.loader_start (host_bytes t bl)] }
  if info.nb_cpus > 1 then write_secondary_boot t info st else st

/-- Lines 317-322 of `arm_load_kernel`: `is_linux` is stored, and every CPU of the list
`envs` (the chain `env`, `env->next_cpu`, ...) gets `boot_info` and a reset callback. -/
def arm_load_kernel_finish (envs : List Nat) (is_linux : Int) (info : arm_boot_info)
    (st : LoaderState) : LoadResult :=
  let info := { info with is_linux := decide (is_linux ≠ 0) }
  { fatal := none, info := info,
    st := { st with resets := st.resets ++ envs.map (fun env => (env, info)) } }

/-- Lines 258-266 of `arm_load_kernel`: the two hooks and the number of CPUs get their
defaults. `default_reset_secondary` reads `smp_loader_start` and `smp_bootreg_addr` only,
which `arm_load_kernel` does not change, so the hook installed at line 259 is the
function applied to the `info` of that moment. -/
def arm_load_kernel_defaults (info : arm_boot_info) : arm_boot_info :=
  let info :=
    match info.secondary_cpu_reset_hook with
    | none => { info with secondary_cpu_reset_hook := some (default_reset_secondary info) }
    | some _ => info
  let info :=
    match info.write_secondary_boot with
    | none => { info with write_secondary_boot := some SecondaryBoot.default_hook }
    | some _ => info
  if info.nb_cpus = 0 then { info with nb_cpus := 1 } else info

/-- Lines 243-323: `arm_load_kernel(env, info)`.

* `ld` are the loaders, `ram_size` is the global of that name, `envs` the CPUs reached
  from `env` through `next_cpu`.
* The `int` stored in `info->is_linux` is kept as the truth value the code tests, and
  the non-negative `int` stored in `info->initrd_size` as a natural number. -/
def arm_load_kernel (t : Target) (ld : Loaders) (ram_size : Nat) (envs : List Nat)
    (info : arm_boot_info) (st : LoaderState) : LoadResult :=
  /- Load the kernel. -/
  match info.kernel_filename with
  | none => { fatal := some Fatal.no_kernel, info := info, st := st }
  | some kernel_filename =>
    let info := arm_load_kernel_defaults info
    let img := arm_load_kernel_image t ld ram_size info kernel_filename
    let kernel_size := img.1
    let entry := img.2.1
    let is_linux := img.2.2
    if kernel_size < 0 then { fatal := some Fatal.kernel_load, info := info, st := st }
    else
      let info := { info with entry := entry }
      if is_linux ≠ 0 then
        match info.initrd_filename with
        | some initrd_filename =>
          let initrd_size :=
            ld.load_image_targphys initrd_filename
              (t.paddr (info.loader_start + INITRD_LOAD_ADDR))
              ((ram_size : Int) - INITRD_LOAD_ADDR)
          if initrd_size < 0 then
            { fatal := some Fatal.initrd_load, info := info, st := st }
          else
            let st := arm_load_kernel_blobs t info entry st
            let info := { info with initrd_size := initrd_size.toNat }
            arm_load_kernel_finish envs is_linux info st
        | none =>
          let initrd_size : Int := 0
          let st := arm_load_kernel_blobs t info entry st
          let info := { info with initrd_size := initrd_size.toNat }
          arm_load_kernel_finish envs is_linux info st
      else arm_load_kernel_finish envs is_linux info st

/-- The blobs registered by the call `info->write_secondary_boot(env, info)` in the state
`st`, the hook being `default_write_secondary` when `info` names none. -/
def secondary_blobs (t : Target) (info : arm_boot_info) (st : LoaderState) : List MemOp :=
  match info.write_secondary_boot with
  | some (SecondaryBoot.board_hook blobs) => blobs
  | _ => [MemOp.write info.smp_loader_start (host_bytes t (patch_smpboot t st.smpboot info))]

/-- The C string `"kernel"`: a file name in which `"vmlinux"` does not occur. -/
def kernel_name : List Nat := [107, 101, 114, 110, 101, 108]

/-- Loaders whose ELF loader succeeds with entry point `0x18000`; the initrd loads with
size `0x1000`. -/
def elf_loaders : Loaders :=
  { load_elf := fun _ => (0x2000, 0x18000)
    load_uimage := fun _ e l => (-1, e, l)
    load_image_targphys := fun _ _ _ => 0x1000 }

/-- Loaders whose ELF loader fails and whose legacy-image loader succeeds, reporting the
entry point `0x28000` and an image that is not a Linux kernel. -/
def uimage_loaders : Loaders :=
  { load_elf := fun _ => (-1, 0)
    load_uimage := fun _ _ _ => (0x3000, 0x28000, 0)
    load_image_targphys := fun _ _ _ => 0x1000 }

/-- Loaders whose ELF and legacy-image loaders fail; raw loading succeeds. -/
def raw_loaders : Loaders :=
  { load_elf := fun _ => (-1, 0)
    load_uimage := fun _ e l => (-1, e, l)
    load_image_targphys := fun _ _ _ => 0x1000 }

/-- Loaders that all fail. -/
def failing_loaders : Loaders :=
  { load_elf := fun _ => (-1, 0)
    load_uimage := fun _ e l => (-1, e, l)
    load_image_targphys := fun _ _ _ => -1 }

/-- Loaders whose ELF loader succeeds and whose `load_image_targphys` fails. -/
def initrd_failing_loaders : Loaders :=
  { load_elf := fun _ => (0x2000, 0x18000)
    load_uimage := fun _ e l => (-1, e, l)
    load_image_targphys := fun _ _ _ => -1 }

/-- A board configuration before loading: kernel file `"kernel"`, no initrd, and an
`initrd_size` field that holds 5. -/
def stale_info : arm_boot_info :=
  { ram_size := 0x10000000, loader_start := 0x8000, board_id := 0x183,
    kernel_filename := some kernel_name, initrd_size := 5 }

/-- A four-CPU board configuration before loading: kernel file `"vmlinux"`, initrd file
`"kernel"`, no hooks set. -/
def quad_info : arm_boot_info :=
  { ram_size := 0x10000000, loader_start := 0x8000, board_id := 0x183,
    kernel_filename := some vmlinux, initrd_filename := some kernel_name, nb_cpus := 4,
    smp_loader_start := 0x4000, smp_bootreg_addr := 0x10000030,
    gic_cpu_if_addr := 0x1e000100 }

/-- A configuration whose `ram_size` of 4 GiB does not fit a 32-bit tag word; it has no
initrd, revision, command line or board callback. -/
def wide_ram_info : arm_boot_info :=
  { ram_size := 0x100000000, loader_start := 0x8000 }

end ArmBoot

namespace S3C24xx

/-! # Samsung S3C24XX GPIO (`hw/s3c24xx_gpio.c`) -/

def S3C_GPIO_GPECON : Nat := 0x40
def S3C_GPIO_GPEDAT : Nat := 0x44
def S3C_GPIO_EINT_MASK : Nat := 0xA4
def S3C_GPIO_EINT_PEND : Nat := 0xA8
def S3C_GPIO_GSTATUS4 : Nat := 0xBC

/-- The macro `GPRN(r)`: the index of the register at byte offset `r`. -/
def GPRN (r : Nat) : Nat := r >>> 2

/-- Number of elements of the array `gpio_reg` (line 32). -/
def gpio_reg_len : Nat := 47

/-- Lines 31-37: the state of the GPIO controller. `gpio_reg` is the array
`uint32_t gpio_reg[47]` as a function of the index the code uses; an index of 47 or more
is not an element of the array. The handles `irqs[0..5]` are kept as `irq_level`, the
level last set on each of them with `qemu_set_irq` (from `irq.c`, not among the
sources). -/
structure s3c24xx_gpio_state_s where
  gpio_reg : Nat → Nat
  irq_level : Nat → Nat

/-- The macro `GPR(P)`, read: `s->gpio_reg[P>>2]`. -/
def GPR (s : s3c24xx_gpio_state_s) (P : Nat) : Nat := s.gpio_reg (P >>> 2)

/-- Assignment to `s->gpio_reg[i]`. -/
def s3c24xx_gpio_state_s.set_reg (s : s3c24xx_gpio_state_s) (i v : Nat) :
    s3c24xx_gpio_state_s :=
  { s with gpio_reg := fun j => if j = i then v else s.gpio_reg j }

/-- The operator `~` on a `uint32_t`. -/
def not32 (v : Nat) : Nat := 0xffffffff ^^^ v

/-- Lines 39-55: `s3c24xx_gpio_propogate_eint(s)`. -/
def s3c24xx_gpio_propogate_eint (s : s3c24xx_gpio_state_s) : s3c24xx_gpio_state_s :=
  let ints := GPR s S3C_GPIO_EINT_PEND &&& not32 (GPR s S3C_GPIO_EINT_MASK)
  { s with
    irq_level := fun i =>
      /- EINT0 - EINT3 are INT0 - INT3 -/
      if i < 4 then (if ints &&& (1 <<< i) ≠ 0 then 1 else 0)
      /- EINT4 - EINT7 are INT4 -/
      else if i = 4 then (if ints &&& 0xf0 ≠ 0 then 1 else 0)
      /- EINT8 - EINT23 are INT5 -/
      else if i = 5 then (if ints &&& 0x00ffff00 ≠ 0 then 1 else 0)
      else s.irq_level i }

/-- Lines 57-69: `gpio_con_to_mask(con)`. -/
def gpio_con_to_mask (con : Nat) : Nat :=
  (List.range 16).foldl
    (fun mask bit => if (con >>> (bit * 2)) &&& 0x3 = 0x01 then mask ||| (1 <<< bit) else mask)
    0x0

/-- Lines 75-78 of `s3c24xx_gpio_write_f`: the value of `addr` with which the function
indexes `gpio_reg`. -/
def s3c24xx_gpio_write_index (addr_ : Nat) : Nat :=
  let addr : Int := (((addr_ >>> 2) &&& 0x3f : Nat) : Int)
  let addr : Int := if addr < 0 ∨ addr > 47 then 47 else addr
  addr.toNat

/-- Lines 71-104: `s3c24xx_gpio_write_f(opaque, addr_, value)`. -/
def s3c24xx_gpio_write_f (s : s3c24xx_gpio_state_s) (addr_ value : Nat) :
    s3c24xx_gpio_state_s :=
  let value := ArmBoot.u32 value
  let addr := s3c24xx_gpio_write_index addr_
  let value :=
    if addr = S3C_GPIO_EINT_MASK >>> 2 then
      value &&& 0xfffffff0 /- cannot mask EINT0-EINT3 -/
    else value
  let s :=
    if addr = S3C_GPIO_EINT_PEND >>> 2 then
      s.set_reg addr (s.gpio_reg addr &&& not32 value)
    else if addr < 0x80 / 4 ∧ addr_ &&& 0xf = 0x04 then
      let mask := gpio_con_to_mask (s.gpio_reg (addr - 1))
      let value := value &&& mask
      let s := s.set_reg addr (s.gpio_reg addr &&& not32 mask)
      s.set_reg addr (s.gpio_reg addr ||| value)
    else s.set_reg addr value
  if addr = S3C_GPIO_EINT_MASK >>> 2 ∨ addr = S3C_GPIO_EINT_PEND >>> 2 then
    /- A write to the EINT regs leads us to determine the interrupts to propagate -/
    s3c24xx_gpio_propogate_eint s
  else s

/-- Lines 110-114 of `s3c24xx_gpio_read_f`: the value of `addr` with which the function
indexes `gpio_reg`. -/
def s3c24xx_gpio_read_index (addr_ : Nat) : Nat :=
  let addr := ArmBoot.u32 (addr_ >>> 2)
  if addr > GPRN S3C_GPIO_GSTATUS4 then GPRN S3C_GPIO_GSTATUS4 else addr

/-- Lines 106-132: `s3c24xx_gpio_read_f(opaque, addr_)`. -/
def s3c24xx_gpio_read_f (s : s3c24xx_gpio_state_s) (addr_ : Nat) : Nat :=
  let addr := s3c24xx_gpio_read_index addr_
  let ret := s.gpio_reg addr
  if addr = GPRN S3C_GPIO_GPEDAT then
    let ret := if GPR s S3C_GPIO_GPECON &&& (3 <<< 28) = 0 then ret ||| (1 <<< 14) else ret
    if GPR s S3C_GPIO_GPECON &&& (3 <<< 30) = 0 then ret ||| (1 <<< 15) else ret
  else ret

/-- A controller state for the examples: `EINT_PEND` holds `0x13`, `EINT_MASK` holds
`0xfffff0`, every other register and every interrupt line is 0. -/
def example_gpio : s3c24xx_gpio_state_s :=
  { gpio_reg := fun i => if i = 42 then 0x13 else if i = 41 then 0xfffff0 else 0
    irq_level := fun _ => 0 }

end S3C24xx

namespace BCM2835

/-! # BCM2835 mini UART (`hw/char/bcm2835_aux.c`) -/

/-- Lines 20-29: the fields of `BCM2835_AUXState` that make up the receive FIFO.
`read_fifo` is the array `uint32_t read_fifo[8]` as a function of the index the code
uses; an index outside `0 .. 7` is not an element of the array. `read_pos` and
`read_count` are `int`. -/
structure BCM2835_AUXState where
  read_fifo : Int → Nat
  read_pos : Int
  read_count : Int

/-- The state of a device just created: the object is zero-initialised. -/
def aux_reset : BCM2835_AUXState :=
  { read_fifo := fun _ => 0, read_pos := 0, read_count := 0 }

/-- Lines 31-56: `bcm2835_aux_read(opaque, offset, size)`: the new state and the value
returned. The call `qemu_chr_accept_input` tells the character layer that input is
welcome again; what the layer then delivers is a later operation. -/
def bcm2835_aux_read (s : BCM2835_AUXState) (offset : Nat) : BCM2835_AUXState × Nat :=
  if offset >>> 2 = 16 then
    /- AUX_MU_IO_REG -/
    let c := s.read_fifo s.read_pos
    let s :=
      if s.read_count > 0 then
        let s := { s with read_count := s.read_count - 1 }
        let s := { s with read_pos := s.read_pos + 1 }
        if s.read_pos = 8 then { s with read_pos := 0 } else s
      else s
    (s, c)
  else if offset >>> 2 = 25 then
    /- AUX_MU_STAT_REG -/
    (s, 0x02)
  else (s, 0)

/-- Lines 76-81: `bcm2835_aux_can_receive(opaque)`, as the truth value of its result. -/
def bcm2835_aux_can_receive (s : BCM2835_AUXState) : Bool :=
  decide (s.read_count < 8)

/-- Lines 88-90 of `bcm2835_aux_put_fifo`: the value of `slot` with which the function
indexes `read_fifo`. -/
def bcm2835_aux_put_slot (s : BCM2835_AUXState) : Int :=
  let slot := s.read_pos + s.read_count
  if slot ≥ 8 then slot - 8 else slot

/-- Lines 83-96: `bcm2835_aux_put_fifo(opaque, value)`. -/
def bcm2835_aux_put_fifo (s : BCM2835_AUXState) (value : Nat) : BCM2835_AUXState :=
  let slot := bcm2835_aux_put_slot s
  { s with
    read_fifo := fun i => if i = slot then ArmBoot.u32 value else s.read_fifo i
    read_count := s.read_count + 1 }

/-- Lines 98-101: `bcm2835_aux_receive(opaque, buf, size)`; `c` is the byte `*buf`. -/
def bcm2835_aux_receive (s : BCM2835_AUXState) (c : Nat) : BCM2835_AUXState :=
  bcm2835_aux_put_fifo s (c % 256)

/-- The event code `CHR_EVENT_BREAK` of `sysemu/char.h` (not among the sources). -/
def CHR_EVENT_BREAK : Nat := 0

/-- Lines 103-107: `bcm2835_aux_event(opaque, event)`. -/
def bcm2835_aux_event (s : BCM2835_AUXState) (event : Nat) : BCM2835_AUXState :=
  if event = CHR_EVENT_BREAK then bcm2835_aux_put_fifo s 0x400 else s

/-- An operation on the mini UART: a register read at `offset`, a character `c`
offered by the character layer, or an event. -/
inductive AuxOp where
  | read (offset : Nat)
  | receive (c : Nat)
  | event (event : Nat)

/-- Modelled from the spec: the character layer (`qemu-char.c`, not among the sources)
calls the handlers registered at line 144. It hands over a character with
`bcm2835_aux_receive` only when `bcm2835_aux_can_receive` has returned non-zero, and
keeps it otherwise; it calls `bcm2835_aux_event` without asking. -/
def aux_step (s : BCM2835_AUXState) : AuxOp → BCM2835_AUXState
  | AuxOp.read offset => (bcm2835_aux_read s offset).1
  | AuxOp.receive c => if bcm2835_aux_can_receive s then bcm2835_aux_receive s c else s
  | AuxOp.event event => bcm2835_aux_event s event

/-- A sequence of operations, first operation first. -/
def aux_run (s : BCM2835_AUXState) (ops : List AuxOp) : BCM2835_AUXState :=
  ops.foldl aux_step s

/-- The bounds the FIFO indices are meant to keep. -/
def aux_bounds (s : BCM2835_AUXState) : Prop :=
  0 ≤ s.read_pos ∧ s.read_pos < 8 ∧ 0 ≤ s.read_count ∧ s.read_count ≤ 8

instance (s : BCM2835_AUXState) : Decidable (aux_bounds s) := by
  unfold aux_bounds
  infer_instance

/-- The `n` entries of the ring `fifo` from position `pos` on, oldest first. -/
def fifo_entries (fifo : Int → Nat) : Int → Nat → List Nat
  | _, 0 => []
  | pos, n + 1 => fifo pos :: fifo_entries fifo ((pos + 1) % 8) n

/-- The characters waiting in the FIFO, oldest first. -/
def aux_pending (s : BCM2835_AUXState) : List Nat :=
  fifo_entries s.read_fifo s.read_pos s.read_count.toNat

/-- The values `vs` pushed one after the other. -/
def aux_put_all (s : BCM2835_AUXState) (vs : List Nat) : BCM2835_AUXState :=
  vs.foldl bcm2835_aux_put_fifo s

/-- `n` successive reads of `AUX_MU_IO_REG` (offset `0x40`): the final state and the
values returned, first read first. -/
def aux_read_n (s : BCM2835_AUXState) : Nat → BCM2835_AUXState × List Nat
  | 0 => (s, [])
  | n + 1 =>
    let r := bcm2835_aux_read s 0x40
    let rest := aux_read_n r.1 n
    (rest.1, r.2 :: rest.2)

/-- Eight characters received and then a break event. -/
def overflow_ops : List AuxOp :=
  List.replicate 8 (AuxOp.receive 0x41) ++ [AuxOp.event CHR_EVENT_BREAK]

/-- Seven characters received and read, eight more received, then a break event. -/
def wrapped_overflow_ops : List AuxOp :=
  (List.replicate 7 [AuxOp.receive 0x41, AuxOp.read 0x40]).flatten
    ++ List.replicate 8 (AuxOp.receive 0x42) ++ [AuxOp.event CHR_EVENT_BREAK]

/-! # BCM2835 property mailbox (`hw/misc/bcm2835_property.c`) -/

/-- The fields of the global `bcm2835_fb` (declared in `hw/arm/bcm2835_common.h`, not
among the sources) that the property channel reads and writes, as natural numbers. -/
structure bcm2835_fb_type where
  lock : Nat
  invalidate : Nat
  base : Nat
  pitch : Nat
  size : Nat
  xres : Nat
  yres : Nat
  bpp : Nat
  pixo : Nat
  alpha : Nat
  xoffset : Nat
  yoffset : Nat

/-- What `bcm2835_common.h` (not among the sources) provides besides `bcm2835_fb`: the
byte order of the guest, the global `bcm2835_vcram_base` and the constants `VCRAM_SIZE`
and `BCM2835_FB_OFFSET`. -/
structure PropertyEnv where
  t : ArmBoot.Target
  bcm2835_vcram_base : Nat
  VCRAM_SIZE : Nat
  BCM2835_FB_OFFSET : Nat

/-- What `bcm2835_property_mbox_push` reads and changes: guest memory, the global
`bcm2835_fb`, the field `s->addr`, and the calls of `qemu_console_resize` with their
width and height. -/
structure PropertyWorld where
  mem : ArmBoot.Mem
  fb : bcm2835_fb_type
  addr : Nat
  resizes : List (Nat × Nat)

/-- Modelled from the spec: `ldl_phys(&address_space_memory, addr)` (from `exec.c`, not
among the sources) loads the 32-bit word at `addr` in the guest's byte order. -/
def ldl (env : PropertyEnv) (w : PropertyWorld) (addr : Nat) : Nat :=
  ArmBoot.u32 (ArmBoot.ldl_phys env.t w.mem addr)

/-- Modelled from the spec: `stl_phys(&address_space_memory, addr, val)` (from `exec.c`,
not among the sources) stores the 32-bit value `val` at `addr` in the guest's byte
order. -/
def stl (env : PropertyEnv) (w : PropertyWorld) (addr val : Nat) : PropertyWorld :=
  { w with mem := ArmBoot.stl_phys_notdirty env.t w.mem addr val }

/-- Modelled from the spec: `stb_phys(&address_space_memory, addr, val)` (from `exec.c`,
not among the sources) stores the byte `val` at `addr`. -/
def stb (w : PropertyWorld) (addr val : Nat) : PropertyWorld :=
  { w with mem := ArmBoot.cpu_physical_memory_write w.mem addr [val % 256] }

/-- Lines 27-38: `update_fb()`. -/
def update_fb (env : PropertyEnv) (fb : bcm2835_fb_type) : bcm2835_fb_type :=
  let fb := { fb with lock := 1 }
  let fb := { fb with base := env.bcm2835_vcram_base }
  let fb := { fb with base := fb.base + env.BCM2835_FB_OFFSET }
  let fb := { fb with pitch := fb.xres * (fb.bpp >>> 3) }
  { fb with size := fb.yres * fb.pitch }

/-- Lines 266-274: the loop of the tag "Set palette", for a number of colours
`length - offset` (as `uint32_t`) that `int n` can hold. -/
def set_palette (env : PropertyEnv) (w : PropertyWorld) (value offset length : Nat) :
    PropertyWorld :=
  (List.range (ArmBoot.u32 (length + 2 ^ 32 - offset))).foldl
    (fun w n =>
      let color := ldl env w (ArmBoot.u32 (value + 20 + (n <<< 2)))
      stl env w (env.bcm2835_vcram_base + ArmBoot.u32 ((offset + n) <<< 2)) color)
    w

/-- Lines 74-293: the `switch (tag)` of one turn of the loop, for the tag at guest
address `value`: the new state and `resplen`. The sums `value + 12`, ... are `uint32_t`. -/
def property_tag (env : PropertyEnv) (w : PropertyWorld) (value tag : Nat) :
    PropertyWorld × Nat :=
  let a12 := ArmBoot.u32 (value + 12)
  let a16 := ArmBoot.u32 (value + 16)
  if tag = 0x00000000 then /- End tag -/ (w, 0)
  else if tag = 0x00000001 then /- Get firmware revision -/ (stl env w a12 346337, 4)
  else if tag = 0x00010001 then /- Get board model -/ (w, 4)
  else if tag = 0x00010002 then /- Get board revision -/ (w, 4)
  else if tag = 0x00010003 then
    /- Get board MAC address -/
    let w := stl env w a12 0xB827EBD0
    let w := stb w a16 0xEE
    let w := stb w (ArmBoot.u32 (value + 17)) 0xDF
    (w, 6)
  else if tag = 0x00010004 then /- Get board serial -/ (w, 8)
  else if tag = 0x00010005 then
    /- Get ARM memory -/
    (stl env (stl env w a12 0) a16 env.bcm2835_vcram_base, 8)
  else if tag = 0x00010006 then
    /- Get VC memory -/
    (stl env (stl env w a12 env.bcm2835_vcram_base) a16 env.VCRAM_SIZE, 8)
  else if tag = 0x00028001 then
    /- Set power state -/
    let tmp := ldl env w a16
    (stl env w a16 (tmp &&& 1), 8)
  else if tag = 0x00030001 then /- Get clock state -/ (stl env w a16 0x1, 8)
  else if tag = 0x00038001 then /- Set clock state -/ (w, 8)
  else if tag = 0x00030002 ∨ tag = 0x00030004 ∨ tag = 0x00030007 then
    /- Get clock rate, Get max clock rate, Get min clock rate -/
    let w :=
      if ldl env w a12 = 1 then /- EMMC -/ stl env w a16 50000000
      else if ldl env w a12 = 2 then /- UART -/ stl env w a16 3000000
      else stl env w a16 700000000
    (w, 8)
  else if tag = 0x00038002 ∨ tag = 0x00038004 ∨ tag = 0x00038007 then
    /- Set clock rate, Set max clock rate, Set min clock rate -/ (w, 8)
  else if tag = 0x00030006 then /- Get temperature -/ (stl env w a16 25000, 8)
  else if tag = 0x0003000A then /- Get max temperature -/ (stl env w a16 99000, 8)
  else if tag = 0x00040001 then
    /- Allocate buffer -/
    (stl env (stl env w a12 w.fb.base) a16 w.fb.size, 8)
  else if tag = 0x00048001 then /- Release buffer -/ (w, 0)
  else if tag = 0x00040002 then /- Blank screen -/ (w, 4)
  else if tag = 0x00040003 ∨ tag = 0x00040004 then
    /- Get display width/height -/
    (stl env (stl env w a12 w.fb.xres) a16 w.fb.yres, 8)
  else if tag = 0x00044003 ∨ tag = 0x00044004 then /- Test display width/height -/ (w, 8)
  else if tag = 0x00048003 ∨ tag = 0x00048004 then
    /- Set display width/height -/
    let fb := { w.fb with xres := ldl env w a12 }
    let fb := { fb with yres := ldl env w a16 }
    ({ w with fb := update_fb env fb }, 8)
  else if tag = 0x00040005 then /- Get depth -/ (stl env w a12 w.fb.bpp, 4)
  else if tag = 0x00044005 then /- Test depth -/ (w, 4)
  else if tag = 0x00048005 then
    /- Set depth -/
    ({ w with fb := update_fb env { w.fb with bpp := ldl env w a12 } }, 4)
  else if tag = 0x00040006 then /- Get pixel order -/ (stl env w a12 w.fb.pixo, 4)
  else if tag = 0x00044006 then /- Test pixel order -/ (w, 4)
  else if tag = 0x00048006 then
    /- Set pixel order -/
    ({ w with fb := update_fb env { w.fb with pixo := ldl env w a12 } }, 4)
  else if tag = 0x00040007 then /- Get alpha -/ (stl env w a12 w.fb.alpha, 4)
  else if tag = 0x00044007 then /- Test pixel alpha -/ (w, 4)
  else if tag = 0x00048007 then
    /- Set alpha -/
    ({ w with fb := update_fb env { w.fb with alpha := ldl env w a12 } }, 4)
  else if tag = 0x00040008 then /- Get pitch -/ (stl env w a12 w.fb.pitch, 4)
  else if tag = 0x00040009 then
    /- Get virtual offset -/
    (stl env (stl env w a12 w.fb.xoffset) a16 w.fb.yoffset, 8)
  else if tag = 0x00044009 then /- Test virtual offset -/ (w, 8)
  else if tag = 0x00048009 then
    /- Set virtual offset -/
    let fb := { w.fb with xoffset := ldl env w a12 }
    let fb := { fb with yoffset := ldl env w a16 }
    let w := { w with fb := update_fb env fb }
    (stl env (stl env w a12 w.fb.xres) a16 w.fb.yres, 8)
  else if tag = 0x0004000a ∨ tag = 0x0004400a ∨ tag = 0x0004800a then
    /- Get/Test/Set overscan -/
    let w := stl env w a12 0
    let w := stl env w a16 0
    let w := stl env w (ArmBoot.u32 (value + 20)) 0
    let w := stl env w (ArmBoot.u32 (value + 24)) 0
    (w, 16)
  else if tag = 0x0004800b then
    /- Set palette -/
    let offset := ldl env w a12
    let length := ldl env w a16
    let w := set_palette env w value offset length
    (stl env w a12 0, 4)
  else if tag = 0x00060001 then
    /- Get DMA channels: channels 2-5 -/
    (stl env w a12 0x003C, 4)
  else if tag = 0x00050001 then /- Get command line -/ (w, 0)
  else (w, 0)

/-- Lines 70-301: the loop over the tags of a request, with the cursor `value` and the
length `tot_len` read at line 66. The loop is run for at most `fuel` tests of its
condition; `none` means the fuel ran out. -/
def property_loop (env : PropertyEnv) (tot_len : Nat) :
    Nat → PropertyWorld → Nat → Option PropertyWorld
  | 0, _, _ => none
  | fuel + 1, w, value =>
    if ArmBoot.u32 (value + 8) ≤ ArmBoot.u32 (w.addr + tot_len) then
      let tag := ldl env w value
      let bufsize := ldl env w (ArmBoot.u32 (value + 4))
      /- @(value + 8) : Request/response indicator -/
      let r := property_tag env w value tag
      if tag = 0 then some r.1
      else
        let w := stl env r.1 (ArmBoot.u32 (value + 8)) (0x80000000 ||| r.2)
        property_loop env tot_len fuel w (ArmBoot.u32 (value + bufsize + 12))
    else some w

/-- Lines 42-311: `bcm2835_property_mbox_push(s, value)`; `none` if the loop over the
tags does not end within `fuel` tests of its condition. -/
def bcm2835_property_mbox_push (env : PropertyEnv) (fuel : Nat) (w : PropertyWorld)
    (value : Nat) : Option PropertyWorld :=
  let value := ArmBoot.u32 value &&& 0xfffffff0
  let value := if value > 0xc0000000 then value - 0xc0000000 else value
  let w := { w with addr := value }
  let tot_len := ldl env w value
  /- @(s->addr + 4) : Buffer response code -/
  let value := ArmBoot.u32 (w.addr + 8)
  (property_loop env tot_len fuel w value).map fun w =>
    /- Buffer response code -/
    let w := stl env w (ArmBoot.u32 (w.addr + 4)) 0x80000000
    if w.fb.lock ≠ 0 then
      { w with
        fb := { w.fb with invalidate := 1, lock := 0 }
        resizes := w.resizes ++ [(w.fb.xres, w.fb.yres)] }
    else w

/-- A platform for the examples: little-endian guest, video memory at `0x1c000000`. -/
def example_platform : PropertyEnv :=
  { t := ⟨32, false, false⟩, bcm2835_vcram_base := 0x1c000000, VCRAM_SIZE := 0x4000000,
    BCM2835_FB_OFFSET := 0x100000 }

/-- A frame buffer of 640 by 480 pixels, 16 bits deep, for the examples. -/
def example_fb : bcm2835_fb_type :=
  { lock := 0, invalidate := 0, base := 0x1c100000, pitch := 1280, size := 614400,
    xres := 640, yres := 480, bpp := 16, pixo := 0, alpha := 0, xoffset := 0, yoffset := 0 }

/-- A request at `0x1000` of total length `0x20` whose first tag is "Get board model"
(`0x00010001`) with the value-buffer size `0xFFFFFFF4`. -/
def looping_request : PropertyWorld :=
  { mem :=
      ArmBoot.run_ops ⟨32, false, false⟩ (fun _ => 0)
        [ArmBoot.MemOp.stl 0x1000 0x20, ArmBoot.MemOp.stl 0x1008 0x00010001,
         ArmBoot.MemOp.stl 0x100c 0xFFFFFFF4]
    fb := example_fb, addr := 0, resizes := [] }

/-- A request at `0x1000` of total length `0x1c`: the tag "Get board model" with a
value buffer of 4 bytes, then the end tag. -/
def model_request : PropertyWorld :=
  { mem :=
      ArmBoot.run_ops ⟨32, false, false⟩ (fun _ => 0)
        [ArmBoot.MemOp.stl 0x1000 0x1c, ArmBoot.MemOp.stl 0x1008 0x00010001,
         ArmBoot.MemOp.stl 0x100c 4]
    fb := example_fb, addr := 0, resizes := [] }

end BCM2835

/-! # Theorems -/

namespace ArmBoot

/-! ## Guest memory: reads after writes -/

theorem word_bytes_length (be : Bool) (v : Nat) : (word_bytes be v).length = 4 := by
  cases be <;> rfl

theorem MemOp.data_length (t : Target) (op : MemOp) : (op.data t).length = op.len := by
  cases op <;> simp [MemOp.data, MemOp.len, word_bytes_length]

theorem MemOp.apply_eq (t : Target) (m : Mem) (op : MemOp) :
    MemOp.apply t m op = cpu_physical_memory_write m op.lo (op.data t) := by
  cases op <;> rfl

theorem write_read_inside (m : Mem) (addr : Nat) (buf : List Nat) (a : Nat)
    (h1 : addr ≤ a) (h2 : a < addr + buf.length) :
    cpu_physical_memory_write m addr buf a = buf.getD (a - addr) 0 := by
  simp [cpu_physical_memory_write, h1, h2]

theorem write_read_outside (m : Mem) (addr : Nat) (buf : List Nat) (a : Nat)
    (h : a < addr ∨ addr + buf.length ≤ a) :
    cpu_physical_memory_write m addr buf a = m a := by
  unfold cpu_physical_memory_write
  rw [if_neg]
  omega

theorem run_ops_snoc (t : Target) (m : Mem) (l : List MemOp) (op : MemOp) :
    run_ops t m (l ++ [op]) = MemOp.apply t (run_ops t m l) op := by
  simp [run_ops, List.foldl_append]

/-- In a trace of pairwise disjoint accesses every access is still readable at the end. -/
theorem run_ops_read (t : Target) (m : Mem) (ops : List MemOp)
    (hp : ops.Pairwise MemOp.Disjoint) (op : MemOp) (hop : op ∈ ops) (a : Nat)
    (h1 : op.lo ≤ a) (h2 : a < op.lo + op.len) :
    run_ops t m ops a = (op.data t).getD (a - op.lo) 0 := by
  induction ops using List.reverseRecOn with
  | nil => simp at hop
  | append_singleton l last ih =>
    rw [run_ops_snoc, MemOp.apply_eq]
    rw [List.pairwise_append] at hp
    obtain ⟨hl, -, hx⟩ := hp
    rcases List.mem_append.1 hop with hmem | hmem
    · have hd := hx op hmem last (by simp)
      rw [write_read_outside]
      · exact ih hl hmem
      · rw [MemOp.data_length]
        unfold MemOp.Disjoint at hd
        omega
    · have : op = last := by simpa using hmem
      subst this
      rw [write_read_inside _ _ _ _ h1 (by rw [MemOp.data_length]; exact h2)]

/-- Memory outside every access of a trace is unchanged. -/
theorem run_ops_frame (t : Target) (m : Mem) (ops : List MemOp) (a : Nat)
    (h : ∀ op ∈ ops, a < op.lo ∨ op.lo + op.len ≤ a) :
    run_ops t m ops a = m a := by
  induction ops using List.reverseRecOn with
  | nil => rfl
  | append_singleton l last ih =>
    rw [run_ops_snoc, MemOp.apply_eq, write_read_outside]
    · exact ih (fun op hop => h op (by simp [hop]))
    · rw [MemOp.data_length]
      exact h last (by simp)

theorem word_of_bytes_word_bytes (be : Bool) (v : Nat) (h : v < 2 ^ 32) :
    word_of_bytes be ((word_bytes be v).getD 0 0) ((word_bytes be v).getD 1 0)
      ((word_bytes be v).getD 2 0) ((word_bytes be v).getD 3 0) = v := by
  cases be <;>
    simp [word_of_bytes, word_bytes, word_byte, Nat.shiftRight_eq_div_pow] <;> omega

/-- A stored word of a trace of pairwise disjoint accesses is loaded back unchanged. -/
theorem run_ops_ldl (t : Target) (m : Mem) (ops : List MemOp)
    (hp : ops.Pairwise MemOp.Disjoint) (a v : Nat) (hop : MemOp.stl a v ∈ ops)
    (hv : v < 2 ^ 32) :
    ldl_phys t (run_ops t m ops) a = v := by
  have hr : ∀ i, i < 4 → run_ops t m ops (a + i)
      = (word_bytes t.words_bigendian v).getD i 0 := by
    intro i hi
    have := run_ops_read t m ops hp _ hop (a + i) (by simp [MemOp.lo])
      (by simp [MemOp.lo, MemOp.len]; omega)
    have hu : u32 v = v := Nat.mod_eq_of_lt hv
    simpa [MemOp.data, MemOp.lo, hu] using this
  unfold ldl_phys
  rw [hr 1 (by omega), hr 2 (by omega), hr 3 (by omega)]
  have h0 := hr 0 (by omega)
  rw [Nat.add_zero] at h0
  rw [h0]
  exact word_of_bytes_word_bytes _ v hv

/-- A byte buffer written by a trace of pairwise disjoint accesses is read back unchanged. -/
theorem run_ops_bytes (t : Target) (m : Mem) (ops : List MemOp)
    (hp : ops.Pairwise MemOp.Disjoint) (a : Nat) (bs : List Nat)
    (hop : MemOp.write a bs ∈ ops) (i : Nat) (hi : i < bs.length) :
    run_ops t m ops (a + i) = bs.getD i 0 := by
  have := run_ops_read t m ops hp _ hop (a + i) (by simp [MemOp.lo])
    (by simp [MemOp.lo, MemOp.len]; omega)
  simpa [MemOp.data, MemOp.lo] using this

theorem pairwise_within_append (lo mid hi : Nat) (l1 l2 : List MemOp)
    (h1 : l1.Pairwise MemOp.Disjoint) (w1 : Within lo mid l1)
    (h2 : l2.Pairwise MemOp.Disjoint) (w2 : Within mid hi l2) (hlm : lo ≤ mid)
    (hmh : mid ≤ hi) :
    (l1 ++ l2).Pairwise MemOp.Disjoint ∧ Within lo hi (l1 ++ l2) := by
  refine ⟨List.pairwise_append.2 ⟨h1, h2, ?_⟩, ?_⟩
  · intro a ha b hb
    have := w1 a ha
    have := w2 b hb
    unfold MemOp.Disjoint
    omega
  · intro op hop
    rcases List.mem_append.1 hop with h | h
    · have := w1 op h
      omega
    · have := w2 op h
      omega

/-! ## Bit-mask arithmetic of the board tag length -/

theorem nat_ldiff_three (n : Nat) : Nat.ldiff n 3 = 4 * (n / 4) := by
  apply Nat.eq_of_testBit_eq
  intro i
  rw [Nat.testBit_ldiff]
  have h3 : (3 : Nat).testBit i = decide (i < 2) := by
    have := Nat.testBit_two_pow_sub_one 2 i
    simpa using this
  have h4 : 4 * (n / 4) = (n >>> 2) <<< 2 := by
    rw [Nat.shiftLeft_eq, Nat.shiftRight_eq_div_pow]; ring
  rw [h3, h4, Nat.testBit_shiftLeft, Nat.testBit_shiftRight]
  by_cases h : i < 2
  · simp [h]
  · have : 2 ≤ i := by omega
    simp [h, this, Nat.add_sub_cancel']

theorem nat_lor_three (n : Nat) : n ||| 3 = 4 * (n / 4) + 3 := by
  apply Nat.eq_of_testBit_eq
  intro i
  rw [Nat.testBit_lor]
  have h3 : (3 : Nat).testBit i = decide (i < 2) := by
    have := Nat.testBit_two_pow_sub_one 2 i
    simpa using this
  have h4 : 4 * (n / 4) + 3 = 2 ^ 2 * (n >>> 2) + 3 := by
    rw [Nat.shiftRight_eq_div_pow]; norm_num
  rw [h3, h4, Nat.testBit_mul_pow_two_add _ (by norm_num : 3 < 2 ^ 2), Nat.testBit_shiftRight, h3]
  by_cases h : i < 2
  · simp [h]
  · have : 2 ≤ i := by omega
    simp [h, this, Nat.add_sub_cancel']

/-- The C expression `x & ~3` clears the two low bits: it rounds `x` down to a multiple of 4. -/
theorem int_land_not_three (x : Int) : Int.land x (Int.not 3) = 4 * (x / 4) := by
  have hn : Int.not 3 = Int.negSucc 3 := rfl
  rw [hn]
  cases x with
  | ofNat n =>
    show ((Nat.ldiff n 3 : Nat) : Int) = _
    rw [nat_ldiff_three]
    push_cast
    rfl
  | negSucc n =>
    show Int.negSucc (n ||| 3) = _
    rw [nat_lor_three]
    rw [Int.negSucc_eq, Int.negSucc_eq]
    push_cast
    omega

/-! ## Closed form of the trace of `set_kernel_args` -/

theorem Target.paddr_add_paddr (t : Target) (x y : Nat) :
    t.paddr (t.paddr x + y) = t.paddr (x + y) := by
  simp [Target.paddr, Nat.mod_add_mod]

theorem Target.paddr_eq (t : Target) (x : Nat) (h : x < 2 ^ t.phys_addr_bits) :
    t.paddr x = x := Nat.mod_eq_of_lt h

theorem atag_core_eq (t : Target) (w : Writer) (h : w.p + 20 < 2 ^ t.phys_addr_bits) :
    atag_core t w = ⟨w.p + 20, w.ops ++ core_ops w.p⟩ := by
  have e4 := t.paddr_eq (w.p + 4) (by omega)
  have e8 := t.paddr_eq (w.p + 8) (by omega)
  have e12 := t.paddr_eq (w.p + 12) (by omega)
  have e16 := t.paddr_eq (w.p + 16) (by omega)
  have e20 := t.paddr_eq (w.p + 20) (by omega)
  simp [atag_core, WRITE_WORD, Target.paddr_add_paddr, Nat.add_assoc, e4, e8, e12, e16, e20,
    core_ops, u32, ATAG_CORE]

theorem atag_mem_eq (t : Target) (info : arm_boot_info) (w : Writer)
    (h : w.p + 16 < 2 ^ t.phys_addr_bits) :
    atag_mem t info w = ⟨w.p + 16, w.ops ++ mem_ops info w.p⟩ := by
  have e4 := t.paddr_eq (w.p + 4) (by omega)
  have e8 := t.paddr_eq (w.p + 8) (by omega)
  have e12 := t.paddr_eq (w.p + 12) (by omega)
  have e16 := t.paddr_eq (w.p + 16) (by omega)
  simp [atag_mem, WRITE_WORD, Target.paddr_add_paddr, Nat.add_assoc, e4, e8, e12, e16,
    mem_ops, u32, ATAG_MEM]

theorem atag_initrd2_eq (t : Target) (info : arm_boot_info) (w : Writer)
    (h : w.p + initrd_bytes info < 2 ^ t.phys_addr_bits) :
    atag_initrd2 t info w = ⟨w.p + initrd_bytes info, w.ops ++ initrd_ops t info w.p⟩ := by
  unfold atag_initrd2 initrd_bytes initrd_ops
  unfold initrd_bytes at h
  split
  · rename_i hne
    rw [if_pos hne] at h
    have e4 := t.paddr_eq (w.p + 4) (by omega)
    have e8 := t.paddr_eq (w.p + 8) (by omega)
    have e12 := t.paddr_eq (w.p + 12) (by omega)
    have e16 := t.paddr_eq (w.p + 16) (by omega)
    simp [WRITE_WORD, Target.paddr_add_paddr, Nat.add_assoc, e4, e8, e12, e16, u32,
      ATAG_INITRD2]
  · simp

theorem atag_revision_eq (t : Target) (info : arm_boot_info) (w : Writer)
    (h : w.p + revision_bytes info < 2 ^ t.phys_addr_bits) :
    atag_revision t info w = ⟨w.p + revision_bytes info, w.ops ++ revision_ops info w.p⟩ := by
  unfold atag_revision revision_bytes revision_ops
  unfold revision_bytes at h
  split
  · rename_i hne
    rw [if_pos hne] at h
    have e4 := t.paddr_eq (w.p + 4) (by omega)
    have e8 := t.paddr_eq (w.p + 8) (by omega)
    have e12 := t.paddr_eq (w.p + 12) (by omega)
    simp [WRITE_WORD, Target.paddr_add_paddr, Nat.add_assoc, e4, e8, e12, u32, ATAG_REVISION]
  · simp

theorem atag_cmdline_eq (t : Target) (info : arm_boot_info) (w : Writer)
    (h : w.p + cmdline_bytes info < 2 ^ t.phys_addr_bits)
    (hlen : ∀ s, info.kernel_cmdline = some s → strlen s < 2 ^ 31) :
    atag_cmdline t info w = ⟨w.p + cmdline_bytes info, w.ops ++ cmdline_ops info w.p⟩ := by
  unfold atag_cmdline cmdline_bytes cmdline_ops
  unfold cmdline_bytes at h
  split
  · rename_i hc; simp [hc]
  · rename_i hc; simp [hc]
  · rename_i c cs hc
    have hl := hlen _ hc
    simp only [hc] at h ⊢
    have e8 := t.paddr_eq (w.p + 8) (by omega)
    have hsh : strlen (c :: cs) >>> 2 = strlen (c :: cs) / 4 := by
      rw [Nat.shiftRight_eq_div_pow]
    rw [hsh]
    generalize strlen (c :: cs) / 4 = q at *
    have e : t.paddr (w.p + (8 + (q + 1) * 4)) = w.p + (8 + 4 * (q + 1)) := by
      rw [t.paddr_eq _ (by omega)]; omega
    have hu : u32 (q + 1 + 2) = q + 3 := by
      unfold u32
      rw [Nat.mod_eq_of_lt]; omega
    have e4 := t.paddr_eq (w.p + 4) (by omega)
    simp [Writer.write, WRITE_WORD, Target.paddr_add_paddr, Nat.add_assoc, e4, e8, e, hu,
      ATAG_CMDLINE]
    simp [u32]

theorem atag_board_len_eq (info : arm_boot_info) (atag_board_buf : Nat → Nat)
    (cb : (Nat → Nat) → BoardTag) (hcb : info.atag_board = some cb) :
    atag_board_len info atag_board_buf = 4 * (((cb atag_board_buf).ret + 3) / 4) := by
  unfold atag_board_len
  rw [hcb]
  exact int_land_not_three _

theorem atag_board_eq (t : Target) (info : arm_boot_info) (atag_board_buf : Nat → Nat)
    (w : Writer) (h : w.p + board_bytes info atag_board_buf < 2 ^ t.phys_addr_bits)
    (hret : ∀ cb, info.atag_board = some cb →
      0 ≤ (cb atag_board_buf).ret ∧ (cb atag_board_buf).ret ≤ 0x1000) :
    atag_board t info atag_board_buf w
      = ⟨w.p + board_bytes info atag_board_buf,
          w.ops ++ board_ops info atag_board_buf w.p⟩ := by
  cases hcb : info.atag_board with
  | none => simp [atag_board, board_bytes, board_ops, hcb]
  | some cb =>
    have hr := hret cb hcb
    have hlen := atag_board_len_eq info atag_board_buf cb hcb
    have hl : Int.land ((cb atag_board_buf).ret + 3) (Int.not 3)
        = atag_board_len info atag_board_buf := by
      unfold atag_board_len; rw [hcb]
    simp only [board_bytes, hcb] at h
    simp only [atag_board, board_bytes, board_ops, hcb]
    rw [hl]
    generalize atag_board_len info atag_board_buf = L at *
    have hL0 : 0 ≤ L := by omega
    have hL1 : L ≤ 0x1000 := by omega
    obtain ⟨n, rfl⟩ := Int.eq_ofNat_of_zero_le hL0
    have hn4 : n % 4 = 0 := by omega
    simp only [Int.toNat_ofNat] at h ⊢
    have e4 := t.paddr_eq (w.p + 4) (by omega)
    have e8 := t.paddr_eq (w.p + 8) (by omega)
    have e1 : u32 (u32_of_int (((n : Int) + 8) >>> (2 : Nat))) = (n + 8) / 4 := by
      rw [Int.shiftRight_eq_div_pow]
      unfold u32 u32_of_int
      have h1 : ((n : Int) + 8) / ((2 ^ 2 : Nat) : Int) = (((n + 8) / 4 : Nat) : Int) := by
        push_cast; norm_num
      rw [h1]
      have h2 : ((((n + 8) / 4 : Nat) : Int) % 2 ^ 32).toNat = (n + 8) / 4 := by
        have h3 : (((n + 8) / 4 : Nat) : Int) % 2 ^ 32
            = (((n + 8) / 4 % 2 ^ 32 : Nat) : Int) := by
          push_cast; rfl
        rw [h3, Int.toNat_ofNat]
        apply Nat.mod_eq_of_lt
        norm_num; omega
      rw [h2]
      apply Nat.mod_eq_of_lt
      norm_num; omega
    have e2 : t.paddr_of_int (((w.p : Nat) : Int) + 8 + (n : Int)) = w.p + (8 + n) := by
      unfold Target.paddr_of_int
      have h1 : ((w.p : Nat) : Int) + 8 + (n : Int) = ((w.p + (8 + n) : Nat) : Int) := by
        push_cast; ring
      rw [h1]
      have h2 : ((w.p + (8 + n) : Nat) : Int) % 2 ^ t.phys_addr_bits
          = (((w.p + (8 + n)) % 2 ^ t.phys_addr_bits : Nat) : Int) := by
        push_cast; rfl
      rw [h2, Int.toNat_ofNat]
      exact Nat.mod_eq_of_lt h
    simp only [Writer.write, WRITE_WORD, Target.paddr_add_paddr, Nat.add_assoc, e4, e8, e1]
    norm_num
    rw [e2]
    simp [u32, ATAG_BOARD]

theorem atag_end_ops (t : Target) (w : Writer) (h : w.p + 4 < 2 ^ t.phys_addr_bits) :
    (atag_end t w).ops = w.ops ++ end_ops w.p := by
  have e4 := t.paddr_eq (w.p + 4) (by omega)
  simp [atag_end, WRITE_WORD, e4, end_ops, u32]

theorem atag_list_bytes_eq (info : arm_boot_info) (atag_board_buf : Nat → Nat) :
    atag_list_bytes info atag_board_buf
      = 36 + initrd_bytes info + revision_bytes info + cmdline_bytes info
        + board_bytes info atag_board_buf + 8 := by
  unfold atag_list_bytes initrd_bytes revision_bytes cmdline_bytes board_bytes
  rfl

/-- Closed form of the trace of `set_kernel_args` on well-formed input: the accesses of
the tags, one tag after the other. -/
theorem set_kernel_args_eq (t : Target) (info : arm_boot_info) (atag_board_buf : Nat → Nat)
    (wf : WellFormed t info atag_board_buf) :
    set_kernel_args t info atag_board_buf
      = core_ops (info.loader_start + KERNEL_ARGS_ADDR)
        ++ mem_ops info (info.loader_start + KERNEL_ARGS_ADDR + 20)
        ++ initrd_ops t info (initrd_addr info)
        ++ revision_ops info (revision_addr info)
        ++ cmdline_ops info (cmdline_addr info)
        ++ board_ops info atag_board_buf (board_addr info)
        ++ end_ops (end_addr info atag_board_buf) := by
  have hw := wf.no_wrap
  rw [atag_list_bytes_eq] at hw
  unfold set_kernel_args set_kernel_args_writer
  dsimp only
  have e0 : t.paddr (info.loader_start + KERNEL_ARGS_ADDR)
      = info.loader_start + KERNEL_ARGS_ADDR := Nat.mod_eq_of_lt (by omega)
  rw [e0, atag_core_eq _ _ (by (try dsimp only); omega), atag_mem_eq _ _ _ (by (try dsimp only); omega),
    atag_initrd2_eq _ _ _ (by (try dsimp only); omega),
    atag_revision_eq _ _ _ (by (try dsimp only); omega),
    atag_cmdline_eq _ _ _ (by (try dsimp only); omega) wf.cmdline_len,
    atag_board_eq _ _ _ _ (by (try dsimp only); omega) wf.board_len,
    atag_end_ops _ _ (by (try dsimp only); omega)]
  simp [initrd_addr, revision_addr, cmdline_addr, board_addr, end_addr, Nat.add_assoc]

/-! ## Layout of the trace: the accesses are pairwise disjoint -/

theorem core_ops_layout (a : Nat) :
    (core_ops a).Pairwise MemOp.Disjoint ∧ Within a (a + 20) (core_ops a) := by
  constructor
  · simp [core_ops, MemOp.Disjoint, MemOp.lo, MemOp.len]
  · intro op hop
    simp only [core_ops, List.mem_cons, List.mem_singleton, List.not_mem_nil, or_false] at hop
    rcases hop with h | h | h | h | h <;> subst h <;> simp [MemOp.lo, MemOp.len]

theorem mem_ops_layout (info : arm_boot_info) (a : Nat) :
    (mem_ops info a).Pairwise MemOp.Disjoint ∧ Within a (a + 16) (mem_ops info a) := by
  constructor
  · simp [mem_ops, MemOp.Disjoint, MemOp.lo, MemOp.len]
  · intro op hop
    simp only [mem_ops, List.mem_cons, List.mem_singleton, List.not_mem_nil, or_false] at hop
    rcases hop with h | h | h | h <;> subst h <;> simp [MemOp.lo, MemOp.len]

theorem initrd_ops_layout (t : Target) (info : arm_boot_info) (a : Nat) :
    (initrd_ops t info a).Pairwise MemOp.Disjoint
      ∧ Within a (a + initrd_bytes info) (initrd_ops t info a) := by
  unfold initrd_ops initrd_bytes
  split
  · constructor
    · simp [MemOp.Disjoint, MemOp.lo, MemOp.len]
    · intro op hop
      simp only [List.mem_cons, List.mem_singleton, List.not_mem_nil, or_false] at hop
      rcases hop with h | h | h | h <;> subst h <;> simp [MemOp.lo, MemOp.len]
  · exact ⟨List.Pairwise.nil, fun op hop => by simp at hop⟩

theorem revision_ops_layout (info : arm_boot_info) (a : Nat) :
    (revision_ops info a).Pairwise MemOp.Disjoint
      ∧ Within a (a + revision_bytes info) (revision_ops info a) := by
  unfold revision_ops revision_bytes
  split
  · constructor
    · simp [MemOp.Disjoint, MemOp.lo, MemOp.len]
    · intro op hop
      simp only [List.mem_cons, List.mem_singleton, List.not_mem_nil, or_false] at hop
      rcases hop with h | h | h <;> subst h <;> simp [MemOp.lo, MemOp.len]
  · exact ⟨List.Pairwise.nil, fun op hop => by simp at hop⟩

theorem cmdline_ops_layout (info : arm_boot_info) (a : Nat) :
    (cmdline_ops info a).Pairwise MemOp.Disjoint
      ∧ Within a (a + cmdline_bytes info) (cmdline_ops info a) := by
  unfold cmdline_ops cmdline_bytes
  split
  · constructor
    · simp [MemOp.Disjoint, MemOp.lo, MemOp.len]
    · intro op hop
      simp only [List.mem_cons, List.mem_singleton, List.not_mem_nil, or_false] at hop
      rcases hop with h | h | h <;> subst h <;>
        simp [MemOp.lo, MemOp.len, strlen] <;> omega
  · exact ⟨List.Pairwise.nil, fun op hop => by simp at hop⟩

theorem board_ops_layout (info : arm_boot_info) (atag_board_buf : Nat → Nat) (a : Nat) :
    (board_ops info atag_board_buf a).Pairwise MemOp.Disjoint
      ∧ Within a (a + board_bytes info atag_board_buf) (board_ops info atag_board_buf a) := by
  unfold board_ops board_bytes
  split
  · constructor
    · simp [MemOp.Disjoint, MemOp.lo, MemOp.len]
    · intro op hop
      simp only [List.mem_cons, List.mem_singleton, List.not_mem_nil, or_false] at hop
      rcases hop with h | h | h <;> subst h <;> simp [MemOp.lo, MemOp.len] <;> omega
  · exact ⟨List.Pairwise.nil, fun op hop => by simp at hop⟩

theorem end_ops_layout (a : Nat) :
    (end_ops a).Pairwise MemOp.Disjoint ∧ Within a (a + 8) (end_ops a) := by
  constructor
  · simp [end_ops, MemOp.Disjoint, MemOp.lo, MemOp.len]
  · intro op hop
    simp only [end_ops, List.mem_cons, List.mem_singleton, List.not_mem_nil, or_false] at hop
    rcases hop with h | h <;> subst h <;> simp [MemOp.lo, MemOp.len]

/-- The tagged list as laid out in guest memory, tag after tag. -/
theorem tag_ops_layout (t : Target) (info : arm_boot_info) (atag_board_buf : Nat → Nat) :
    (core_ops (info.loader_start + KERNEL_ARGS_ADDR)
        ++ mem_ops info (info.loader_start + KERNEL_ARGS_ADDR + 20)
        ++ initrd_ops t info (initrd_addr info)
        ++ revision_ops info (revision_addr info)
        ++ cmdline_ops info (cmdline_addr info)
        ++ board_ops info atag_board_buf (board_addr info)
        ++ end_ops (end_addr info atag_board_buf)).Pairwise MemOp.Disjoint := by
  have h1 := core_ops_layout (info.loader_start + KERNEL_ARGS_ADDR)
  have h2 := mem_ops_layout info (info.loader_start + KERNEL_ARGS_ADDR + 20)
  have h3 := initrd_ops_layout t info (initrd_addr info)
  have h4 := revision_ops_layout info (revision_addr info)
  have h5 := cmdline_ops_layout info (cmdline_addr info)
  have h6 := board_ops_layout info atag_board_buf (board_addr info)
  have h7 := end_ops_layout (end_addr info atag_board_buf)
  have a2 := pairwise_within_append _ _ _ _ _ h1.1 h1.2 h2.1 h2.2 (by omega) (by omega)
  have e3 : info.loader_start + KERNEL_ARGS_ADDR + 20 + 16 = initrd_addr info := by
    unfold initrd_addr; omega
  rw [e3] at a2
  have a3 := pairwise_within_append _ _ _ _ _ a2.1 a2.2 h3.1 h3.2
    (by unfold initrd_addr; omega) (by omega)
  have a4 := pairwise_within_append _ _ _ _ _ a3.1 a3.2 h4.1 h4.2
    (by unfold initrd_addr; omega) (by unfold revision_addr; omega)
  have a5 := pairwise_within_append _ _ _ _ _ a4.1 a4.2 h5.1 h5.2
    (by unfold revision_addr initrd_addr; omega) (by unfold cmdline_addr; omega)
  have a6 := pairwise_within_append _ _ _ _ _ a5.1 a5.2 h6.1 h6.2
    (by unfold cmdline_addr revision_addr initrd_addr; omega) (by unfold board_addr; omega)
  have a7 := pairwise_within_append _ _ _ _ _ a6.1 a6.2 h7.1 h7.2
    (by unfold board_addr cmdline_addr revision_addr initrd_addr; omega)
    (by unfold end_addr; omega)
  exact a7.1

/-- On well-formed input the accesses of `set_kernel_args` are pairwise disjoint. -/
theorem set_kernel_args_pairwise (t : Target) (info : arm_boot_info)
    (atag_board_buf : Nat → Nat) (wf : WellFormed t info atag_board_buf) :
    (set_kernel_args t info atag_board_buf).Pairwise MemOp.Disjoint := by
  rw [set_kernel_args_eq t info atag_board_buf wf]
  exact tag_ops_layout t info atag_board_buf

/-! ## Walking the tagged list that `set_kernel_args` leaves in guest memory -/

theorem atag_walk_zero (t : Target) (m : Mem) (a fuel : Nat) (h : ldl_phys t m a = 0) :
    atag_walk t m a (fuel + 1) = some ([], a) := by
  simp [atag_walk, h]

theorem atag_walk_cons (t : Target) (m : Mem) (a fuel s tg : Nat) (rs : List TagRecord)
    (e : Nat) (hs : ldl_phys t m a = s) (h0 : s ≠ 0) (htg : ldl_phys t m (a + 4) = tg)
    (hw : atag_walk t m (a + 4 * s) fuel = some (rs, e)) :
    atag_walk t m a (fuel + 1) = some (⟨a, s, tg⟩ :: rs, e) := by
  simp [atag_walk, hs, h0, htg, hw]

theorem atag_board_len_nat (info : arm_boot_info) (atag_board_buf : Nat → Nat)
    (h : ∀ cb, info.atag_board = some cb →
      0 ≤ (cb atag_board_buf).ret ∧ (cb atag_board_buf).ret ≤ 0x1000) :
    ∃ n : Nat, atag_board_len info atag_board_buf = (n : Int) ∧ n % 4 = 0 ∧ n ≤ 0x1000 := by
  cases hcb : info.atag_board with
  | none => exact ⟨0, by simp [atag_board_len, hcb], rfl, by norm_num⟩
  | some cb =>
    have hr := h cb hcb
    have hlen := atag_board_len_eq info atag_board_buf cb hcb
    have h0 : 0 ≤ atag_board_len info atag_board_buf := by omega
    obtain ⟨n, hn⟩ := Int.eq_ofNat_of_zero_le h0
    exact ⟨n, hn, by omega, by omega⟩

/-- Walking the memory left by `set_kernel_args` from `loader_start + 0x100` meets exactly
the expected record headers and stops at the terminator. -/
theorem atag_walk_set_kernel_args (t : Target) (info : arm_boot_info)
    (atag_board_buf : Nat → Nat) (m : Mem) (wf : WellFormed t info atag_board_buf)
    (fuel : Nat) (hfuel : 7 ≤ fuel) :
    atag_walk t (run_ops t m (set_kernel_args t info atag_board_buf))
        (info.loader_start + KERNEL_ARGS_ADDR) fuel
      = some (expected_records info atag_board_buf, end_addr info atag_board_buf) := by
  have hp := set_kernel_args_pairwise t info atag_board_buf wf
  have rd : ∀ a v, MemOp.stl a v ∈ set_kernel_args t info atag_board_buf → v < 2 ^ 32 →
      ldl_phys t (run_ops t m (set_kernel_args t info atag_board_buf)) a = v :=
    fun a v hm hv => run_ops_ldl t m _ hp a v hm hv
  generalize run_ops t m (set_kernel_args t info atag_board_buf) = m' at rd ⊢
  rw [set_kernel_args_eq t info atag_board_buf wf] at rd
  -- the terminator
  have hend : ∀ f, 1 ≤ f → atag_walk t m' (end_addr info atag_board_buf) f
      = some ([], end_addr info atag_board_buf) := by
    intro f hf
    obtain ⟨k, rfl⟩ : ∃ k, f = k + 1 := ⟨f - 1, by omega⟩
    exact atag_walk_zero _ _ _ _ (rd _ 0 (by simp [end_ops]) (by norm_num))
  -- the board tag
  have hboard : ∀ f, 2 ≤ f → atag_walk t m' (board_addr info) f
      = some (board_recs info atag_board_buf, end_addr info atag_board_buf) := by
    intro f hf
    cases hcb : info.atag_board with
    | none =>
      have e : board_addr info = end_addr info atag_board_buf := by
        simp [end_addr, board_bytes, hcb]
      have := hend f (by omega)
      simpa [board_recs, hcb, e] using this
    | some cb =>
      obtain ⟨k, rfl⟩ : ∃ k, f = k + 1 := ⟨f - 1, by omega⟩
      obtain ⟨n, hn, hn4, hn1⟩ := atag_board_len_nat info atag_board_buf wf.board_len
      simp only [board_recs, hcb]
      refine atag_walk_cons t m' _ k _ _ _ _ (rd _ _ (by simp [board_ops, hcb]) ?_) ?_
        (rd _ _ (by simp [board_ops, hcb]) (by norm_num [ATAG_BOARD])) ?_
      · rw [hn]; simp only [Int.toNat_ofNat]; norm_num at hn1 ⊢; omega
      · rw [hn]; simp only [Int.toNat_ofNat]; omega
      · have e : board_addr info + 4 * (((atag_board_len info atag_board_buf).toNat + 8) / 4)
            = end_addr info atag_board_buf := by
          simp only [end_addr, board_bytes, hcb, hn, Int.toNat_ofNat]
          omega
        rw [e]
        exact hend k (by omega)
  -- the command line
  have hcmd : ∀ f, 3 ≤ f → atag_walk t m' (cmdline_addr info) f
      = some (cmdline_recs info ++ board_recs info atag_board_buf,
          end_addr info atag_board_buf) := by
    intro f hf
    have hnone : cmdline_bytes info = 0 → cmdline_recs info = [] →
        atag_walk t m' (cmdline_addr info) f
          = some (cmdline_recs info ++ board_recs info atag_board_buf,
              end_addr info atag_board_buf) := by
      intro hb hr
      have e : cmdline_addr info = board_addr info := by simp [board_addr, hb]
      rw [hr, e]
      exact hboard f (by omega)
    rcases hc : info.kernel_cmdline with _ | ⟨_ | ⟨c, cs⟩⟩
    · exact hnone (by simp [cmdline_bytes, hc]) (by simp [cmdline_recs, hc])
    · exact hnone (by simp [cmdline_bytes, hc]) (by simp [cmdline_recs, hc])
    · obtain ⟨k, rfl⟩ : ∃ k, f = k + 1 := ⟨f - 1, by omega⟩
      have hl := wf.cmdline_len _ hc
      simp only [cmdline_recs, hc, List.singleton_append]
      refine atag_walk_cons t m' _ k _ _ _ _ (rd _ _ (by simp [cmdline_ops, hc]) ?_) ?_
        (rd _ _ (by simp [cmdline_ops, hc]) (by norm_num [ATAG_CMDLINE])) ?_
      · norm_num at hl ⊢; omega
      · omega
      · have e : cmdline_addr info + 4 * (strlen (c :: cs) / 4 + 3) = board_addr info := by
          simp only [board_addr, cmdline_bytes, hc]
          omega
        rw [e]
        exact hboard k (by omega)
  -- the revision
  have hrev : ∀ f, 4 ≤ f → atag_walk t m' (revision_addr info) f
      = some (revision_recs info ++ cmdline_recs info ++ board_recs info atag_board_buf,
          end_addr info atag_board_buf) := by
    intro f hf
    by_cases hr : info.atag_revision = 0
    · have e : revision_addr info = cmdline_addr info := by
        simp [cmdline_addr, revision_bytes, hr]
      have := hcmd f (by omega)
      simpa [revision_recs, hr, e] using this
    · obtain ⟨k, rfl⟩ : ∃ k, f = k + 1 := ⟨f - 1, by omega⟩
      simp only [revision_recs, if_pos hr, List.singleton_append, List.cons_append,
        List.nil_append, ne_eq, not_false_eq_true]
      refine atag_walk_cons t m' _ k _ _ _ _ (rd _ _ (by simp [revision_ops, hr]) ?_) ?_
        (rd _ _ (by simp [revision_ops, hr]) (by norm_num [ATAG_REVISION])) ?_
      · norm_num
      · norm_num
      · have e : revision_addr info + 4 * 3 = cmdline_addr info := by
          simp [cmdline_addr, revision_bytes, hr]
        rw [e]
        exact hcmd k (by omega)
  -- the initial RAM disk
  have hinitrd : ∀ f, 5 ≤ f → atag_walk t m' (initrd_addr info) f
      = some (initrd_recs info ++ revision_recs info ++ cmdline_recs info
          ++ board_recs info atag_board_buf, end_addr info atag_board_buf) := by
    intro f hf
    by_cases hr : info.initrd_size = 0
    · have e : initrd_addr info = revision_addr info := by
        simp [revision_addr, initrd_bytes, hr]
      have := hrev f (by omega)
      simpa [initrd_recs, hr, e] using this
    · obtain ⟨k, rfl⟩ : ∃ k, f = k + 1 := ⟨f - 1, by omega⟩
      simp only [initrd_recs, if_pos hr, List.singleton_append, List.cons_append,
        List.nil_append, ne_eq, not_false_eq_true]
      refine atag_walk_cons t m' _ k _ _ _ _ (rd _ _ (by simp [initrd_ops, hr]) ?_) ?_
        (rd _ _ (by simp [initrd_ops, hr]) (by norm_num [ATAG_INITRD2])) ?_
      · norm_num
      · norm_num
      · have e : initrd_addr info + 4 * 4 = revision_addr info := by
          simp [revision_addr, initrd_bytes, hr]
        rw [e]
        exact hrev k (by omega)
  -- memory and core
  obtain ⟨k, rfl⟩ : ∃ k, fuel = k + 2 := ⟨fuel - 2, by omega⟩
  unfold expected_records
  simp only [List.cons_append, List.nil_append, List.append_assoc]
  refine atag_walk_cons t m' _ (k + 1) _ _ _ _ (rd _ _ (by simp [core_ops]) (by norm_num))
    (by norm_num) (rd _ _ (by simp [core_ops]) (by norm_num [ATAG_CORE])) ?_
  refine atag_walk_cons t m' _ k _ _ _ _ (rd _ _ (by simp [mem_ops]) (by norm_num))
    (by norm_num) (rd _ _ (by simp [mem_ops]) (by norm_num [ATAG_MEM])) ?_
  have e : info.loader_start + KERNEL_ARGS_ADDR + 4 * 5 + 4 * 4 = initrd_addr info := by
    simp [initrd_addr]
  rw [e]
  have := hinitrd k (by omega)
  simpa [List.append_assoc] using this


/-! ## The trampoline in guest memory -/

theorem host_bytes_length (t : Target) (ws : List Nat) :
    (host_bytes t ws).length = 4 * ws.length := by
  induction ws with
  | nil => rfl
  | cons w ws ih =>
    simp only [host_bytes, List.flatMap_cons, List.length_append, word_bytes_length,
      List.length_cons] at ih ⊢
    omega

theorem host_bytes_getD (t : Target) (ws : List Nat) (i j : Nat) (hi : i < ws.length)
    (hj : j < 4) :
    (host_bytes t ws).getD (4 * i + j) 0
      = (word_bytes t.host_words_bigendian (ws.getD i 0)).getD j 0 := by
  induction ws generalizing i with
  | nil => simp at hi
  | cons w ws ih =>
    simp only [host_bytes, List.flatMap_cons] at ih ⊢
    cases i with
    | zero =>
      rw [List.getD_append _ _ _ _ (by rw [word_bytes_length]; omega)]
      simp
    | succ i =>
      rw [List.getD_append_right _ _ _ _ (by rw [word_bytes_length]; omega), word_bytes_length]
      have e : 4 * (i + 1) + j - 4 = 4 * i + j := by omega
      rw [e, ih i (by simpa using hi)]
      simp

theorem word_byte_lt (v i : Nat) : word_byte v i < 256 := by
  unfold word_byte
  omega

theorem word_of_bytes_le_decomp (w : Nat) (h : w < 2 ^ 32) :
    word_of_bytes false (word_byte w 0) (word_byte w 1) (word_byte w 2) (word_byte w 3) = w := by
  simp [word_of_bytes, word_byte, Nat.shiftRight_eq_div_pow]
  omega

theorem word_bytes_le_of_bytes (b0 b1 b2 b3 : Nat) (h0 : b0 < 256) (h1 : b1 < 256)
    (h2 : b2 < 256) (h3 : b3 < 256) :
    word_bytes false (b0 + 256 * (b1 + 256 * (b2 + 256 * b3))) = [b0, b1, b2, b3] := by
  have e1 : (b0 + 256 * (b1 + 256 * (b2 + 256 * b3))) / 256 = b1 + 256 * (b2 + 256 * b3) := by
    omega
  have e2 : (b1 + 256 * (b2 + 256 * b3)) / 256 = b2 + 256 * b3 := by omega
  have e3 : (b2 + 256 * b3) / 256 = b3 := by omega
  have d2 : (b0 + 256 * (b1 + 256 * (b2 + 256 * b3))) / 65536 = b2 + 256 * b3 := by
    rw [show 65536 = 256 * 256 from rfl, ← Nat.div_div_eq_div_mul, e1, e2]
  have d3 : (b0 + 256 * (b1 + 256 * (b2 + 256 * b3))) / 16777216 = b3 := by
    rw [show 16777216 = 256 * 256 * 256 from rfl, ← Nat.div_div_eq_div_mul,
      ← Nat.div_div_eq_div_mul, e1, e2, e3]
  simp only [word_bytes, word_byte, Nat.shiftRight_eq_div_pow, Bool.false_eq_true, if_false]
  norm_num
  rw [e1, d2, d3]
  refine ⟨?_, ?_, ?_, ?_⟩ <;> omega

theorem word_of_bytes_tswap32 (t : Target) (w : Nat) (h : w < 2 ^ 32) :
    word_of_bytes t.words_bigendian
      ((word_bytes t.host_words_bigendian (tswap32 t w)).getD 0 0)
      ((word_bytes t.host_words_bigendian (tswap32 t w)).getD 1 0)
      ((word_bytes t.host_words_bigendian (tswap32 t w)).getD 2 0)
      ((word_bytes t.host_words_bigendian (tswap32 t w)).getD 3 0) = w := by
  have hd := word_of_bytes_le_decomp w h
  have l0 := word_byte_lt w 0
  have l1 := word_byte_lt w 1
  have l2 := word_byte_lt w 2
  have l3 := word_byte_lt w 3
  have hsw : bswap32 w
      = word_byte w 3 + 256 * (word_byte w 2 + 256 * (word_byte w 1 + 256 * word_byte w 0)) := by
    simp [bswap32, word_of_bytes]
  have hw : w
      = word_byte w 0 + 256 * (word_byte w 1 + 256 * (word_byte w 2 + 256 * word_byte w 3)) := by
    simpa [word_of_bytes] using hd.symm
  have hle : ∀ v, word_bytes true v = (word_bytes false v).reverse := by
    intro v; simp [word_bytes]
  unfold tswap32
  cases hb : t.words_bigendian <;> cases hh : t.host_words_bigendian
  · simpa [word_bytes, word_of_bytes] using hd
  · simp only [bne_self_eq_false, Bool.true_bne, Bool.not_false, if_true, hle, hsw,
      word_bytes_le_of_bytes _ _ _ _ l3 l2 l1 l0, Bool.not_true, Bool.false_eq_true, if_false]
    simpa [word_of_bytes] using hw.symm
  · simp only [Bool.false_bne, if_true, hsw, word_bytes_le_of_bytes _ _ _ _ l3 l2 l1 l0,
      Bool.bne_true, Bool.not_false, Bool.not_true, Bool.false_eq_true, if_false]
    simpa [word_of_bytes] using hw.symm
  · simp only [bne_self_eq_false, Bool.false_eq_true, if_false, hle]
    rw [hw, word_bytes_le_of_bytes _ _ _ _ l0 l1 l2 l3]
    simp [word_of_bytes]

/-- A word array converted with `tswap32` and copied to guest memory is read back, word by
word, by guest-order loads. -/
theorem ldl_host_bytes (t : Target) (m : Mem) (a : Nat) (ws : List Nat) (i : Nat)
    (hi : i < ws.length) (hw : ∀ w ∈ ws, w < 2 ^ 32) :
    ldl_phys t (cpu_physical_memory_write m a (host_bytes t (ws.map (tswap32 t)))) (a + 4 * i)
      = ws.getD i 0 := by
  have hlen : (host_bytes t (ws.map (tswap32 t))).length = 4 * ws.length := by
    rw [host_bytes_length, List.length_map]
  have hb : ∀ j, j < 4 →
      cpu_physical_memory_write m a (host_bytes t (ws.map (tswap32 t))) (a + 4 * i + j)
        = (word_bytes t.host_words_bigendian (tswap32 t (ws.getD i 0))).getD j 0 := by
    intro j hj
    rw [write_read_inside _ _ _ _ (by omega) (by rw [hlen]; omega)]
    have e : a + 4 * i + j - a = 4 * i + j := by omega
    rw [e, host_bytes_getD t _ i j (by simpa using hi) hj]
    congr 2
    rw [List.getD_eq_getElem _ _ (by simpa using hi), List.getD_eq_getElem _ _ hi]
    simp
  have h0 := hb 0 (by omega)
  rw [Nat.add_zero] at h0
  unfold ldl_phys
  rw [h0, hb 1 (by omega), hb 2 (by omega), hb 3 (by omega)]
  apply word_of_bytes_tswap32
  rw [List.getD_eq_getElem _ _ hi]
  exact hw _ (List.getElem_mem _)

/-! ## Executing the trampoline -/

theorem Core.step_mov_r0 (t : Target) (c : Core)
    (h : ldl_phys t c.mem (c.regs 15) = 0xe3a00000) :
    Core.step t c = some ((c.set_reg 0 0).set_reg 15 (u32 (c.regs 15 + 4))) := by
  simp [Core.step, h, ror32]

theorem Core.step_ldr_pc (t : Target) (c : Core) (rd : Nat) (hrd : rd < 15)
    (h : ldl_phys t c.mem (c.regs 15) = 0xe59f0004 + rd * 2 ^ 12) :
    Core.step t c
      = some ((c.set_reg rd (ldl_phys t c.mem (u32 (u32 (c.regs 15 + 8) + 4)))).set_reg 15
          (u32 (c.regs 15 + 4))) := by
  have h1 : (0xe59f0004 + rd * 2 ^ 12) / 2 ^ 28 = 0xe := by omega
  have h2 : (0xe59f0004 + rd * 2 ^ 12) / 2 ^ 20 % 256 = 0x59 := by omega
  have h3 : (0xe59f0004 + rd * 2 ^ 12) / 2 ^ 16 % 16 = 15 := by omega
  have h4 : (0xe59f0004 + rd * 2 ^ 12) / 2 ^ 12 % 16 = rd := by omega
  have h5 : (0xe59f0004 + rd * 2 ^ 12) / 2 ^ 23 % 2 = 1 := by omega
  have h6 : (0xe59f0004 + rd * 2 ^ 12) % 2 ^ 12 = 4 := by omega
  have h7 : rd ≠ 15 := by omega
  simp only [Core.step, h, h1, h2, h3, h4, h5, h6]
  simp [h7]

theorem Core.step_ldr_pc_pc (t : Target) (c : Core)
    (h : ldl_phys t c.mem (c.regs 15) = 0xe59ff004) :
    Core.step t c = some (c.set_reg 15 (ldl_phys t c.mem (u32 (u32 (c.regs 15 + 8) + 4)))) := by
  simp [Core.step, h]

/-- The words of the trampoline blob as the guest reads them. -/
theorem trampoline_words (t : Target) (info : arm_boot_info) (entry : Nat) (m : Mem) (i : Nat)
    (hi : i < 7) :
    ldl_phys t (MemOp.apply t m (arm_load_kernel_bootloader t info entry))
        (info.loader_start + 4 * i)
      = [0xe3a00000, 0xe59f1004, 0xe59f2004, 0xe59ff004, u32 info.board_id,
          u32 (t.paddr (info.loader_start + KERNEL_ARGS_ADDR)), u32 entry].getD i 0 := by
  have hp : patch_bootloader t bootloader info entry
      = [0xe3a00000, 0xe59f1004, 0xe59f2004, 0xe59ff004, u32 info.board_id,
          u32 (t.paddr (info.loader_start + KERNEL_ARGS_ADDR)), u32 entry].map (tswap32 t) := by
    simp [patch_bootloader, bootloader]
  unfold arm_load_kernel_bootloader MemOp.apply
  rw [hp]
  apply ldl_host_bytes
  · simpa using hi
  · intro w hw
    have hu : ∀ x, u32 x < 2 ^ 32 := fun x => Nat.mod_lt _ (by norm_num)
    simp only [List.mem_cons, List.mem_singleton, List.not_mem_nil, or_false] at hw
    rcases hw with h | h | h | h | h | h | h <;> subst h <;> first | exact hu _ | norm_num

/-- C1: executing the 7-word trampoline emitted by `arm_load_kernel` from `loader_start`
sets `r0 = 0`, `r1 = board_id`, `r2 = loader_start + 0x100` and `pc = entry`; the three
values are the 32-bit words patched into the blob. -/
theorem trampoline_sets_registers (t : Target) (info : arm_boot_info) (entry : Nat)
    (regs : Nat → Nat) (m : Mem) (hfit : info.loader_start + 28 ≤ 2 ^ 32) :
    ∃ c, Core.run t 4 (trampoline_start t info entry regs m) = some c
      ∧ c.regs 0 = 0
      ∧ c.regs 1 = u32 info.board_id
      ∧ c.regs 2 = u32 (t.paddr (info.loader_start + KERNEL_ARGS_ADDR))
      ∧ c.regs 15 = u32 entry := by
  have hw := trampoline_words t info entry m
  have w0 := hw 0 (by norm_num)
  have w1 := hw 1 (by norm_num)
  have w2 := hw 2 (by norm_num)
  have w3 := hw 3 (by norm_num)
  have w4 := hw 4 (by norm_num)
  have w5 := hw 5 (by norm_num)
  have w6 := hw 6 (by norm_num)
  simp only [List.getD_cons_zero, List.getD_cons_succ, Nat.mul_zero, Nat.add_zero,
    Nat.reduceMul] at w0 w1 w2 w3 w4 w5 w6
  have u4 : u32 (info.loader_start + 4) = info.loader_start + 4 := Nat.mod_eq_of_lt (by omega)
  have u8 : u32 (info.loader_start + 8) = info.loader_start + 8 := Nat.mod_eq_of_lt (by omega)
  have u12 : u32 (info.loader_start + 12) = info.loader_start + 12 :=
    Nat.mod_eq_of_lt (by omega)
  have u16 : u32 (info.loader_start + 16) = info.loader_start + 16 :=
    Nat.mod_eq_of_lt (by omega)
  have u20 : u32 (info.loader_start + 20) = info.loader_start + 20 :=
    Nat.mod_eq_of_lt (by omega)
  have u24 : u32 (info.loader_start + 24) = info.loader_start + 24 :=
    Nat.mod_eq_of_lt (by omega)
  generalize hc0 : trampoline_start t info entry regs m = c0
  have hm0 : c0.mem = MemOp.apply t m (arm_load_kernel_bootloader t info entry) := by
    rw [← hc0]; rfl
  have hp0 : c0.regs 15 = info.loader_start := by
    rw [← hc0]; simp [trampoline_start]
  -- mov r0, #0
  have s1 := Core.step_mov_r0 t c0 (by rw [hm0, hp0]; exact w0)
  rw [hp0, u4] at s1
  generalize hc1 : (c0.set_reg 0 0).set_reg 15 (info.loader_start + 4) = c1 at s1
  have hm1 : c1.mem = MemOp.apply t m (arm_load_kernel_bootloader t info entry) := by
    rw [← hc1]; exact hm0
  have hp1 : c1.regs 15 = info.loader_start + 4 := by
    rw [← hc1]; simp [Core.set_reg]
  have hr1 : c1.regs 0 = 0 := by
    rw [← hc1]; simp [Core.set_reg]
  -- ldr r1, [pc, #4]
  have s2 := Core.step_ldr_pc t c1 1 (by norm_num) (by rw [hm1, hp1]; exact w1)
  rw [hp1, hm1] at s2
  simp only [Nat.add_assoc, Nat.reduceAdd, u8, u12, u16, w4] at s2
  generalize hc2 : (c1.set_reg 1 (u32 info.board_id)).set_reg 15 (info.loader_start + 8) = c2
    at s2
  have hm2 : c2.mem = MemOp.apply t m (arm_load_kernel_bootloader t info entry) := by
    rw [← hc2]; exact hm1
  have hp2 : c2.regs 15 = info.loader_start + 8 := by
    rw [← hc2]; simp [Core.set_reg]
  have hr2 : c2.regs 0 = 0 ∧ c2.regs 1 = u32 info.board_id := by
    rw [← hc2]; simp [Core.set_reg, hr1]
  -- ldr r2, [pc, #4]
  have s3 := Core.step_ldr_pc t c2 2 (by norm_num) (by rw [hm2, hp2]; exact w2)
  rw [hp2, hm2] at s3
  simp only [Nat.add_assoc, Nat.reduceAdd, u12, u16, u20, w5] at s3
  generalize hc3 : (c2.set_reg 2 (u32 (t.paddr (info.loader_start + KERNEL_ARGS_ADDR)))).set_reg
    15 (info.loader_start + 12) = c3 at s3
  have hm3 : c3.mem = MemOp.apply t m (arm_load_kernel_bootloader t info entry) := by
    rw [← hc3]; exact hm2
  have hp3 : c3.regs 15 = info.loader_start + 12 := by
    rw [← hc3]; simp [Core.set_reg]
  have hr3 : c3.regs 0 = 0 ∧ c3.regs 1 = u32 info.board_id
      ∧ c3.regs 2 = u32 (t.paddr (info.loader_start + KERNEL_ARGS_ADDR)) := by
    rw [← hc3]; simp [Core.set_reg, hr2]
  -- ldr pc, [pc, #4]
  have s4 := Core.step_ldr_pc_pc t c3 (by rw [hm3, hp3]; exact w3)
  rw [hp3, hm3] at s4
  simp only [Nat.add_assoc, Nat.reduceAdd, u20, u24, w6] at s4
  refine ⟨c3.set_reg 15 (u32 entry), ?_, ?_, ?_, ?_, ?_⟩
  · simp [Core.run, s1, s2, s3, s4]
  · simp [Core.set_reg, hr3]
  · simp [Core.set_reg, hr3]
  · simp [Core.set_reg, hr3]
  · simp [Core.set_reg]

/-- Witness for `trampoline_sets_registers`. -/
theorem trampoline_sets_registers_witness :
    (0x8000 : Nat) + 28 ≤ 2 ^ 32
      ∧ ∃ c, Core.run ⟨32, false, false⟩ 4
          (trampoline_start ⟨32, false, false⟩
            { loader_start := 0x8000, board_id := 0x183 } 0x18000 (fun _ => 0) (fun _ => 0))
          = some c
        ∧ c.regs 0 = 0 ∧ c.regs 1 = u32 0x183
        ∧ c.regs 2 = u32 (Target.paddr ⟨32, false, false⟩ (0x8000 + KERNEL_ARGS_ADDR))
        ∧ c.regs 15 = u32 0x18000 :=
  ⟨by decide,
    trampoline_sets_registers ⟨32, false, false⟩ { loader_start := 0x8000, board_id := 0x183 }
      0x18000 (fun _ => 0) (fun _ => 0) (by decide)⟩


/-! ## Shared facts for the claims about the tagged list -/

theorem atag_walk_linked (t : Target) (m : Mem) (fuel a : Nat) (rs : List TagRecord) (e : Nat)
    (h : atag_walk t m a fuel = some (rs, e)) : TagRecord.Linked a rs e := by
  induction fuel generalizing a rs with
  | zero => simp [atag_walk] at h
  | succ k ih =>
    unfold atag_walk at h
    split at h
    · simp only [Option.some.injEq, Prod.mk.injEq] at h
      obtain ⟨h1, h2⟩ := h
      subst h1
      exact h2
    · cases hw : atag_walk t m (a + 4 * ldl_phys t m a) k with
      | none => simp [hw] at h
      | some r =>
        obtain ⟨rs', e'⟩ := r
        simp only [hw, Option.map_some', Option.some.injEq, Prod.mk.injEq] at h
        obtain ⟨h1, h2⟩ := h
        subst h1 h2
        exact ⟨rfl, ih _ _ hw⟩

/-- A word stored by `set_kernel_args` is loaded back from the memory it leaves. -/
theorem set_kernel_args_ldl (t : Target) (info : arm_boot_info) (atag_board_buf : Nat → Nat)
    (m : Mem) (wf : WellFormed t info atag_board_buf) (a v : Nat)
    (h : MemOp.stl a v ∈ set_kernel_args t info atag_board_buf) (hv : v < 2 ^ 32) :
    ldl_phys t (run_ops t m (set_kernel_args t info atag_board_buf)) a = v :=
  run_ops_ldl t m _ (set_kernel_args_pairwise t info atag_board_buf wf) a v h hv

/-- A buffer copied by `set_kernel_args` is read back from the memory it leaves. -/
theorem set_kernel_args_bytes (t : Target) (info : arm_boot_info) (atag_board_buf : Nat → Nat)
    (m : Mem) (wf : WellFormed t info atag_board_buf) (a : Nat) (bs : List Nat)
    (h : MemOp.write a bs ∈ set_kernel_args t info atag_board_buf) (i : Nat)
    (hi : i < bs.length) :
    run_ops t m (set_kernel_args t info atag_board_buf) (a + i) = bs.getD i 0 :=
  run_ops_bytes t m _ (set_kernel_args_pairwise t info atag_board_buf wf) a bs h i hi

theorem u32_lt (x : Nat) : u32 x < 2 ^ 32 := Nat.mod_lt _ (by norm_num)

theorem full_info_board_len : atag_board_len full_info zero_bytes = 8 := by
  rw [atag_board_len_eq full_info zero_bytes _ rfl]
  decide

theorem full_info_wf : WellFormed arm_le32 full_info zero_bytes where
  no_wrap := by
    unfold atag_list_bytes
    rw [full_info_board_len]
    decide
  cmdline_chars := by
    intro s hs c hc
    simp only [full_info, Option.some.injEq] at hs
    subst hs
    revert c
    decide
  cmdline_len := by
    intro s hs
    simp only [full_info, Option.some.injEq] at hs
    subst hs
    decide
  board_len := by
    intro cb hcb
    simp only [full_info, Option.some.injEq] at hcb
    subst hcb
    decide


/-! ## Order of the tags and the terminator -/

theorem expected_records_tags (info : arm_boot_info) (atag_board_buf : Nat → Nat) :
    (expected_records info atag_board_buf).map TagRecord.tag
      = [ATAG_CORE, ATAG_MEM]
        ++ (if info.initrd_size ≠ 0 then [ATAG_INITRD2] else [])
        ++ (if info.atag_revision ≠ 0 then [ATAG_REVISION] else [])
        ++ (if info.has_cmdline then [ATAG_CMDLINE] else [])
        ++ (if info.atag_board.isSome then [ATAG_BOARD] else []) := by
  have h1 : (initrd_recs info).map TagRecord.tag
      = if info.initrd_size ≠ 0 then [ATAG_INITRD2] else [] := by
    unfold initrd_recs; split <;> rfl
  have h2 : (revision_recs info).map TagRecord.tag
      = if info.atag_revision ≠ 0 then [ATAG_REVISION] else [] := by
    unfold revision_recs; split <;> rfl
  have h3 : (cmdline_recs info).map TagRecord.tag
      = if info.has_cmdline then [ATAG_CMDLINE] else [] := by
    unfold cmdline_recs arm_boot_info.has_cmdline
    rcases info.kernel_cmdline with _ | ⟨_ | ⟨c, cs⟩⟩ <;> simp
  have h4 : (board_recs info atag_board_buf).map TagRecord.tag
      = if info.atag_board.isSome then [ATAG_BOARD] else [] := by
    unfold board_recs
    cases info.atag_board <;> simp
  simp only [expected_records, List.map_append, h1, h2, h3, h4]
  rfl

theorem expected_records_sublist (t : Target) (info : arm_boot_info)
    (atag_board_buf : Nat → Nat) :
    List.Sublist
      ((expected_records info atag_board_buf).map (fun r => MemOp.stl (r.addr + 4) r.tag))
      (core_ops (info.loader_start + KERNEL_ARGS_ADDR)
        ++ mem_ops info (info.loader_start + KERNEL_ARGS_ADDR + 20)
        ++ initrd_ops t info (initrd_addr info)
        ++ revision_ops info (revision_addr info)
        ++ cmdline_ops info (cmdline_addr info)
        ++ board_ops info atag_board_buf (board_addr info)
        ++ end_ops (end_addr info atag_board_buf)) := by
  have h0 : List.Sublist [MemOp.stl (info.loader_start + KERNEL_ARGS_ADDR + 4) ATAG_CORE]
      (core_ops (info.loader_start + KERNEL_ARGS_ADDR)) :=
    List.singleton_sublist.2 (by simp [core_ops])
  have h1 : List.Sublist [MemOp.stl (info.loader_start + KERNEL_ARGS_ADDR + 20 + 4) ATAG_MEM]
      (mem_ops info (info.loader_start + KERNEL_ARGS_ADDR + 20)) :=
    List.singleton_sublist.2 (by simp [mem_ops])
  have h2 : List.Sublist ((initrd_recs info).map (fun r => MemOp.stl (r.addr + 4) r.tag))
      (initrd_ops t info (initrd_addr info)) := by
    unfold initrd_recs initrd_ops
    split
    · exact List.singleton_sublist.2 (by simp)
    · exact List.Sublist.refl _
  have h3 : List.Sublist ((revision_recs info).map (fun r => MemOp.stl (r.addr + 4) r.tag))
      (revision_ops info (revision_addr info)) := by
    unfold revision_recs revision_ops
    split
    · exact List.singleton_sublist.2 (by simp)
    · exact List.Sublist.refl _
  have h4 : List.Sublist ((cmdline_recs info).map (fun r => MemOp.stl (r.addr + 4) r.tag))
      (cmdline_ops info (cmdline_addr info)) := by
    unfold cmdline_recs cmdline_ops
    rcases info.kernel_cmdline with _ | ⟨_ | ⟨c, cs⟩⟩
    · exact List.Sublist.refl _
    · exact List.Sublist.refl _
    · exact List.singleton_sublist.2 (by simp)
  have h5 : List.Sublist
      ((board_recs info atag_board_buf).map (fun r => MemOp.stl (r.addr + 4) r.tag))
      (board_ops info atag_board_buf (board_addr info)) := by
    unfold board_recs board_ops
    cases info.atag_board with
    | none => exact List.Sublist.refl _
    | some cb => exact List.singleton_sublist.2 (by simp)
  have h6 : List.Sublist ([] : List MemOp) (end_ops (end_addr info atag_board_buf)) :=
    List.nil_sublist _
  have := ((((((h0.append h1).append h2).append h3).append h4).append h5).append h6)
  simpa [expected_records] using this

/-- C2: the tags of `set_kernel_args` are written, and found by a walk of guest memory,
in the order CORE, MEM, then INITRD2, REVISION, CMDLINE and board tag (each only if
emitted); the two words written last are the terminator (size 0, tag 0), stored
immediately after the last emitted tag. -/
theorem set_kernel_args_tag_order (t : Target) (info : arm_boot_info)
    (atag_board_buf : Nat → Nat) (m : Mem) (wf : WellFormed t info atag_board_buf) :
    ∃ rs e,
      atag_walk t (run_ops t m (set_kernel_args t info atag_board_buf))
          (info.loader_start + KERNEL_ARGS_ADDR) 7 = some (rs, e)
      ∧ rs.map TagRecord.tag
          = [ATAG_CORE, ATAG_MEM]
            ++ (if info.initrd_size ≠ 0 then [ATAG_INITRD2] else [])
            ++ (if info.atag_revision ≠ 0 then [ATAG_REVISION] else [])
            ++ (if info.has_cmdline then [ATAG_CMDLINE] else [])
            ++ (if info.atag_board.isSome then [ATAG_BOARD] else [])
      ∧ List.Sublist (rs.map (fun r => MemOp.stl (r.addr + 4) r.tag))
          (set_kernel_args t info atag_board_buf)
      ∧ TagRecord.Linked (info.loader_start + KERNEL_ARGS_ADDR) rs e
      ∧ ∃ pre, set_kernel_args t info atag_board_buf
          = pre ++ [MemOp.stl e 0, MemOp.stl (e + 4) 0] := by
  have hw := atag_walk_set_kernel_args t info atag_board_buf m wf 7 (le_refl _)
  refine ⟨_, _, hw, expected_records_tags info atag_board_buf, ?_,
    atag_walk_linked _ _ _ _ _ _ hw, ?_⟩
  · rw [set_kernel_args_eq t info atag_board_buf wf]
    exact expected_records_sublist t info atag_board_buf
  · rw [set_kernel_args_eq t info atag_board_buf wf]
    exact ⟨_, rfl⟩

/-- Witness for `set_kernel_args_tag_order`. -/
theorem set_kernel_args_tag_order_witness :
    WellFormed arm_le32 full_info zero_bytes
      ∧ ∃ rs e,
        atag_walk arm_le32 (run_ops arm_le32 zero_bytes
            (set_kernel_args arm_le32 full_info zero_bytes))
          (full_info.loader_start + KERNEL_ARGS_ADDR) 7 = some (rs, e)
        ∧ rs.map TagRecord.tag
            = [ATAG_CORE, ATAG_MEM]
              ++ (if full_info.initrd_size ≠ 0 then [ATAG_INITRD2] else [])
              ++ (if full_info.atag_revision ≠ 0 then [ATAG_REVISION] else [])
              ++ (if full_info.has_cmdline then [ATAG_CMDLINE] else [])
              ++ (if full_info.atag_board.isSome then [ATAG_BOARD] else [])
        ∧ List.Sublist (rs.map (fun r => MemOp.stl (r.addr + 4) r.tag))
            (set_kernel_args arm_le32 full_info zero_bytes)
        ∧ TagRecord.Linked (full_info.loader_start + KERNEL_ARGS_ADDR) rs e
        ∧ ∃ pre, set_kernel_args arm_le32 full_info zero_bytes
            = pre ++ [MemOp.stl e 0, MemOp.stl (e + 4) 0] :=
  ⟨full_info_wf, set_kernel_args_tag_order arm_le32 full_info zero_bytes zero_bytes full_info_wf⟩


/-! ## Size words and record extents -/

/-- Every access of a tag lies inside the extent its size word announces. -/
theorem tag_ops_covered (t : Target) (info : arm_boot_info) (atag_board_buf : Nat → Nat)
    (wf : WellFormed t info atag_board_buf) (op : MemOp)
    (hop : op ∈ core_ops (info.loader_start + KERNEL_ARGS_ADDR)
        ++ mem_ops info (info.loader_start + KERNEL_ARGS_ADDR + 20)
        ++ initrd_ops t info (initrd_addr info)
        ++ revision_ops info (revision_addr info)
        ++ cmdline_ops info (cmdline_addr info)
        ++ board_ops info atag_board_buf (board_addr info)
        ++ end_ops (end_addr info atag_board_buf)) :
    (∃ r ∈ expected_records info atag_board_buf,
        r.addr ≤ op.lo ∧ op.lo + op.len ≤ r.addr + 4 * r.size)
      ∨ (end_addr info atag_board_buf ≤ op.lo
          ∧ op.lo + op.len ≤ end_addr info atag_board_buf + 8) := by
  simp only [List.mem_append] at hop
  rcases hop with (((((h | h) | h) | h) | h) | h) | h
  · left
    have := (core_ops_layout _).2 op h
    exact ⟨⟨info.loader_start + KERNEL_ARGS_ADDR, 5, ATAG_CORE⟩, by simp [expected_records],
      by simpa using this⟩
  · left
    have := (mem_ops_layout info _).2 op h
    exact ⟨⟨info.loader_start + KERNEL_ARGS_ADDR + 20, 4, ATAG_MEM⟩,
      by simp [expected_records], by simpa using this⟩
  · left
    have := (initrd_ops_layout t info _).2 op h
    by_cases hc : info.initrd_size = 0
    · simp [initrd_ops, hc] at h
    · exact ⟨⟨initrd_addr info, 4, ATAG_INITRD2⟩, by simp [expected_records, initrd_recs, hc],
        by simpa [initrd_bytes, hc] using this⟩
  · left
    have := (revision_ops_layout info _).2 op h
    by_cases hc : info.atag_revision = 0
    · simp [revision_ops, hc] at h
    · exact ⟨⟨revision_addr info, 3, ATAG_REVISION⟩,
        by simp [expected_records, revision_recs, hc],
        by simpa [revision_bytes, hc] using this⟩
  · left
    have := (cmdline_ops_layout info _).2 op h
    rcases hc : info.kernel_cmdline with _ | ⟨_ | ⟨c, cs⟩⟩
    · simp [cmdline_ops, hc] at h
    · simp [cmdline_ops, hc] at h
    · refine ⟨⟨cmdline_addr info, strlen (c :: cs) / 4 + 3, ATAG_CMDLINE⟩,
        by simp [expected_records, cmdline_recs, hc], ?_⟩
      simp only [cmdline_bytes, hc] at this
      dsimp only
      omega
  · left
    have := (board_ops_layout info atag_board_buf _).2 op h
    cases hc : info.atag_board with
    | none => simp [board_ops, hc] at h
    | some cb =>
      obtain ⟨n, hn, hn4, -⟩ := atag_board_len_nat info atag_board_buf wf.board_len
      refine ⟨⟨board_addr info, ((atag_board_len info atag_board_buf).toNat + 8) / 4,
        ATAG_BOARD⟩, by simp [expected_records, board_recs, hc], ?_⟩
      simp only [board_bytes, hc, hn, Int.toNat_ofNat] at this ⊢
      omega
  · right
    exact (end_ops_layout _).2 op h

theorem expected_records_stored (t : Target) (info : arm_boot_info)
    (atag_board_buf : Nat → Nat) (r : TagRecord)
    (hr : r ∈ expected_records info atag_board_buf) :
    r.size ≠ 0 ∧
    MemOp.stl r.addr r.size ∈ core_ops (info.loader_start + KERNEL_ARGS_ADDR)
        ++ mem_ops info (info.loader_start + KERNEL_ARGS_ADDR + 20)
        ++ initrd_ops t info (initrd_addr info)
        ++ revision_ops info (revision_addr info)
        ++ cmdline_ops info (cmdline_addr info)
        ++ board_ops info atag_board_buf (board_addr info)
        ++ end_ops (end_addr info atag_board_buf) := by
  simp only [expected_records, List.mem_append, List.mem_cons, List.mem_singleton,
    List.not_mem_nil, or_false] at hr
  rcases hr with ((((h | h) | h) | h) | h) | h
  · subst h; simp [core_ops]
  · subst h; simp [mem_ops]
  · by_cases hc : info.initrd_size = 0
    · simp [initrd_recs, hc] at h
    · simp only [initrd_recs, hc, ne_eq, not_false_eq_true, if_true, List.mem_singleton] at h
      subst h; simp [initrd_ops, hc]
  · by_cases hc : info.atag_revision = 0
    · simp [revision_recs, hc] at h
    · simp only [revision_recs, hc, ne_eq, not_false_eq_true, if_true, List.mem_singleton] at h
      subst h; simp [revision_ops, hc]
  · rcases hc : info.kernel_cmdline with _ | ⟨_ | ⟨c, cs⟩⟩
    · simp [cmdline_recs, hc] at h
    · simp [cmdline_recs, hc] at h
    · simp only [cmdline_recs, hc, List.mem_singleton] at h
      subst h; simp [cmdline_ops, hc]
  · cases hc : info.atag_board with
    | none => simp [board_recs, hc] at h
    | some cb =>
      simp only [board_recs, hc, List.mem_singleton] at h
      subst h
      refine ⟨?_, by simp [board_ops, hc]⟩
      dsimp only
      omega

/-- C4: in the tagged list of `set_kernel_args` the size word of every record is the
record's own length in words: the walk by size words from `loader_start + 0x100` steps
from each record header the code stored to the next and reaches the terminator the code
stored, and every access the code makes for a record lies within the `4 * size` bytes
that start at the record's header. -/
theorem set_kernel_args_size_words (t : Target) (info : arm_boot_info)
    (atag_board_buf : Nat → Nat) (m : Mem) (wf : WellFormed t info atag_board_buf) :
    ∃ rs e,
      atag_walk t (run_ops t m (set_kernel_args t info atag_board_buf))
          (info.loader_start + KERNEL_ARGS_ADDR) 7 = some (rs, e)
      ∧ TagRecord.Linked (info.loader_start + KERNEL_ARGS_ADDR) rs e
      ∧ (∀ r ∈ rs, r.size ≠ 0
          ∧ MemOp.stl r.addr r.size ∈ set_kernel_args t info atag_board_buf)
      ∧ MemOp.stl e 0 ∈ set_kernel_args t info atag_board_buf
      ∧ ∀ op ∈ set_kernel_args t info atag_board_buf,
          (∃ r ∈ rs, r.addr ≤ op.lo ∧ op.lo + op.len ≤ r.addr + 4 * r.size)
            ∨ (e ≤ op.lo ∧ op.lo + op.len ≤ e + 8) := by
  have hw := atag_walk_set_kernel_args t info atag_board_buf m wf 7 (le_refl _)
  refine ⟨_, _, hw, atag_walk_linked _ _ _ _ _ _ hw, ?_, ?_, ?_⟩
  · intro r hr
    rw [set_kernel_args_eq t info atag_board_buf wf]
    exact expected_records_stored t info atag_board_buf r hr
  · rw [set_kernel_args_eq t info atag_board_buf wf]
    simp [end_ops]
  · intro op hop
    rw [set_kernel_args_eq t info atag_board_buf wf] at hop
    exact tag_ops_covered t info atag_board_buf wf op hop

/-- Witness for `set_kernel_args_size_words`. -/
theorem set_kernel_args_size_words_witness :
    WellFormed arm_le32 full_info zero_bytes
      ∧ ∃ rs e,
        atag_walk arm_le32 (run_ops arm_le32 zero_bytes
            (set_kernel_args arm_le32 full_info zero_bytes))
          (full_info.loader_start + KERNEL_ARGS_ADDR) 7 = some (rs, e)
        ∧ TagRecord.Linked (full_info.loader_start + KERNEL_ARGS_ADDR) rs e
        ∧ (∀ r ∈ rs, r.size ≠ 0
            ∧ MemOp.stl r.addr r.size ∈ set_kernel_args arm_le32 full_info zero_bytes)
        ∧ MemOp.stl e 0 ∈ set_kernel_args arm_le32 full_info zero_bytes
        ∧ ∀ op ∈ set_kernel_args arm_le32 full_info zero_bytes,
            (∃ r ∈ rs, r.addr ≤ op.lo ∧ op.lo + op.len ≤ r.addr + 4 * r.size)
              ∨ (e ≤ op.lo ∧ op.lo + op.len ≤ e + 8) :=
  ⟨full_info_wf,
    set_kernel_args_size_words arm_le32 full_info zero_bytes zero_bytes full_info_wf⟩


/-! ## Decoding the tagged list -/

theorem takeWhile_map_range (f : Nat → Nat) (s : List Nat) (n : Nat) (hn : s.length < n)
    (hs : ∀ c ∈ s, c ≠ 0) (hf : ∀ i, i < s.length → f i = s.getD i 0)
    (h0 : f s.length = 0) :
    ((List.range n).map f).takeWhile (fun b => b ≠ 0) = s := by
  induction s generalizing f n with
  | nil =>
    obtain ⟨k, rfl⟩ : ∃ k, n = k + 1 := ⟨n - 1, by simp at hn; omega⟩
    rw [List.range_succ_eq_map]
    simp only [List.map_cons, List.length_nil] at h0 ⊢
    simp [List.takeWhile, h0]
  | cons c cs ih =>
    obtain ⟨k, rfl⟩ : ∃ k, n = k + 1 := ⟨n - 1, by simp at hn; omega⟩
    rw [List.range_succ_eq_map]
    have hc : f 0 = c := by simpa using hf 0 (by simp)
    have hcne : c ≠ 0 := hs c (by simp)
    simp only [List.map_cons, List.map_map]
    rw [List.takeWhile_cons]
    simp only [hc, ne_eq, hcne, not_false_eq_true, decide_True, if_true, List.cons.injEq,
      true_and]
    apply ih (f ∘ Nat.succ) k (by simpa using hn) (fun x hx => hs x (by simp [hx]))
    · intro i hi
      have := hf (i + 1) (by simpa using hi)
      simpa using this
    · simpa using h0

theorem expected_records_find_mem (info : arm_boot_info) (atag_board_buf : Nat → Nat) :
    (expected_records info atag_board_buf).find? (fun r => r.tag = ATAG_MEM)
      = some ⟨info.loader_start + KERNEL_ARGS_ADDR + 20, 4, ATAG_MEM⟩ := by
  have h : ATAG_CORE ≠ ATAG_MEM := by decide
  simp [expected_records, List.find?_cons, h]

theorem expected_records_find_initrd (info : arm_boot_info) (atag_board_buf : Nat → Nat) :
    (expected_records info atag_board_buf).find? (fun r => r.tag = ATAG_INITRD2)
      = (initrd_recs info).head? := by
  have n0 : ATAG_CORE ≠ ATAG_INITRD2 := by decide
  have n1 : ATAG_MEM ≠ ATAG_INITRD2 := by decide
  have n2 : ATAG_REVISION ≠ ATAG_INITRD2 := by decide
  have n3 : ATAG_CMDLINE ≠ ATAG_INITRD2 := by decide
  have n4 : ATAG_BOARD ≠ ATAG_INITRD2 := by decide
  by_cases h1 : info.initrd_size = 0 <;> by_cases h2 : info.atag_revision = 0 <;>
    rcases h3 : info.kernel_cmdline with _ | ⟨_ | ⟨c, cs⟩⟩ <;>
    cases h4 : info.atag_board <;>
    simp [expected_records, initrd_recs, revision_recs, cmdline_recs, board_recs,
      List.find?_cons, h1, h2, h3, h4, n0, n1, n2, n3, n4]

theorem expected_records_find_revision (info : arm_boot_info) (atag_board_buf : Nat → Nat) :
    (expected_records info atag_board_buf).find? (fun r => r.tag = ATAG_REVISION)
      = (revision_recs info).head? := by
  have n0 : ATAG_CORE ≠ ATAG_REVISION := by decide
  have n1 : ATAG_MEM ≠ ATAG_REVISION := by decide
  have n2 : ATAG_INITRD2 ≠ ATAG_REVISION := by decide
  have n3 : ATAG_CMDLINE ≠ ATAG_REVISION := by decide
  have n4 : ATAG_BOARD ≠ ATAG_REVISION := by decide
  by_cases h1 : info.initrd_size = 0 <;> by_cases h2 : info.atag_revision = 0 <;>
    rcases h3 : info.kernel_cmdline with _ | ⟨_ | ⟨c, cs⟩⟩ <;>
    cases h4 : info.atag_board <;>
    simp [expected_records, initrd_recs, revision_recs, cmdline_recs, board_recs,
      List.find?_cons, h1, h2, h3, h4, n0, n1, n2, n3, n4]

theorem expected_records_find_cmdline (info : arm_boot_info) (atag_board_buf : Nat → Nat) :
    (expected_records info atag_board_buf).find? (fun r => r.tag = ATAG_CMDLINE)
      = (cmdline_recs info).head? := by
  have n0 : ATAG_CORE ≠ ATAG_CMDLINE := by decide
  have n1 : ATAG_MEM ≠ ATAG_CMDLINE := by decide
  have n2 : ATAG_INITRD2 ≠ ATAG_CMDLINE := by decide
  have n3 : ATAG_REVISION ≠ ATAG_CMDLINE := by decide
  have n4 : ATAG_BOARD ≠ ATAG_CMDLINE := by decide
  by_cases h1 : info.initrd_size = 0 <;> by_cases h2 : info.atag_revision = 0 <;>
    rcases h3 : info.kernel_cmdline with _ | ⟨_ | ⟨c, cs⟩⟩ <;>
    cases h4 : info.atag_board <;>
    simp [expected_records, initrd_recs, revision_recs, cmdline_recs, board_recs,
      List.find?_cons, h1, h2, h3, h4, n0, n1, n2, n3, n4]

theorem expected_records_find_board (info : arm_boot_info) (atag_board_buf : Nat → Nat) :
    (expected_records info atag_board_buf).find? (fun r => r.tag = ATAG_BOARD)
      = (board_recs info atag_board_buf).head? := by
  have n0 : ATAG_CORE ≠ ATAG_BOARD := by decide
  have n1 : ATAG_MEM ≠ ATAG_BOARD := by decide
  have n2 : ATAG_INITRD2 ≠ ATAG_BOARD := by decide
  have n3 : ATAG_REVISION ≠ ATAG_BOARD := by decide
  have n4 : ATAG_CMDLINE ≠ ATAG_BOARD := by decide
  by_cases h1 : info.initrd_size = 0 <;> by_cases h2 : info.atag_revision = 0 <;>
    rcases h3 : info.kernel_cmdline with _ | ⟨_ | ⟨c, cs⟩⟩ <;>
    cases h4 : info.atag_board <;>
    simp [expected_records, initrd_recs, revision_recs, cmdline_recs, board_recs,
      List.find?_cons, h1, h2, h3, h4, n0, n1, n2, n3, n4]


/-- The text of the command line is read back from the payload of `ATAG_CMDLINE`. -/
theorem cmdline_read_back (t : Target) (info : arm_boot_info) (atag_board_buf : Nat → Nat)
    (m : Mem) (wf : WellFormed t info atag_board_buf) (c : Nat) (cs : List Nat)
    (hc : info.kernel_cmdline = some (c :: cs)) :
    (TagRecord.bytes (run_ops t m (set_kernel_args t info atag_board_buf))
        ⟨cmdline_addr info, strlen (c :: cs) / 4 + 3, ATAG_CMDLINE⟩).takeWhile (fun b => b ≠ 0)
      = c :: cs := by
  have hmem : MemOp.write (cmdline_addr info + 8) ((c :: cs) ++ [0])
      ∈ set_kernel_args t info atag_board_buf := by
    rw [set_kernel_args_eq t info atag_board_buf wf]
    simp [cmdline_ops, hc]
  have hb := set_kernel_args_bytes t info atag_board_buf m wf _ _ hmem
  unfold TagRecord.bytes
  apply takeWhile_map_range
  · simp only [strlen]
    omega
  · exact wf.cmdline_chars _ hc
  · intro i hi
    rw [hb i (by simp at hi ⊢; omega)]
    exact List.getD_append _ _ _ _ hi
  · rw [hb _ (by simp)]
    rw [List.getD_append_right _ _ _ _ (le_refl _)]
    simp

theorem wide_ram_info_wf : WellFormed arm_le32 wide_ram_info zero_bytes where
  no_wrap := by decide
  cmdline_chars := fun _ h => Option.noConfusion h
  cmdline_len := fun _ h => Option.noConfusion h
  board_len := fun _ h => Option.noConfusion h

/-- C3, the claim refuted: for the well-formed configuration `wide_ram_info`,
whose `ram_size` is 2^32, the tagged list that `set_kernel_args` leaves in guest memory
decodes to a memory size of 0, not to the configured `ram_size`. -/
theorem set_kernel_args_roundtrip_counterexample :
    WellFormed arm_le32 wide_ram_info zero_bytes
      ∧ atag_decode arm_le32
          (run_ops arm_le32 zero_bytes (set_kernel_args arm_le32 wide_ram_info zero_bytes))
          (wide_ram_info.loader_start + KERNEL_ARGS_ADDR) 7
        = some { mem := some (0, 0x8000), initrd := none, revision := none, cmdline := none }
      ∧ wide_ram_info.configured
        = { mem := some (0x100000000, 0x8000), initrd := none, revision := none,
            cmdline := none }
      ∧ atag_decode arm_le32
          (run_ops arm_le32 zero_bytes (set_kernel_args arm_le32 wide_ram_info zero_bytes))
          (wide_ram_info.loader_start + KERNEL_ARGS_ADDR) 7
        ≠ some wide_ram_info.configured :=
  ⟨wide_ram_info_wf, by decide, by decide, by decide⟩

/-- C3, as the code has it: for a configuration whose `ram_size`, `loader_start`,
`initrd_size` and `atag_revision` fit the 32-bit words of a tag, and whose initrd address
`loader_start + 0xd00000` does not wrap, decoding the tagged list that `set_kernel_args`
leaves in guest memory, by walking the records from `loader_start + 0x100` to the
terminator, recovers exactly the configured `ram_size`, `loader_start`, initrd presence
with address and size, revision and command-line text. -/
theorem set_kernel_args_roundtrip (t : Target) (info : arm_boot_info)
    (atag_board_buf : Nat → Nat) (m : Mem) (wf : WellFormed t info atag_board_buf)
    (fits : FitsWords t info) (fuel : Nat) (hfuel : 7 ≤ fuel) :
    atag_decode t (run_ops t m (set_kernel_args t info atag_board_buf))
        (info.loader_start + KERNEL_ARGS_ADDR) fuel
      = some info.configured := by
  unfold atag_decode
  rw [atag_walk_set_kernel_args t info atag_board_buf m wf fuel hfuel]
  simp only [Option.map_some', Option.some.injEq]
  have rd : ∀ a v, MemOp.stl a v ∈ set_kernel_args t info atag_board_buf → v < 2 ^ 32 →
      ldl_phys t (run_ops t m (set_kernel_args t info atag_board_buf)) a = v :=
    fun a v hm hv => set_kernel_args_ldl t info atag_board_buf m wf a v hm hv
  have hcmd := cmdline_read_back t info atag_board_buf m wf
  generalize run_ops t m (set_kernel_args t info atag_board_buf) = m' at rd hcmd ⊢
  rw [set_kernel_args_eq t info atag_board_buf wf] at rd
  unfold decode_records arm_boot_info.configured
  rw [expected_records_find_mem, expected_records_find_initrd, expected_records_find_revision,
    expected_records_find_cmdline]
  have u1 : u32 info.ram_size = info.ram_size := Nat.mod_eq_of_lt fits.ram_size
  have u2 : u32 info.loader_start = info.loader_start := Nat.mod_eq_of_lt fits.loader_start
  have u3 : u32 info.initrd_size = info.initrd_size := Nat.mod_eq_of_lt fits.initrd_size
  have u4 : u32 info.atag_revision = info.atag_revision := Nat.mod_eq_of_lt fits.atag_revision
  congr 1
  · -- ATAG_MEM
    have w0 := rd (info.loader_start + KERNEL_ARGS_ADDR + 20 + 8) _
      (by simp [mem_ops]) (u32_lt info.ram_size)
    have w1 := rd (info.loader_start + KERNEL_ARGS_ADDR + 20 + 12) _
      (by simp [mem_ops]) (u32_lt info.loader_start)
    simp only [Option.map_some', TagRecord.word, Nat.mul_zero, Nat.add_zero, Nat.mul_one,
      w0, u1, u2]
    rw [show info.loader_start + KERNEL_ARGS_ADDR + 20 + 8 + 4
        = info.loader_start + KERNEL_ARGS_ADDR + 20 + 12 from by omega, w1, u2]
  · -- ATAG_INITRD2
    by_cases h : info.initrd_size = 0
    · simp [initrd_recs, h]
    · have hs := fits.initrd_start h
      have w0 := rd (initrd_addr info + 8)
        (u32 (t.paddr (info.loader_start + INITRD_LOAD_ADDR)))
        (by simp [initrd_ops, h]) (u32_lt _)
      have w1 := rd (initrd_addr info + 12) _ (by simp [initrd_ops, h])
        (u32_lt info.initrd_size)
      have e1 : u32 (t.paddr (info.loader_start + INITRD_LOAD_ADDR))
          = info.loader_start + INITRD_LOAD_ADDR := by
        rw [t.paddr_eq _ hs.2]
        exact Nat.mod_eq_of_lt hs.1
      simp only [initrd_recs, h, ne_eq, not_false_eq_true, if_true, List.head?_cons,
        Option.map_some', TagRecord.word, Nat.mul_zero, Nat.add_zero, Nat.mul_one, w0, e1]
      rw [show initrd_addr info + 8 + 4 = initrd_addr info + 12 from by omega, w1, u3]
  · -- ATAG_REVISION
    by_cases h : info.atag_revision = 0
    · simp [revision_recs, h]
    · have w0 := rd (revision_addr info + 8) _ (by simp [revision_ops, h])
        (u32_lt info.atag_revision)
      simp only [revision_recs, h, ne_eq, not_false_eq_true, if_true, List.head?_cons,
        Option.map_some', TagRecord.word, Nat.mul_zero, Nat.add_zero, w0, u4]
  · -- ATAG_CMDLINE
    rcases hc : info.kernel_cmdline with _ | ⟨_ | ⟨c, cs⟩⟩
    · simp [cmdline_recs, hc]
    · simp [cmdline_recs, hc]
    · simp only [cmdline_recs, hc, List.head?_cons, Option.map_some']
      rw [hcmd c cs hc]

theorem full_info_fits : FitsWords arm_le32 full_info where
  ram_size := by decide
  loader_start := by decide
  initrd_size := by decide
  atag_revision := by decide
  initrd_start := by intro _; decide

/-- Witness for `set_kernel_args_roundtrip`. -/
theorem set_kernel_args_roundtrip_witness :
    WellFormed arm_le32 full_info zero_bytes ∧ FitsWords arm_le32 full_info ∧ 7 ≤ 7
      ∧ atag_decode arm_le32
          (run_ops arm_le32 zero_bytes (set_kernel_args arm_le32 full_info zero_bytes))
          (full_info.loader_start + KERNEL_ARGS_ADDR) 7
        = some full_info.configured :=
  ⟨full_info_wf, full_info_fits, le_refl 7,
    set_kernel_args_roundtrip arm_le32 full_info zero_bytes zero_bytes full_info_wf
      full_info_fits 7 (le_refl 7)⟩


/-! ## Which record carries which tag -/

theorem initrd_recs_tag (info : arm_boot_info) (r : TagRecord) (h : r ∈ initrd_recs info) :
    info.initrd_size ≠ 0 ∧ r = ⟨initrd_addr info, 4, ATAG_INITRD2⟩ := by
  unfold initrd_recs at h
  split at h
  · rename_i hc
    exact ⟨hc, by simpa using h⟩
  · simp at h

theorem revision_recs_tag (info : arm_boot_info) (r : TagRecord) (h : r ∈ revision_recs info) :
    info.atag_revision ≠ 0 ∧ r = ⟨revision_addr info, 3, ATAG_REVISION⟩ := by
  unfold revision_recs at h
  split at h
  · rename_i hc
    exact ⟨hc, by simpa using h⟩
  · simp at h

theorem cmdline_recs_tag (info : arm_boot_info) (r : TagRecord) (h : r ∈ cmdline_recs info) :
    ∃ c cs, info.kernel_cmdline = some (c :: cs)
      ∧ r = ⟨cmdline_addr info, strlen (c :: cs) / 4 + 3, ATAG_CMDLINE⟩ := by
  unfold cmdline_recs at h
  rcases hc : info.kernel_cmdline with _ | ⟨_ | ⟨c, cs⟩⟩
  · simp [hc] at h
  · simp [hc] at h
  · exact ⟨c, cs, rfl, by simpa [hc] using h⟩

theorem board_recs_tag (info : arm_boot_info) (atag_board_buf : Nat → Nat) (r : TagRecord)
    (h : r ∈ board_recs info atag_board_buf) :
    (∃ cb, info.atag_board = some cb)
      ∧ r = ⟨board_addr info, ((atag_board_len info atag_board_buf).toNat + 8) / 4,
          ATAG_BOARD⟩ := by
  unfold board_recs at h
  cases hc : info.atag_board with
  | none => simp [hc] at h
  | some cb => exact ⟨⟨cb, rfl⟩, by simpa [hc] using h⟩

/-- A record of the tagged list with the tag id of an optional tag is that tag's record. -/
theorem expected_records_by_tag (info : arm_boot_info) (atag_board_buf : Nat → Nat)
    (r : TagRecord) (hr : r ∈ expected_records info atag_board_buf) :
    (r.tag = ATAG_INITRD2 → r ∈ initrd_recs info)
      ∧ (r.tag = ATAG_REVISION → r ∈ revision_recs info)
      ∧ (r.tag = ATAG_CMDLINE → r ∈ cmdline_recs info)
      ∧ (r.tag = ATAG_BOARD → r ∈ board_recs info atag_board_buf) := by
  simp only [expected_records, List.mem_append, List.mem_cons, List.mem_singleton,
    List.not_mem_nil, or_false] at hr
  rcases hr with ((((h | h) | h) | h) | h) | h
  · subst h
    refine ⟨?_, ?_, ?_, ?_⟩ <;> intro h <;> dsimp only at h <;> exact absurd h (by decide)
  · subst h
    refine ⟨?_, ?_, ?_, ?_⟩ <;> intro h <;> dsimp only at h <;> exact absurd h (by decide)
  · have ht : r.tag = ATAG_INITRD2 := by rw [(initrd_recs_tag info r h).2]
    refine ⟨fun _ => h, ?_, ?_, ?_⟩ <;> intro h' <;> rw [ht] at h' <;>
      exact absurd h' (by decide)
  · have ht : r.tag = ATAG_REVISION := by rw [(revision_recs_tag info r h).2]
    refine ⟨?_, fun _ => h, ?_, ?_⟩ <;> intro h' <;> rw [ht] at h' <;>
      exact absurd h' (by decide)
  · have ht : r.tag = ATAG_CMDLINE := by
      obtain ⟨c, cs, -, e⟩ := cmdline_recs_tag info r h
      rw [e]
    refine ⟨?_, ?_, fun _ => h, ?_⟩ <;> intro h' <;> rw [ht] at h' <;>
      exact absurd h' (by decide)
  · have ht : r.tag = ATAG_BOARD := by rw [(board_recs_tag info atag_board_buf r h).2]
    refine ⟨?_, ?_, ?_, fun _ => h⟩ <;> intro h' <;> rw [ht] at h' <;>
      exact absurd h' (by decide)

theorem initrd_recs_sub (info : arm_boot_info) (atag_board_buf : Nat → Nat) (r : TagRecord)
    (h : r ∈ initrd_recs info) : r ∈ expected_records info atag_board_buf := by
  simp [expected_records, h]

theorem revision_recs_sub (info : arm_boot_info) (atag_board_buf : Nat → Nat) (r : TagRecord)
    (h : r ∈ revision_recs info) : r ∈ expected_records info atag_board_buf := by
  simp [expected_records, h]

theorem cmdline_recs_sub (info : arm_boot_info) (atag_board_buf : Nat → Nat) (r : TagRecord)
    (h : r ∈ cmdline_recs info) : r ∈ expected_records info atag_board_buf := by
  simp [expected_records, h]

theorem board_recs_sub (info : arm_boot_info) (atag_board_buf : Nat → Nat) (r : TagRecord)
    (h : r ∈ board_recs info atag_board_buf) : r ∈ expected_records info atag_board_buf := by
  simp [expected_records, h]

/-! ## The size of `ATAG_CMDLINE` -/

/-- C5, the claim refuted: for the command line `"a"` (length 1) the size word of
`ATAG_CMDLINE` is 3, not `ceil(1/4) + 3 = 4`. -/
theorem cmdline_size_ceil_counterexample :
    atag_walk arm_le32
        (run_ops arm_le32 zero_bytes (set_kernel_args arm_le32 short_cmdline_info zero_bytes))
        (short_cmdline_info.loader_start + KERNEL_ARGS_ADDR) 7
      = some ([⟨0x100, 5, ATAG_CORE⟩, ⟨0x114, 4, ATAG_MEM⟩, ⟨0x124, 3, ATAG_CMDLINE⟩], 0x130)
    ∧ short_cmdline_info.kernel_cmdline = some [97]
    ∧ (3 : Nat) ≠ (strlen [97] + 3) / 4 + 3 := by
  decide

/-- C5 as amended: for every non-empty command line of length `n` the size word of the
`ATAG_CMDLINE` record is `floor(n/4) + 1` payload words plus the 2 header words, and
that record is the only one carrying the tag. -/
theorem set_kernel_args_cmdline_size (t : Target) (info : arm_boot_info)
    (atag_board_buf : Nat → Nat) (m : Mem) (wf : WellFormed t info atag_board_buf)
    (c : Nat) (cs : List Nat) (hc : info.kernel_cmdline = some (c :: cs)) :
    ∃ rs e,
      atag_walk t (run_ops t m (set_kernel_args t info atag_board_buf))
          (info.loader_start + KERNEL_ARGS_ADDR) 7 = some (rs, e)
      ∧ ∃ r ∈ rs, r.tag = ATAG_CMDLINE
          ∧ r.size = strlen (c :: cs) / 4 + 1 + 2
          ∧ MemOp.stl r.addr r.size ∈ set_kernel_args t info atag_board_buf
          ∧ ∀ r' ∈ rs, r'.tag = ATAG_CMDLINE → r' = r := by
  have hw := atag_walk_set_kernel_args t info atag_board_buf m wf 7 (le_refl _)
  have hmem : (⟨cmdline_addr info, strlen (c :: cs) / 4 + 3, ATAG_CMDLINE⟩ : TagRecord)
      ∈ cmdline_recs info := by
    simp [cmdline_recs, hc]
  refine ⟨_, _, hw, _, cmdline_recs_sub info atag_board_buf _ hmem, rfl, rfl, ?_, ?_⟩
  · rw [set_kernel_args_eq t info atag_board_buf wf]
    simp [cmdline_ops, hc]
  · intro r' hr' ht
    have h := (expected_records_by_tag info atag_board_buf r' hr').2.2.1 ht
    obtain ⟨c', cs', hc', e⟩ := cmdline_recs_tag info r' h
    rw [hc] at hc'
    simp only [Option.some.injEq, List.cons.injEq] at hc'
    obtain ⟨h1, h2⟩ := hc'
    subst h1 h2
    exact e

/-- Witness for `set_kernel_args_cmdline_size`. -/
theorem set_kernel_args_cmdline_size_witness :
    WellFormed arm_le32 full_info zero_bytes
      ∧ full_info.kernel_cmdline = some (99 :: console_cmdline.tail)
      ∧ ∃ rs e,
        atag_walk arm_le32
            (run_ops arm_le32 zero_bytes (set_kernel_args arm_le32 full_info zero_bytes))
            (full_info.loader_start + KERNEL_ARGS_ADDR) 7 = some (rs, e)
        ∧ ∃ r ∈ rs, r.tag = ATAG_CMDLINE
            ∧ r.size = strlen (99 :: console_cmdline.tail) / 4 + 1 + 2
            ∧ MemOp.stl r.addr r.size ∈ set_kernel_args arm_le32 full_info zero_bytes
            ∧ ∀ r' ∈ rs, r'.tag = ATAG_CMDLINE → r' = r :=
  ⟨full_info_wf, rfl,
    set_kernel_args_cmdline_size arm_le32 full_info zero_bytes zero_bytes full_info_wf 99
      console_cmdline.tail rfl⟩


/-! ## The concrete scenario -/

theorem scenario_info_wf_target (t : Target) (loader_start : Nat) (buf : Nat → Nat)
    (h : loader_start + KERNEL_ARGS_ADDR + 68 < 2 ^ t.phys_addr_bits) :
    WellFormed t (scenario_info loader_start) buf where
  no_wrap := by
    have e : atag_list_bytes (scenario_info loader_start) buf = 68 := by
      simp [atag_list_bytes, scenario_info, console_cmdline, strlen]
    rw [e]
    exact h
  cmdline_chars := by
    intro s hs c hc
    simp only [scenario_info, Option.some.injEq] at hs
    subst hs
    revert c
    decide
  cmdline_len := by
    intro s hs
    simp only [scenario_info, Option.some.injEq] at hs
    subst hs
    decide
  board_len := by
    intro cb hcb
    simp [scenario_info] at hcb

/-- C6, the claim refuted: with `ram_size = 0x10000000`, no initrd, no revision, no board
tag and the command line `"console=ttyAMA0"` (15 characters) the `ATAG_CMDLINE` record
is 6 words long, not 7, and the terminator ends 17 words after the start of the block,
not 18. -/
theorem scenario_block_counterexample :
    atag_walk arm_le32
        (run_ops arm_le32 zero_bytes (set_kernel_args arm_le32 (scenario_info 0) zero_bytes))
        (0 + KERNEL_ARGS_ADDR) 7
      = some ([⟨0x100, 5, ATAG_CORE⟩, ⟨0x114, 4, ATAG_MEM⟩, ⟨0x124, 6, ATAG_CMDLINE⟩], 0x13c)
    ∧ strlen console_cmdline = 15
    ∧ (6 : Nat) ≠ 2 + 5
    ∧ (0x13c + 8 - (0 + KERNEL_ARGS_ADDR)) / 4 = 17
    ∧ (17 : Nat) ≠ 5 + 4 + 7 + 2 := by
  decide

/-- C6 as amended: in the concrete scenario `set_kernel_args` emits exactly CORE,
MEM (size `0x10000000`, start `loader_start`), CMDLINE and the terminator; the CMDLINE
record is 2 header words plus 4 payload words holding the text, and the block is
5 + 4 + 6 + 2 = 17 words long. -/
theorem scenario_block (t : Target) (loader_start : Nat) (buf : Nat → Nat) (m : Mem)
    (h : loader_start + KERNEL_ARGS_ADDR + 68 < 2 ^ t.phys_addr_bits)
    (h32 : loader_start < 2 ^ 32) :
    atag_walk t (run_ops t m (set_kernel_args t (scenario_info loader_start) buf))
        (loader_start + KERNEL_ARGS_ADDR) 7
      = some ([⟨loader_start + KERNEL_ARGS_ADDR, 5, ATAG_CORE⟩,
               ⟨loader_start + KERNEL_ARGS_ADDR + 20, 4, ATAG_MEM⟩,
               ⟨loader_start + KERNEL_ARGS_ADDR + 36, 2 + 4, ATAG_CMDLINE⟩],
              loader_start + KERNEL_ARGS_ADDR + 4 * (5 + 4 + 6))
    ∧ ldl_phys t (run_ops t m (set_kernel_args t (scenario_info loader_start) buf))
        (loader_start + KERNEL_ARGS_ADDR + 28) = 0x10000000
    ∧ ldl_phys t (run_ops t m (set_kernel_args t (scenario_info loader_start) buf))
        (loader_start + KERNEL_ARGS_ADDR + 32) = loader_start
    ∧ (TagRecord.bytes (run_ops t m (set_kernel_args t (scenario_info loader_start) buf))
        ⟨loader_start + KERNEL_ARGS_ADDR + 36, 2 + 4, ATAG_CMDLINE⟩).takeWhile
          (fun b => b ≠ 0) = console_cmdline
    ∧ set_kernel_args t (scenario_info loader_start) buf
        = core_ops (loader_start + KERNEL_ARGS_ADDR)
          ++ mem_ops (scenario_info loader_start) (loader_start + KERNEL_ARGS_ADDR + 20)
          ++ [MemOp.write (loader_start + KERNEL_ARGS_ADDR + 36 + 8) (console_cmdline ++ [0]),
              MemOp.stl (loader_start + KERNEL_ARGS_ADDR + 36) 6,
              MemOp.stl (loader_start + KERNEL_ARGS_ADDR + 36 + 4) ATAG_CMDLINE]
          ++ end_ops (loader_start + KERNEL_ARGS_ADDR + 4 * (5 + 4 + 6))
    ∧ 5 + 4 + 6 + 2 = 17 := by
  have wf := scenario_info_wf_target t loader_start buf h
  have hw := atag_walk_set_kernel_args t (scenario_info loader_start) buf m wf 7 (le_refl _)
  have heq := set_kernel_args_eq t (scenario_info loader_start) buf wf
  have hrec : expected_records (scenario_info loader_start) buf
      = [⟨loader_start + KERNEL_ARGS_ADDR, 5, ATAG_CORE⟩,
         ⟨loader_start + KERNEL_ARGS_ADDR + 20, 4, ATAG_MEM⟩,
         ⟨loader_start + KERNEL_ARGS_ADDR + 36, 2 + 4, ATAG_CMDLINE⟩] := by
    simp [expected_records, initrd_recs, revision_recs, cmdline_recs, board_recs,
      scenario_info, console_cmdline, strlen, cmdline_addr, revision_addr, initrd_addr,
      initrd_bytes, revision_bytes]
  have hca : cmdline_addr (scenario_info loader_start)
      = loader_start + KERNEL_ARGS_ADDR + 36 := by
    simp [scenario_info, cmdline_addr, revision_addr, initrd_addr, initrd_bytes,
      revision_bytes]
  have hba : board_addr (scenario_info loader_start)
      = loader_start + KERNEL_ARGS_ADDR + 4 * (5 + 4 + 6) := by
    simp only [board_addr, hca]
    simp [scenario_info, cmdline_bytes, console_cmdline, strlen]
  have hend : end_addr (scenario_info loader_start) buf
      = loader_start + KERNEL_ARGS_ADDR + 4 * (5 + 4 + 6) := by
    simp only [end_addr, hba]
    simp [scenario_info, board_bytes]
  have hops : set_kernel_args t (scenario_info loader_start) buf
      = core_ops (loader_start + KERNEL_ARGS_ADDR)
        ++ mem_ops (scenario_info loader_start) (loader_start + KERNEL_ARGS_ADDR + 20)
        ++ [MemOp.write (loader_start + KERNEL_ARGS_ADDR + 36 + 8) (console_cmdline ++ [0]),
            MemOp.stl (loader_start + KERNEL_ARGS_ADDR + 36) 6,
            MemOp.stl (loader_start + KERNEL_ARGS_ADDR + 36 + 4) ATAG_CMDLINE]
        ++ end_ops (loader_start + KERNEL_ARGS_ADDR + 4 * (5 + 4 + 6)) := by
    rw [heq, hend, hca]
    simp [initrd_ops, revision_ops, cmdline_ops, board_ops, scenario_info, console_cmdline,
      strlen]
  rw [hrec, hend] at hw
  refine ⟨hw, ?_, ?_, ?_, hops, rfl⟩
  · have := set_kernel_args_ldl t (scenario_info loader_start) buf m wf
      (loader_start + KERNEL_ARGS_ADDR + 28) (u32 0x10000000)
      (by rw [hops]; simp [mem_ops, scenario_info, Nat.add_assoc]) (u32_lt _)
    rw [this]
    decide
  · have := set_kernel_args_ldl t (scenario_info loader_start) buf m wf
      (loader_start + KERNEL_ARGS_ADDR + 32) (u32 loader_start)
      (by rw [hops]; simp [mem_ops, scenario_info, Nat.add_assoc]) (u32_lt _)
    rw [this]
    exact Nat.mod_eq_of_lt h32
  · have := cmdline_read_back t (scenario_info loader_start) buf m wf 99
      console_cmdline.tail rfl
    rw [hca] at this
    exact this

/-- Witness for `scenario_block`. -/
theorem scenario_block_witness :
    (0x8000 : Nat) + KERNEL_ARGS_ADDR + 68 < 2 ^ arm_le32.phys_addr_bits
    ∧ (0x8000 : Nat) < 2 ^ 32
    ∧ atag_walk arm_le32
        (run_ops arm_le32 zero_bytes (set_kernel_args arm_le32 (scenario_info 0x8000) zero_bytes))
        (0x8000 + KERNEL_ARGS_ADDR) 7
      = some ([⟨0x8000 + KERNEL_ARGS_ADDR, 5, ATAG_CORE⟩,
               ⟨0x8000 + KERNEL_ARGS_ADDR + 20, 4, ATAG_MEM⟩,
               ⟨0x8000 + KERNEL_ARGS_ADDR + 36, 2 + 4, ATAG_CMDLINE⟩],
              0x8000 + KERNEL_ARGS_ADDR + 4 * (5 + 4 + 6)) :=
  ⟨by decide, by decide,
    (scenario_block arm_le32 0x8000 zero_bytes zero_bytes (by decide) (by decide)).1⟩


/-! ## The first nine words -/

theorem atag_initrd2_appends (t : Target) (info : arm_boot_info) (w : Writer) :
    ∃ l, (atag_initrd2 t info w).ops = w.ops ++ l := by
  unfold atag_initrd2
  split
  · exact ⟨_, by simp only [WRITE_WORD, List.append_assoc]; rfl⟩
  · exact ⟨[], by simp⟩

theorem atag_revision_appends (t : Target) (info : arm_boot_info) (w : Writer) :
    ∃ l, (atag_revision t info w).ops = w.ops ++ l := by
  unfold atag_revision
  split
  · exact ⟨_, by simp only [WRITE_WORD, List.append_assoc]; rfl⟩
  · exact ⟨[], by simp⟩

theorem atag_cmdline_appends (t : Target) (info : arm_boot_info) (w : Writer) :
    ∃ l, (atag_cmdline t info w).ops = w.ops ++ l := by
  unfold atag_cmdline
  split
  · exact ⟨[], by simp⟩
  · exact ⟨[], by simp⟩
  · exact ⟨_, by simp only [WRITE_WORD, Writer.write, List.append_assoc]; rfl⟩

theorem atag_board_appends (t : Target) (info : arm_boot_info) (atag_board_buf : Nat → Nat)
    (w : Writer) : ∃ l, (atag_board t info atag_board_buf w).ops = w.ops ++ l := by
  unfold atag_board
  split
  · exact ⟨[], by simp⟩
  · exact ⟨_, by simp only [WRITE_WORD, Writer.write, List.append_assoc]; rfl⟩

theorem atag_end_appends (t : Target) (w : Writer) :
    ∃ l, (atag_end t w).ops = w.ops ++ l :=
  ⟨_, by simp only [atag_end, WRITE_WORD, List.append_assoc]; rfl⟩

/-- C7: the first nine words `set_kernel_args` writes, at `loader_start + 0x100` and the
eight word addresses after it, are the CORE record `[5, 0x54410001, 1, 0x1000, 0]`
followed by the MEM record `[4, 0x54410002, ram_size, loader_start]` (each value as
the 32-bit word stored). -/
theorem set_kernel_args_core_mem (t : Target) (info : arm_boot_info)
    (atag_board_buf : Nat → Nat) :
    (set_kernel_args t info atag_board_buf).take 9
      = [MemOp.stl (t.paddr (info.loader_start + 0x100)) 5,
         MemOp.stl (t.paddr (info.loader_start + 0x100 + 4)) 0x54410001,
         MemOp.stl (t.paddr (info.loader_start + 0x100 + 8)) 1,
         MemOp.stl (t.paddr (info.loader_start + 0x100 + 12)) 0x1000,
         MemOp.stl (t.paddr (info.loader_start + 0x100 + 16)) 0,
         MemOp.stl (t.paddr (info.loader_start + 0x100 + 20)) 4,
         MemOp.stl (t.paddr (info.loader_start + 0x100 + 24)) 0x54410002,
         MemOp.stl (t.paddr (info.loader_start + 0x100 + 28)) (u32 info.ram_size),
         MemOp.stl (t.paddr (info.loader_start + 0x100 + 32)) (u32 info.loader_start)] := by
  unfold set_kernel_args set_kernel_args_writer
  dsimp only
  generalize hw2 : atag_mem t info (atag_core t
    { p := t.paddr (info.loader_start + KERNEL_ARGS_ADDR), ops := [] }) = w2
  obtain ⟨l3, h3⟩ := atag_initrd2_appends t info w2
  obtain ⟨l4, h4⟩ := atag_revision_appends t info (atag_initrd2 t info w2)
  obtain ⟨l5, h5⟩ := atag_cmdline_appends t info (atag_revision t info (atag_initrd2 t info w2))
  obtain ⟨l6, h6⟩ := atag_board_appends t info atag_board_buf
    (atag_cmdline t info (atag_revision t info (atag_initrd2 t info w2)))
  obtain ⟨l7, h7⟩ := atag_end_appends t (atag_board t info atag_board_buf
    (atag_cmdline t info (atag_revision t info (atag_initrd2 t info w2))))
  rw [h7, h6, h5, h4, h3]
  have hops : w2.ops
      = [MemOp.stl (t.paddr (info.loader_start + 0x100)) 5,
         MemOp.stl (t.paddr (info.loader_start + 0x100 + 4)) 0x54410001,
         MemOp.stl (t.paddr (info.loader_start + 0x100 + 8)) 1,
         MemOp.stl (t.paddr (info.loader_start + 0x100 + 12)) 0x1000,
         MemOp.stl (t.paddr (info.loader_start + 0x100 + 16)) 0,
         MemOp.stl (t.paddr (info.loader_start + 0x100 + 20)) 4,
         MemOp.stl (t.paddr (info.loader_start + 0x100 + 24)) 0x54410002,
         MemOp.stl (t.paddr (info.loader_start + 0x100 + 28)) (u32 info.ram_size),
         MemOp.stl (t.paddr (info.loader_start + 0x100 + 32)) (u32 info.loader_start)] := by
    rw [← hw2]
    simp [atag_mem, atag_core, WRITE_WORD, Target.paddr_add_paddr, KERNEL_ARGS_ADDR, u32,
      Nat.add_assoc]
  rw [hops]
  simp only [List.append_assoc]
  rfl

/-! ## The optional tags -/

/-- C8: the tagged list of `set_kernel_args` contains an `ATAG_INITRD2` record if and only
if `initrd_size` is not 0, and such a record is
`[4, 0x54420005, loader_start + 0xD00000, initrd_size]` (payload as the 32-bit words
stored); with `initrd_size == 0` no record header carries the tag id `0x54420005`. -/
theorem set_kernel_args_initrd2 (t : Target) (info : arm_boot_info)
    (atag_board_buf : Nat → Nat) (m : Mem) (wf : WellFormed t info atag_board_buf) :
    ∃ rs e,
      atag_walk t (run_ops t m (set_kernel_args t info atag_board_buf))
          (info.loader_start + KERNEL_ARGS_ADDR) 7 = some (rs, e)
      ∧ ((∃ r ∈ rs, r.tag = 0x54420005) ↔ info.initrd_size > 0)
      ∧ ∀ r ∈ rs, r.tag = 0x54420005 →
          r.size = 4
          ∧ r.word t (run_ops t m (set_kernel_args t info atag_board_buf)) 0
              = u32 (t.paddr (info.loader_start + 0xD00000))
          ∧ r.word t (run_ops t m (set_kernel_args t info atag_board_buf)) 1
              = u32 info.initrd_size := by
  have hw := atag_walk_set_kernel_args t info atag_board_buf m wf 7 (le_refl _)
  refine ⟨_, _, hw, ⟨?_, ?_⟩, ?_⟩
  · rintro ⟨r, hr, ht⟩
    have h := (expected_records_by_tag info atag_board_buf r hr).1 ht
    exact Nat.pos_of_ne_zero (initrd_recs_tag info r h).1
  · intro hpos
    have hne : info.initrd_size ≠ 0 := by omega
    exact ⟨⟨initrd_addr info, 4, ATAG_INITRD2⟩,
      initrd_recs_sub info atag_board_buf _ (by simp [initrd_recs, hne]), rfl⟩
  · intro r hr ht
    have h := (expected_records_by_tag info atag_board_buf r hr).1 ht
    obtain ⟨hne, e⟩ := initrd_recs_tag info r h
    subst e
    have w0 := set_kernel_args_ldl t info atag_board_buf m wf (initrd_addr info + 8)
      (u32 (t.paddr (info.loader_start + INITRD_LOAD_ADDR)))
      (by rw [set_kernel_args_eq t info atag_board_buf wf]; simp [initrd_ops, hne])
      (u32_lt _)
    have w1 := set_kernel_args_ldl t info atag_board_buf m wf (initrd_addr info + 12)
      (u32 info.initrd_size)
      (by rw [set_kernel_args_eq t info atag_board_buf wf]; simp [initrd_ops, hne])
      (u32_lt _)
    refine ⟨rfl, ?_, ?_⟩
    · simpa [TagRecord.word, INITRD_LOAD_ADDR] using w0
    · simpa [TagRecord.word, Nat.add_assoc] using w1

/-- Witness for `set_kernel_args_initrd2`. -/
theorem set_kernel_args_initrd2_witness :
    WellFormed arm_le32 full_info zero_bytes
      ∧ ∃ rs e,
        atag_walk arm_le32
            (run_ops arm_le32 zero_bytes (set_kernel_args arm_le32 full_info zero_bytes))
            (full_info.loader_start + KERNEL_ARGS_ADDR) 7 = some (rs, e)
        ∧ ((∃ r ∈ rs, r.tag = 0x54420005) ↔ full_info.initrd_size > 0)
        ∧ ∀ r ∈ rs, r.tag = 0x54420005 →
            r.size = 4
            ∧ r.word arm_le32
                (run_ops arm_le32 zero_bytes (set_kernel_args arm_le32 full_info zero_bytes)) 0
                = u32 (arm_le32.paddr (full_info.loader_start + 0xD00000))
            ∧ r.word arm_le32
                (run_ops arm_le32 zero_bytes (set_kernel_args arm_le32 full_info zero_bytes)) 1
                = u32 full_info.initrd_size :=
  ⟨full_info_wf,
    set_kernel_args_initrd2 arm_le32 full_info zero_bytes zero_bytes full_info_wf⟩

/-- C9: the tagged list of `set_kernel_args` contains an `ATAG_REVISION` record if and
only if `atag_revision` is set (not 0), and such a record is
`[3, 0x54410007, atag_revision]` (payload as the 32-bit word stored). -/
theorem set_kernel_args_revision (t : Target) (info : arm_boot_info)
    (atag_board_buf : Nat → Nat) (m : Mem) (wf : WellFormed t info atag_board_buf) :
    ∃ rs e,
      atag_walk t (run_ops t m (set_kernel_args t info atag_board_buf))
          (info.loader_start + KERNEL_ARGS_ADDR) 7 = some (rs, e)
      ∧ ((∃ r ∈ rs, r.tag = 0x54410007) ↔ info.atag_revision ≠ 0)
      ∧ ∀ r ∈ rs, r.tag = 0x54410007 →
          r.size = 3
          ∧ r.word t (run_ops t m (set_kernel_args t info atag_board_buf)) 0
              = u32 info.atag_revision := by
  have hw := atag_walk_set_kernel_args t info atag_board_buf m wf 7 (le_refl _)
  refine ⟨_, _, hw, ⟨?_, ?_⟩, ?_⟩
  · rintro ⟨r, hr, ht⟩
    have h := (expected_records_by_tag info atag_board_buf r hr).2.1 ht
    exact (revision_recs_tag info r h).1
  · intro hne
    exact ⟨⟨revision_addr info, 3, ATAG_REVISION⟩,
      revision_recs_sub info atag_board_buf _ (by simp [revision_recs, hne]), rfl⟩
  · intro r hr ht
    have h := (expected_records_by_tag info atag_board_buf r hr).2.1 ht
    obtain ⟨hne, e⟩ := revision_recs_tag info r h
    subst e
    have w0 := set_kernel_args_ldl t info atag_board_buf m wf (revision_addr info + 8)
      (u32 info.atag_revision)
      (by rw [set_kernel_args_eq t info atag_board_buf wf]; simp [revision_ops, hne])
      (u32_lt _)
    exact ⟨rfl, by simpa [TagRecord.word] using w0⟩

/-- Witness for `set_kernel_args_revision`. -/
theorem set_kernel_args_revision_witness :
    WellFormed arm_le32 full_info zero_bytes
      ∧ ∃ rs e,
        atag_walk arm_le32
            (run_ops arm_le32 zero_bytes (set_kernel_args arm_le32 full_info zero_bytes))
            (full_info.loader_start + KERNEL_ARGS_ADDR) 7 = some (rs, e)
        ∧ ((∃ r ∈ rs, r.tag = 0x54410007) ↔ full_info.atag_revision ≠ 0)
        ∧ ∀ r ∈ rs, r.tag = 0x54410007 →
            r.size = 3
            ∧ r.word arm_le32
                (run_ops arm_le32 zero_bytes (set_kernel_args arm_le32 full_info zero_bytes)) 0
                = u32 full_info.atag_revision :=
  ⟨full_info_wf,
    set_kernel_args_revision arm_le32 full_info zero_bytes zero_bytes full_info_wf⟩

/-- C10: when `atag_board` is set and returns `L`, the tagged list of `set_kernel_args`
contains a board record with tag id `0x414f4d50` whose size word is
`(roundup4(L) + 8) / 4` and whose payload is the first `roundup4(L)` bytes of the
callback's buffer, `roundup4(L)` being `(L + 3) & ~3`; when `atag_board` is not set
no record carries the board tag id. -/
theorem set_kernel_args_board (t : Target) (info : arm_boot_info)
    (atag_board_buf : Nat → Nat) (m : Mem) (wf : WellFormed t info atag_board_buf) :
    ∃ rs e,
      atag_walk t (run_ops t m (set_kernel_args t info atag_board_buf))
          (info.loader_start + KERNEL_ARGS_ADDR) 7 = some (rs, e)
      ∧ (∀ cb, info.atag_board = some cb →
          ∃ r ∈ rs, r.tag = 0x414f4d50
            ∧ (r.size : Int) = (Int.land ((cb atag_board_buf).ret + 3) (Int.not 3) + 8) / 4
            ∧ (∀ i : Nat, (i : Int) < Int.land ((cb atag_board_buf).ret + 3) (Int.not 3) →
                run_ops t m (set_kernel_args t info atag_board_buf) (r.addr + 8 + i)
                  = (cb atag_board_buf).buf i)
            ∧ ∀ r' ∈ rs, r'.tag = 0x414f4d50 → r' = r)
      ∧ (info.atag_board = none → ∀ r ∈ rs, r.tag ≠ 0x414f4d50) := by
  have hw := atag_walk_set_kernel_args t info atag_board_buf m wf 7 (le_refl _)
  refine ⟨_, _, hw, ?_, ?_⟩
  · intro cb hcb
    obtain ⟨n, hn, hn4, -⟩ := atag_board_len_nat info atag_board_buf wf.board_len
    have hl : Int.land ((cb atag_board_buf).ret + 3) (Int.not 3) = (n : Int) := by
      rw [← hn]; unfold atag_board_len; rw [hcb]
    have hmemr : (⟨board_addr info, ((atag_board_len info atag_board_buf).toNat + 8) / 4,
        ATAG_BOARD⟩ : TagRecord) ∈ board_recs info atag_board_buf := by
      simp [board_recs, hcb]
    refine ⟨_, board_recs_sub info atag_board_buf _ hmemr, rfl, ?_, ?_, ?_⟩
    · rw [hl, hn]
      simp only [Int.toNat_ofNat]
      omega
    · intro i hi
      rw [hl] at hi
      have hi' : i < n := by exact_mod_cast hi
      have hmem : MemOp.write (board_addr info + 8)
          ((List.range n).map (cb atag_board_buf).buf)
          ∈ set_kernel_args t info atag_board_buf := by
        rw [set_kernel_args_eq t info atag_board_buf wf]
        simp [board_ops, hcb, hn]
      have := set_kernel_args_bytes t info atag_board_buf m wf _ _ hmem i (by simpa using hi')
      rw [this, List.getD_eq_getElem _ _ (by simpa using hi')]
      simp
    · intro r' hr' ht
      have h := (expected_records_by_tag info atag_board_buf r' hr').2.2.2 ht
      exact (board_recs_tag info atag_board_buf r' h).2
  · intro hnone r hr ht
    have h := (expected_records_by_tag info atag_board_buf r hr).2.2.2 ht
    obtain ⟨⟨cb, hcb⟩, -⟩ := board_recs_tag info atag_board_buf r h
    rw [hnone] at hcb
    cases hcb

/-- Witness for `set_kernel_args_board`. -/
theorem set_kernel_args_board_witness :
    WellFormed arm_le32 full_info zero_bytes
      ∧ ∃ rs e,
        atag_walk arm_le32
            (run_ops arm_le32 zero_bytes (set_kernel_args arm_le32 full_info zero_bytes))
            (full_info.loader_start + KERNEL_ARGS_ADDR) 7 = some (rs, e)
        ∧ (∀ cb, full_info.atag_board = some cb →
            ∃ r ∈ rs, r.tag = 0x414f4d50
              ∧ (r.size : Int) = (Int.land ((cb zero_bytes).ret + 3) (Int.not 3) + 8) / 4
              ∧ (∀ i : Nat, (i : Int) < Int.land ((cb zero_bytes).ret + 3) (Int.not 3) →
                  run_ops arm_le32 zero_bytes (set_kernel_args arm_le32 full_info zero_bytes)
                      (r.addr + 8 + i)
                    = (cb zero_bytes).buf i)
              ∧ ∀ r' ∈ rs, r'.tag = 0x414f4d50 → r' = r)
        ∧ (full_info.atag_board = none → ∀ r ∈ rs, r.tag ≠ 0x414f4d50) :=
  ⟨full_info_wf, set_kernel_args_board arm_le32 full_info zero_bytes zero_bytes full_info_wf⟩


/-! ## Closed form of the trace of `set_kernel_args_old` -/

theorem word_stores_nil (a : Nat) : word_stores a [] = [] := rfl

theorem word_stores_cons (a v : Nat) (vs : List Nat) :
    word_stores a (v :: vs) = MemOp.stl a v :: word_stores (a + 4) vs := by
  unfold word_stores
  rw [List.length_cons, List.range_succ_eq_map, List.map_cons, List.map_map]
  simp only [Nat.mul_zero, Nat.add_zero, List.getD_cons_zero, List.cons.injEq, true_and]
  apply List.map_congr_left
  intro i _
  simp only [Function.comp, Nat.succ_eq_add_one, List.getD_cons_succ]
  congr 1
  omega

theorem word_stores_append (a : Nat) (l1 l2 : List Nat) :
    word_stores a (l1 ++ l2) = word_stores a l1 ++ word_stores (a + 4 * l1.length) l2 := by
  induction l1 generalizing a with
  | nil => simp [word_stores_nil]
  | cons v vs ih =>
    rw [List.cons_append, word_stores_cons, word_stores_cons, ih, List.cons_append]
    congr 3
    simp only [List.length_cons]
    omega

theorem word_stores_length (a : Nat) (ws : List Nat) : (word_stores a ws).length = ws.length := by
  simp [word_stores]

theorem write_words_eq (t : Target) (w : Writer) (vs : List Nat)
    (h : w.p + 4 * vs.length < 2 ^ t.phys_addr_bits) :
    write_words t w vs = ⟨w.p + 4 * vs.length, w.ops ++ word_stores w.p (vs.map u32)⟩ := by
  induction vs generalizing w with
  | nil => simp [write_words, word_stores_nil]
  | cons v vs ih =>
    simp only [List.length_cons] at h
    have e4 := t.paddr_eq (w.p + 4) (by omega)
    have hw : WRITE_WORD t w v = ⟨w.p + 4, w.ops ++ [MemOp.stl w.p (u32 v)]⟩ := by
      simp [WRITE_WORD, e4]
    have := ih (WRITE_WORD t w v) (by rw [hw]; dsimp only; omega)
    unfold write_words at this ⊢
    rw [List.foldl_cons, this, hw, List.map_cons, word_stores_cons]
    simp only [List.length_cons, List.append_assoc, List.singleton_append, Writer.mk.injEq,
      and_true]
    omega

theorem zero_unused_fields_eq (t : Target) (bound n : Nat) (fuel : Nat) (w : Writer)
    (hb : w.p + 4 * n = bound) (hlt : bound < 2 ^ t.phys_addr_bits) (hf : n < fuel) :
    zero_unused_fields t bound fuel w
      = some ⟨bound, w.ops ++ word_stores w.p (List.replicate n 0)⟩ := by
  induction n generalizing w fuel with
  | zero =>
    obtain ⟨k, rfl⟩ : ∃ k, fuel = k + 1 := ⟨fuel - 1, by omega⟩
    have : ¬ w.p < bound := by omega
    simp only [zero_unused_fields, this, if_false, List.replicate_zero, word_stores_nil,
      List.append_nil]
    congr 1
    cases w
    simp only [Writer.mk.injEq, and_true]
    simpa using hb
  | succ n ih =>
    obtain ⟨k, rfl⟩ : ∃ k, fuel = k + 1 := ⟨fuel - 1, by omega⟩
    have hlt' : w.p < bound := by omega
    have e4 := t.paddr_eq (w.p + 4) (by omega)
    have hw : WRITE_WORD t w 0 = ⟨w.p + 4, w.ops ++ [MemOp.stl w.p 0]⟩ := by
      simp [WRITE_WORD, e4, u32]
    simp only [zero_unused_fields, hlt', if_true]
    rw [ih k (WRITE_WORD t w 0) (by rw [hw]; dsimp only; omega) (by omega), hw]
    simp only [List.replicate_succ, word_stores_cons, List.append_assoc, List.singleton_append]

theorem legacy_fixed_values_u32 (t : Target) (info : arm_boot_info) :
    (legacy_fixed_values t info).map u32 = legacy_fixed_words t info := by
  have h1 : u32 (FLAG_READONLY ||| FLAG_RDLOAD ||| FLAG_RDPROMPT) = 13 := by decide
  have h2 : u32 ((31 <<< 8) ||| 0) = 0x1f00 := by decide
  have h3 : u32 4096 = 4096 := by decide
  have h4 : u32 0 = 0 := by decide
  have h5 : u32 7936 = 7936 := by decide
  by_cases h : info.initrd_size = 0
  · simp [legacy_fixed_values, legacy_fixed_words, h, h1, h2, h3, h4, h5, List.replicate]
  · simp [legacy_fixed_values, legacy_fixed_words, h, h1, h2, h3, h4, h5, List.replicate]

theorem legacy_fixed_words_length (t : Target) (info : arm_boot_info) :
    (legacy_fixed_words t info).length = 23 := by
  simp [legacy_fixed_words]

/-- Closed form of the trace of `set_kernel_args_old` when the fixed region does not wrap
around the guest physical address space: the zero-fill loop ends within 298 tests of its
condition and the trace is the 320 word stores followed by the command line. -/
theorem set_kernel_args_old_eq (t : Target) (info : arm_boot_info) (fuel : Nat)
    (h : info.loader_start + KERNEL_ARGS_ADDR + 1280 < 2 ^ t.phys_addr_bits)
    (hfuel : 298 ≤ fuel) :
    set_kernel_args_old t info fuel
      = some (word_stores (info.loader_start + KERNEL_ARGS_ADDR) (legacy_words t info)
          ++ [legacy_cmdline_op info (info.loader_start + KERNEL_ARGS_ADDR + 1280)]) := by
  have e0 : t.paddr (info.loader_start + KERNEL_ARGS_ADDR)
      = info.loader_start + KERNEL_ARGS_ADDR := t.paddr_eq _ (by omega)
  have eb : t.paddr (info.loader_start + KERNEL_ARGS_ADDR + 256 + 1024)
      = info.loader_start + KERNEL_ARGS_ADDR + 1280 := by
    rw [t.paddr_eq _ (by omega)]
  have hfix : ∀ f, set_kernel_args_old_writer t info f
      = (zero_unused_fields t (t.paddr (info.loader_start + KERNEL_ARGS_ADDR + 256 + 1024)) f
          (write_words t ⟨t.paddr (info.loader_start + KERNEL_ARGS_ADDR), []⟩
            (legacy_fixed_values t info))).map
        (fun w =>
          match info.kernel_cmdline with
          | some s => w.write w.p (s ++ [0])
          | none => WRITE_WORD t w 0) := by
    intro f
    unfold set_kernel_args_old_writer legacy_fixed_values write_words
    by_cases hi : info.initrd_size = 0
    · simp only [hi, ne_eq, not_true_eq_false, if_false]
      rfl
    · simp only [hi, ne_eq, not_false_eq_true, if_true]
      rfl
  have hlen : (legacy_fixed_values t info).length = 23 := by simp [legacy_fixed_values]
  unfold set_kernel_args_old
  rw [hfix, e0, eb, write_words_eq t _ _ (by dsimp only; rw [hlen]; omega),
    legacy_fixed_values_u32, hlen]
  rw [zero_unused_fields_eq t _ 297 fuel _ (by dsimp only) h (by omega)]
  simp only [Option.map_some', Option.some.injEq, List.nil_append]
  unfold legacy_words legacy_cmdline_op
  rw [word_stores_append, legacy_fixed_words_length]
  have h0 : u32 0 = 0 := by decide
  cases info.kernel_cmdline with
  | none => simp only [WRITE_WORD, h0]
  | some s => simp only [Writer.write]

theorem word_stores_layout (a : Nat) (ws : List Nat) :
    (word_stores a ws).Pairwise MemOp.Disjoint
      ∧ Within a (a + 4 * ws.length) (word_stores a ws) := by
  induction ws generalizing a with
  | nil => exact ⟨List.Pairwise.nil, fun op hop => by simp [word_stores_nil] at hop⟩
  | cons v vs ih =>
    obtain ⟨hp, hw⟩ := ih (a + 4)
    rw [word_stores_cons]
    constructor
    · refine List.Pairwise.cons ?_ hp
      intro op hop
      have := hw op hop
      show (MemOp.stl a v).lo + (MemOp.stl a v).len ≤ op.lo ∨ _
      left
      show a + 4 ≤ op.lo
      omega
    · intro op hop
      rcases List.mem_cons.1 hop with h | h
      · subst h
        show a ≤ a ∧ a + 4 ≤ a + 4 * (vs.length + 1)
        omega
      · have := hw op h
        simp only [List.length_cons]
        omega

theorem word_stores_mem (a : Nat) (ws : List Nat) (i : Nat) (hi : i < ws.length) :
    MemOp.stl (a + 4 * i) (ws.getD i 0) ∈ word_stores a ws := by
  unfold word_stores
  exact List.mem_map.2 ⟨i, List.mem_range.2 hi, rfl⟩

theorem word_stores_getElem? (a : Nat) (ws : List Nat) (i : Nat) (hi : i < ws.length) :
    (word_stores a ws)[i]? = some (MemOp.stl (a + 4 * i) (ws.getD i 0)) := by
  unfold word_stores
  rw [List.getElem?_map, List.getElem?_range hi]
  rfl

theorem legacy_words_length (t : Target) (info : arm_boot_info) :
    (legacy_words t info).length = 320 := by
  simp only [legacy_words, legacy_fixed_words, List.length_append, List.length_replicate,
    List.length_cons, List.length_nil]

theorem legacy_words_lt (t : Target) (info : arm_boot_info) (v : Nat)
    (hv : v ∈ legacy_words t info) : v < 2 ^ 32 := by
  have hu : ∀ x, u32 x < 2 ^ 32 := u32_lt
  simp only [legacy_words, legacy_fixed_words, List.mem_append, List.mem_cons,
    List.mem_singleton, List.not_mem_nil, or_false, List.mem_replicate] at hv
  rcases hv with ((((h | h | h | h | h) | h) | h | h) | h) | h
  · subst h; norm_num
  · subst h; exact hu _
  · subst h; norm_num
  · subst h; norm_num
  · subst h; norm_num
  · rw [h.2]; norm_num
  · subst h
    split
    · norm_num
    · exact hu _
  · subst h; exact hu _
  · rw [h.2]; norm_num
  · rw [h.2]; norm_num

/-- The accesses of `set_kernel_args_old` are pairwise disjoint. -/
theorem legacy_ops_pairwise (t : Target) (info : arm_boot_info) (a : Nat) :
    (word_stores a (legacy_words t info) ++ [legacy_cmdline_op info (a + 1280)]).Pairwise
      MemOp.Disjoint := by
  obtain ⟨hp, hw⟩ := word_stores_layout a (legacy_words t info)
  rw [legacy_words_length] at hw
  refine List.pairwise_append.2 ⟨hp, List.pairwise_singleton _ _, ?_⟩
  intro x hx y hy
  have hy' : y = legacy_cmdline_op info (a + 1280) := by simpa using hy
  have := hw x hx
  have hlo : y.lo = a + 1280 := by
    rw [hy']
    unfold legacy_cmdline_op
    cases info.kernel_cmdline <;> rfl
  left
  omega

/-- C11: `set_kernel_args_old` writes at `loader_start + 0x100` the words
`[0] = 4096`, `[1] = ram_size / 4096`, `[2] = 0`, `[3] = 13`, `[4] = 0x1f00`,
`[5..15] = 0`, `[16]` = 0 or `loader_start + 0xD00000`, `[17] = initrd_size`,
`[18..22] = 0` and zeros up to byte offset 1280, and guest memory holds them afterwards. -/
theorem set_kernel_args_old_words (t : Target) (info : arm_boot_info) (m : Mem) (fuel : Nat)
    (h : info.loader_start + KERNEL_ARGS_ADDR + 1280 < 2 ^ t.phys_addr_bits)
    (hfuel : 298 ≤ fuel) :
    ∃ ops, set_kernel_args_old t info fuel = some ops
      ∧ ops.take 320
          = word_stores (info.loader_start + 0x100)
              ([4096, u32 (info.ram_size / 4096), 0, 1 ||| 4 ||| 8, 0x1f00]
                ++ List.replicate 11 0
                ++ [if info.initrd_size = 0 then 0
                    else u32 (t.paddr (info.loader_start + 0xD00000)),
                    u32 info.initrd_size]
                ++ List.replicate 5 0
                ++ List.replicate 297 0)
      ∧ ∀ i, i < 320 →
          ldl_phys t (run_ops t m ops) (info.loader_start + 0x100 + 4 * i)
            = (legacy_words t info).getD i 0 := by
  refine ⟨_, set_kernel_args_old_eq t info fuel h hfuel, ?_, ?_⟩
  · rw [List.take_left' (by rw [word_stores_length, legacy_words_length])]
    rfl
  · intro i hi
    have hlen := legacy_words_length t info
    apply run_ops_ldl t m _ (legacy_ops_pairwise t info _)
    · exact List.mem_append_left _ (word_stores_mem _ _ i (by omega))
    · apply legacy_words_lt t info
      rw [List.getD_eq_getElem _ _ (by omega)]
      exact List.getElem_mem _

/-- Witness for `set_kernel_args_old_words`. -/
theorem set_kernel_args_old_words_witness :
    full_info.loader_start + KERNEL_ARGS_ADDR + 1280 < 2 ^ arm_le32.phys_addr_bits
      ∧ 298 ≤ 298
      ∧ ∃ ops, set_kernel_args_old arm_le32 full_info 298 = some ops
        ∧ ops.take 320
            = word_stores (full_info.loader_start + 0x100)
                ([4096, u32 (full_info.ram_size / 4096), 0, 1 ||| 4 ||| 8, 0x1f00]
                  ++ List.replicate 11 0
                  ++ [if full_info.initrd_size = 0 then 0
                      else u32 (arm_le32.paddr (full_info.loader_start + 0xD00000)),
                      u32 full_info.initrd_size]
                  ++ List.replicate 5 0
                  ++ List.replicate 297 0)
        ∧ ∀ i, i < 320 →
            ldl_phys arm_le32 (run_ops arm_le32 zero_bytes ops)
                (full_info.loader_start + 0x100 + 4 * i)
              = (legacy_words arm_le32 full_info).getD i 0 :=
  ⟨by decide, by decide,
    set_kernel_args_old_words arm_le32 full_info zero_bytes 298 (by decide) (by decide)⟩

/-- C12: `set_kernel_args_old` makes 320 word stores at the fixed offsets
`0, 4, .., 1276` from `loader_start + 0x100`, whatever `ram_size` and the command line
are, and then places the command line with its NUL at `loader_start + 0x100 + 1280`,
or a single zero word there when no command line is configured. -/
theorem set_kernel_args_old_cmdline (t : Target) (info : arm_boot_info) (m : Mem)
    (fuel : Nat) (h : info.loader_start + KERNEL_ARGS_ADDR + 1280 < 2 ^ t.phys_addr_bits)
    (hfuel : 298 ≤ fuel) :
    ∃ ops, set_kernel_args_old t info fuel = some ops
      ∧ ops.length = 321
      ∧ (∀ i, i < 320 → ∃ v, ops[i]? = some (MemOp.stl (info.loader_start + 0x100 + 4 * i) v))
      ∧ (∀ s, info.kernel_cmdline = some s →
          ops[320]? = some (MemOp.write (info.loader_start + 0x100 + 1280) (s ++ [0]))
          ∧ ∀ i, i ≤ strlen s →
              run_ops t m ops (info.loader_start + 0x100 + 1280 + i) = (s ++ [0]).getD i 0)
      ∧ (info.kernel_cmdline = none →
          ops[320]? = some (MemOp.stl (info.loader_start + 0x100 + 1280) 0)
          ∧ ldl_phys t (run_ops t m ops) (info.loader_start + 0x100 + 1280) = 0) := by
  have hlen := legacy_words_length t info
  have hwl := word_stores_length (info.loader_start + KERNEL_ARGS_ADDR) (legacy_words t info)
  have hpw := legacy_ops_pairwise t info (info.loader_start + KERNEL_ARGS_ADDR)
  have hlast : (word_stores (info.loader_start + KERNEL_ARGS_ADDR) (legacy_words t info)
      ++ [legacy_cmdline_op info (info.loader_start + KERNEL_ARGS_ADDR + 1280)])[320]?
      = some (legacy_cmdline_op info (info.loader_start + KERNEL_ARGS_ADDR + 1280)) := by
    rw [List.getElem?_append_right (by rw [hwl, hlen]), hwl, hlen]
    rfl
  refine ⟨_, set_kernel_args_old_eq t info fuel h hfuel, ?_, ?_, ?_, ?_⟩
  · rw [List.length_append, hwl, hlen]
    rfl
  · intro i hi
    refine ⟨(legacy_words t info).getD i 0, ?_⟩
    rw [List.getElem?_append_left (by rw [hwl, hlen]; exact hi)]
    exact word_stores_getElem? _ _ i (by omega)
  · intro s hs
    have hop : legacy_cmdline_op info (info.loader_start + KERNEL_ARGS_ADDR + 1280)
        = MemOp.write (info.loader_start + 0x100 + 1280) (s ++ [0]) := by
      unfold legacy_cmdline_op
      rw [hs]
      rfl
    refine ⟨by rw [hlast, hop], ?_⟩
    intro i hi
    apply run_ops_bytes t m _ hpw
    · rw [hop]
      exact List.mem_append_right _ (List.mem_singleton.2 rfl)
    · simp only [List.length_append, List.length_singleton]
      unfold strlen at hi
      omega
  · intro hn
    have hop : legacy_cmdline_op info (info.loader_start + KERNEL_ARGS_ADDR + 1280)
        = MemOp.stl (info.loader_start + 0x100 + 1280) 0 := by
      unfold legacy_cmdline_op
      rw [hn]
      rfl
    refine ⟨by rw [hlast, hop], ?_⟩
    apply run_ops_ldl t m _ hpw
    · rw [hop]
      exact List.mem_append_right _ (List.mem_singleton.2 rfl)
    · norm_num

/-- Witness for `set_kernel_args_old_cmdline`. -/
theorem set_kernel_args_old_cmdline_witness :
    full_info.loader_start + KERNEL_ARGS_ADDR + 1280 < 2 ^ arm_le32.phys_addr_bits
      ∧ 298 ≤ 298
      ∧ ∃ ops, set_kernel_args_old arm_le32 full_info 298 = some ops
        ∧ ops.length = 321
        ∧ (∀ i, i < 320 →
            ∃ v, ops[i]? = some (MemOp.stl (full_info.loader_start + 0x100 + 4 * i) v))
        ∧ (∀ s, full_info.kernel_cmdline = some s →
            ops[320]? = some (MemOp.write (full_info.loader_start + 0x100 + 1280) (s ++ [0]))
            ∧ ∀ i, i ≤ strlen s →
                run_ops arm_le32 zero_bytes ops (full_info.loader_start + 0x100 + 1280 + i)
                  = (s ++ [0]).getD i 0)
        ∧ (full_info.kernel_cmdline = none →
            ops[320]? = some (MemOp.stl (full_info.loader_start + 0x100 + 1280) 0)
            ∧ ldl_phys arm_le32 (run_ops arm_le32 zero_bytes ops)
                (full_info.loader_start + 0x100 + 1280) = 0) :=
  ⟨by decide, by decide,
    set_kernel_args_old_cmdline arm_le32 full_info zero_bytes 298 (by decide) (by decide)⟩


/-! ## Replaying a trace twice -/

/-- What a trace leaves at a covered address does not depend on the memory it starts
from. -/
theorem run_ops_covered (t : Target) (ops : List MemOp) (m1 m2 : Mem) (a : Nat)
    (h : m1 a = m2 a ∨ Covered ops a) : run_ops t m1 ops a = run_ops t m2 ops a := by
  induction ops using List.reverseRecOn with
  | nil =>
    rcases h with h | ⟨op, hop, -⟩
    · exact h
    · simp at hop
  | append_singleton l last ih =>
    rw [run_ops_snoc, run_ops_snoc, MemOp.apply_eq, MemOp.apply_eq]
    by_cases hin : last.lo ≤ a ∧ a < last.lo + last.len
    · rw [write_read_inside _ _ _ _ hin.1 (by rw [MemOp.data_length]; exact hin.2),
        write_read_inside _ _ _ _ hin.1 (by rw [MemOp.data_length]; exact hin.2)]
    · rw [write_read_outside _ _ _ _ (by rw [MemOp.data_length]; omega),
        write_read_outside _ _ _ _ (by rw [MemOp.data_length]; omega)]
      apply ih
      rcases h with h | ⟨op, hop, hr⟩
      · exact Or.inl h
      · rcases List.mem_append.1 hop with hm | hm
        · exact Or.inr ⟨op, hm, hr⟩
        · have : op = last := by simpa using hm
          subst this
          exact absurd hr hin

theorem and_fffffffe (x : Nat) : x &&& 0xfffffffe = 2 * (x % 2 ^ 32 / 2) := by
  apply Nat.eq_of_testBit_eq
  intro i
  have hm : (0xfffffffe : Nat) = (2 ^ 31 - 1) <<< 1 := by decide
  have hr : 2 * (x % 2 ^ 32 / 2) = ((x % 2 ^ 32) >>> 1) <<< 1 := by
    rw [Nat.shiftLeft_eq, Nat.shiftRight_eq_div_pow]
    omega
  rw [Nat.testBit_and, hm, hr, Nat.testBit_shiftLeft, Nat.testBit_shiftLeft,
    Nat.testBit_shiftRight, Nat.testBit_two_pow_sub_one, Nat.testBit_mod_two_pow]
  by_cases h1 : 1 ≤ i
  · have e : 1 + (i - 1) = i := by omega
    rw [e]
    by_cases h2 : i < 32
    · have : i - 1 < 31 := by omega
      simp [h1, h2, this]
    · have : ¬ i - 1 < 31 := by omega
      simp [h1, h2, this]
  · simp [h1]

theorem u32_and_fffffffe (x : Nat) : u32 (x &&& 0xfffffffe) = 2 * (u32 x / 2) := by
  rw [and_fffffffe]
  unfold u32
  apply Nat.mod_eq_of_lt
  omega

/-- C14: for a configuration that is not OS-style, `do_cpu_reset` sets the program counter
to `entry` with bit 0 cleared, sets `thumb` to bit 0 of `entry`, leaves the other
registers as the core reset left them and writes nothing to guest memory. -/
theorem do_cpu_reset_not_linux (t : Target) (cpu_reset : CPUState → CPUState)
    (old_param : Bool) (fuel : Nat) (atag_board_buf : Nat → Nat) (is_first_cpu : Bool)
    (info : arm_boot_info) (env : CPUState) (h : info.is_linux = false) :
    ∃ env',
      do_cpu_reset t cpu_reset old_param fuel atag_board_buf is_first_cpu (some info) env
        = some (env', [])
      ∧ env'.regs 15 = 2 * (u32 info.entry / 2)
      ∧ env'.thumb = info.entry % 2
      ∧ ∀ i, i ≠ 15 → env'.regs i = (cpu_reset env).regs i := by
  refine ⟨{ (cpu_reset env).set_reg 15 (u32 (info.entry &&& 0xfffffffe)) with
      thumb := info.entry &&& 1 }, ?_, ?_, ?_, ?_⟩
  · simp only [do_cpu_reset, h, Bool.not_false, if_true]
  · simp only [CPUState.set_reg, if_true]
    exact u32_and_fffffffe info.entry
  · exact Nat.and_one_is_mod info.entry
  · intro i hi
    simp only [CPUState.set_reg, hi, if_false]

/-- Witness for `do_cpu_reset_not_linux`. -/
theorem do_cpu_reset_not_linux_witness :
    ({ entry := 0x8001 } : arm_boot_info).is_linux = false
      ∧ ∃ env',
        do_cpu_reset arm_le32 zero_cpu_reset false 298 zero_bytes true
            (some { entry := 0x8001 }) example_env = some (env', [])
        ∧ env'.regs 15 = 2 * (u32 ({ entry := 0x8001 } : arm_boot_info).entry / 2)
        ∧ env'.thumb = ({ entry := 0x8001 } : arm_boot_info).entry % 2
        ∧ ∀ i, i ≠ 15 → env'.regs i = (zero_cpu_reset example_env).regs i :=
  ⟨rfl, do_cpu_reset_not_linux arm_le32 zero_cpu_reset false 298 zero_bytes true
    { entry := 0x8001 } example_env rfl⟩

/-- C15: for an OS-style configuration, `do_cpu_reset` on the primary CPU sets the program
counter to `loader_start` and writes the boot-parameter block, with
`set_kernel_args_old` exactly when `old_param` is set and with `set_kernel_args`
otherwise; on any other CPU it does nothing but call `secondary_cpu_reset_hook` on the
reset CPU. -/
theorem do_cpu_reset_linux (t : Target) (cpu_reset : CPUState → CPUState) (old_param : Bool)
    (fuel : Nat) (atag_board_buf : Nat → Nat) (info : arm_boot_info) (env : CPUState)
    (h : info.is_linux = true) :
    (do_cpu_reset t cpu_reset false fuel atag_board_buf true (some info) env
        = some ((cpu_reset env).set_reg 15 (u32 info.loader_start),
            set_kernel_args t info atag_board_buf))
      ∧ (do_cpu_reset t cpu_reset true fuel atag_board_buf true (some info) env
          = (set_kernel_args_old t info fuel).map
              (fun ops => ((cpu_reset env).set_reg 15 (u32 info.loader_start), ops)))
      ∧ (info.loader_start + KERNEL_ARGS_ADDR + 1280 < 2 ^ t.phys_addr_bits → 298 ≤ fuel →
          ∃ ops, set_kernel_args_old t info fuel = some ops
            ∧ do_cpu_reset t cpu_reset true fuel atag_board_buf true (some info) env
              = some ((cpu_reset env).set_reg 15 (u32 info.loader_start), ops))
      ∧ ((cpu_reset env).set_reg 15 (u32 info.loader_start)).regs 15 = u32 info.loader_start
      ∧ (∀ hook, info.secondary_cpu_reset_hook = some hook →
          do_cpu_reset t cpu_reset old_param fuel atag_board_buf false (some info) env
            = some (hook (cpu_reset env))) := by
  refine ⟨?_, ?_, ?_, ?_, ?_⟩
  · simp only [do_cpu_reset, h, Bool.not_true, Bool.false_eq_true, if_false, if_true]
  · simp only [do_cpu_reset, h, Bool.not_true, Bool.false_eq_true, if_false, if_true]
  · intro hw hf
    have heq := set_kernel_args_old_eq t info fuel hw hf
    refine ⟨_, heq, ?_⟩
    simp only [do_cpu_reset, h, Bool.not_true, Bool.false_eq_true, if_false, if_true, heq,
      Option.map_some']
  · simp only [CPUState.set_reg, if_true]
  · intro hook hh
    simp only [do_cpu_reset, h, Bool.not_true, Bool.false_eq_true, if_false, hh]

/-- Witness for `do_cpu_reset_linux`. -/
theorem do_cpu_reset_linux_witness :
    smp_info.is_linux = true
      ∧ do_cpu_reset arm_le32 zero_cpu_reset false 298 zero_bytes true (some smp_info)
          example_env
        = some ((zero_cpu_reset example_env).set_reg 15 (u32 smp_info.loader_start),
            set_kernel_args arm_le32 smp_info zero_bytes)
      ∧ smp_info.loader_start + KERNEL_ARGS_ADDR + 1280 < 2 ^ arm_le32.phys_addr_bits
      ∧ (∃ ops, set_kernel_args_old arm_le32 smp_info 298 = some ops
          ∧ do_cpu_reset arm_le32 zero_cpu_reset true 298 zero_bytes true (some smp_info)
              example_env
            = some ((zero_cpu_reset example_env).set_reg 15 (u32 smp_info.loader_start), ops))
      ∧ smp_info.secondary_cpu_reset_hook = some (default_reset_secondary smp_info)
      ∧ do_cpu_reset arm_le32 zero_cpu_reset false 298 zero_bytes false (some smp_info)
          example_env
        = some (default_reset_secondary smp_info (zero_cpu_reset example_env)) :=
  ⟨rfl,
    (do_cpu_reset_linux arm_le32 zero_cpu_reset false 298 zero_bytes smp_info example_env
      rfl).1,
    by decide,
    (do_cpu_reset_linux arm_le32 zero_cpu_reset false 298 zero_bytes smp_info example_env
      rfl).2.2.1 (by decide) (by decide),
    rfl,
    (do_cpu_reset_linux arm_le32 zero_cpu_reset false 298 zero_bytes smp_info example_env
      rfl).2.2.2.2 _ rfl⟩

/-- C16: with no `boot_info` attached to the CPU, `do_cpu_reset` performs only the core
reset: the CPU state is the one `cpu_reset` produces and guest memory is unchanged. -/
theorem do_cpu_reset_no_boot_info (t : Target) (cpu_reset : CPUState → CPUState)
    (old_param : Bool) (fuel : Nat) (atag_board_buf : Nat → Nat) (is_first_cpu : Bool)
    (env : CPUState) (m : Mem) :
    ∃ ops,
      do_cpu_reset t cpu_reset old_param fuel atag_board_buf is_first_cpu none env
        = some (cpu_reset env, ops)
      ∧ ops = []
      ∧ run_ops t m ops = m :=
  ⟨[], rfl, rfl, rfl⟩

/-- C17: `default_reset_secondary` stores the 32-bit value 0 at `smp_bootreg_addr` and
sets the program counter to `smp_loader_start`; it changes no other guest memory, no
other register and not the `thumb` flag. -/
theorem default_reset_secondary_effect (t : Target) (info : arm_boot_info) (env : CPUState)
    (m : Mem) :
    (default_reset_secondary info env).2 = [MemOp.stl info.smp_bootreg_addr 0]
      ∧ ldl_phys t (run_ops t m (default_reset_secondary info env).2) info.smp_bootreg_addr = 0
      ∧ (∀ a, a < info.smp_bootreg_addr ∨ info.smp_bootreg_addr + 4 ≤ a →
          run_ops t m (default_reset_secondary info env).2 a = m a)
      ∧ (default_reset_secondary info env).1.regs 15 = u32 info.smp_loader_start
      ∧ (∀ i, i ≠ 15 → (default_reset_secondary info env).1.regs i = env.regs i)
      ∧ (default_reset_secondary info env).1.thumb = env.thumb := by
  have hops : (default_reset_secondary info env).2 = [MemOp.stl info.smp_bootreg_addr 0] := rfl
  refine ⟨hops, ?_, ?_, ?_, ?_, rfl⟩
  · rw [hops]
    exact run_ops_ldl t m _ (List.pairwise_singleton _ _) _ 0 (List.mem_singleton.2 rfl)
      (by norm_num)
  · intro a ha
    rw [hops]
    apply run_ops_frame
    intro op hop
    have : op = MemOp.stl info.smp_bootreg_addr 0 := by simpa using hop
    subst this
    exact ha
  · simp only [default_reset_secondary, CPUState.set_reg, if_true]
  · intro i hi
    simp only [default_reset_secondary, CPUState.set_reg, hi, if_false]



/-- C18, the claim refuted: with the boot register placed on the first word of the
boot-parameter block, resetting CPUs 0, 1, 2, 3 in this order leaves a block whose first
size word is 0, so that a walk finds no record; the primary's store of the CORE size
word and the secondaries' store to the boot register hit the same address. -/
theorem reset_four_cpus_counterexample :
    (reset_cpus arm_le32 zero_cpu_reset false 298 zero_bytes overlap_info example_machine
        [0, 1, 2, 3]).map
      (fun s => (atag_walk arm_le32 s.mem (overlap_info.loader_start + KERNEL_ARGS_ADDR) 7,
        ldl_phys arm_le32 s.mem (overlap_info.loader_start + KERNEL_ARGS_ADDR)))
      = some (some ([], 0x8100), 0)
    ∧ MemOp.stl 0x8100 5 ∈ set_kernel_args arm_le32 overlap_info zero_bytes
    ∧ (default_reset_secondary overlap_info example_env).2 = [MemOp.stl 0x8100 0] := by
  decide

/-! ## Resetting four CPUs in any order -/

theorem do_cpu_reset_primary (t : Target) (cpu_reset : CPUState → CPUState) (old_param : Bool)
    (fuel : Nat) (buf : Nat → Nat) (info : arm_boot_info) (hlinux : info.is_linux = true)
    (hold : old_param = true →
      info.loader_start + KERNEL_ARGS_ADDR + 1280 < 2 ^ t.phys_addr_bits ∧ 298 ≤ fuel) :
    ∃ ops0, ∀ e, do_cpu_reset t cpu_reset old_param fuel buf true (some info) e
      = some ((cpu_reset e).set_reg 15 (u32 info.loader_start), ops0) := by
  cases hop : old_param with
  | false =>
    refine ⟨set_kernel_args t info buf, fun e => ?_⟩
    simp only [do_cpu_reset, hlinux, Bool.not_true, Bool.false_eq_true, if_false, if_true]
  | true =>
    obtain ⟨hw, hf⟩ := hold hop
    have heq := set_kernel_args_old_eq t info fuel hw hf
    refine ⟨word_stores (info.loader_start + KERNEL_ARGS_ADDR) (legacy_words t info)
      ++ [legacy_cmdline_op info (info.loader_start + KERNEL_ARGS_ADDR + 1280)], fun e => ?_⟩
    simp only [do_cpu_reset, hlinux, Bool.not_true, Bool.false_eq_true, if_false, if_true, heq,
      Option.map_some']

theorem reset_cpus_snoc (t : Target) (cpu_reset : CPUState → CPUState) (old_param : Bool)
    (fuel : Nat) (buf : Nat → Nat) (info : arm_boot_info) (s : Machine) (l : List Nat)
    (i : Nat) :
    reset_cpus t cpu_reset old_param fuel buf info s (l ++ [i])
      = (reset_cpus t cpu_reset old_param fuel buf info s l).bind
          (fun s' => reset_cpu t cpu_reset old_param fuel buf info s' i) := by
  induction l generalizing s with
  | nil =>
    simp only [List.nil_append, reset_cpus, Option.some_bind]
    cases reset_cpu t cpu_reset old_param fuel buf info s i <;> rfl
  | cons j l ih =>
    simp only [List.cons_append, reset_cpus]
    cases reset_cpu t cpu_reset old_param fuel buf info s j with
    | none => rfl
    | some s1 => exact ih s1

theorem ldl_phys_congr (t : Target) (m1 m2 : Mem) (b : Nat)
    (h : ∀ a, b ≤ a → a < b + 4 → m1 a = m2 a) : ldl_phys t m1 b = ldl_phys t m2 b := by
  unfold ldl_phys
  rw [h b (by omega) (by omega), h (b + 1) (by omega) (by omega),
    h (b + 2) (by omega) (by omega), h (b + 3) (by omega) (by omega)]

/-- After any sequence of resets, a primary that was reset has its program counter at
`loader_start` and its block in memory, and a secondary that was reset is parked at
`smp_loader_start` with the boot register at 0, provided the boot register lies outside
every access of the primary. -/
theorem reset_cpus_invariant (t : Target) (cpu_reset : CPUState → CPUState) (old_param : Bool)
    (fuel : Nat) (buf : Nat → Nat) (info : arm_boot_info) (ops0 : List MemOp)
    (hlinux : info.is_linux = true)
    (hhook : info.secondary_cpu_reset_hook = some (default_reset_secondary info))
    (hprim : ∀ e, do_cpu_reset t cpu_reset old_param fuel buf true (some info) e
      = some ((cpu_reset e).set_reg 15 (u32 info.loader_start), ops0))
    (hdisj : ∀ op ∈ ops0,
      op.lo + op.len ≤ info.smp_bootreg_addr ∨ info.smp_bootreg_addr + 4 ≤ op.lo)
    (s : Machine) (order : List Nat) :
    ∃ s', reset_cpus t cpu_reset old_param fuel buf info s order = some s'
      ∧ (0 ∈ order → (s'.cpus 0).regs 15 = u32 info.loader_start
          ∧ ∀ a, Covered ops0 a → s'.mem a = run_ops t s.mem ops0 a)
      ∧ (∀ i ∈ order, i ≠ 0 → (s'.cpus i).regs 15 = u32 info.smp_loader_start
          ∧ ldl_phys t s'.mem info.smp_bootreg_addr = 0) := by
  induction order using List.reverseRecOn with
  | nil => exact ⟨s, rfl, fun h => by simp at h, fun i h => by simp at h⟩
  | append_singleton l j ih =>
    obtain ⟨s1, hs1, hp1, hq1⟩ := ih
    rw [reset_cpus_snoc, hs1, Option.some_bind]
    by_cases hj : j = 0
    · subst hj
      refine ⟨⟨fun k => if k = 0 then (cpu_reset (s1.cpus 0)).set_reg 15 (u32 info.loader_start)
          else s1.cpus k, run_ops t s1.mem ops0⟩, ?_, ?_, ?_⟩
      · simp only [reset_cpu, beq_self_eq_true, hprim, Option.map_some']
      · intro _
        refine ⟨by simp only [if_true, CPUState.set_reg], ?_⟩
        intro a ha
        exact run_ops_covered t ops0 _ _ a (Or.inr ha)
      · intro i hi hne
        have hil : i ∈ l := by
          rcases List.mem_append.1 hi with h | h
          · exact h
          · exact absurd (List.mem_singleton.1 h) hne
        obtain ⟨hr, hl⟩ := hq1 i hil hne
        refine ⟨by simp only [hne, if_false]; exact hr, ?_⟩
        rw [← hl]
        apply ldl_phys_congr
        intro a h1 h2
        apply run_ops_frame
        intro op hop
        have := hdisj op hop
        omega
    · refine ⟨⟨fun k => if k = j then (default_reset_secondary info (cpu_reset (s1.cpus j))).1
          else s1.cpus k,
          run_ops t s1.mem (default_reset_secondary info (cpu_reset (s1.cpus j))).2⟩, ?_, ?_, ?_⟩
      · have hb : (j == 0) = false := by simpa using hj
        simp only [reset_cpu, hb, do_cpu_reset, hlinux, Bool.not_true, Bool.false_eq_true,
          if_false, hhook, Option.map_some']
      · intro h0
        have h0l : 0 ∈ l := by
          rcases List.mem_append.1 h0 with h | h
          · exact h
          · exact absurd (List.mem_singleton.1 h).symm hj
        obtain ⟨hr, hm⟩ := hp1 h0l
        have hne : ¬ (0 = j) := fun h => hj h.symm
        refine ⟨by simp only [hne, if_false]; exact hr, ?_⟩
        intro a ha
        rw [← hm a ha]
        obtain ⟨op, hop, hlo, hhi⟩ := ha
        have := hdisj op hop
        apply (default_reset_secondary_effect t info (cpu_reset (s1.cpus j)) s1.mem).2.2.1
        omega
      · intro i hi hne
        refine ⟨?_,
          (default_reset_secondary_effect t info (cpu_reset (s1.cpus j)) s1.mem).2.1⟩
        by_cases hij : i = j
        · subst hij
          simp only [if_true]
          exact (default_reset_secondary_effect t info (cpu_reset (s1.cpus i)) s1.mem).2.2.2.1
        · rcases List.mem_append.1 hi with h | h
          · simp only [hij, if_false]
            exact (hq1 i h hne).1
          · exact absurd (List.mem_singleton.1 h) hij

/-- C18 as amended: with four CPUs, the default secondary reset hook and an OS-style boot,
if the boot register lies outside every access of the primary's reset, then for every
order in which the four CPUs are reset CPU 0 ends with `pc = loader_start` and the
boot-parameter block in guest memory, CPUs 1 to 3 end with `pc = smp_loader_start`, and
the boot register holds 0. -/
theorem reset_four_cpus (t : Target) (cpu_reset : CPUState → CPUState) (old_param : Bool)
    (fuel : Nat) (buf : Nat → Nat) (info : arm_boot_info) (s : Machine)
    (hlinux : info.is_linux = true)
    (hhook : info.secondary_cpu_reset_hook = some (default_reset_secondary info))
    (hold : old_param = true →
      info.loader_start + KERNEL_ARGS_ADDR + 1280 < 2 ^ t.phys_addr_bits ∧ 298 ≤ fuel) :
    ∃ ops0,
      (∀ e, do_cpu_reset t cpu_reset old_param fuel buf true (some info) e
        = some ((cpu_reset e).set_reg 15 (u32 info.loader_start), ops0))
      ∧ ((∀ op ∈ ops0,
            op.lo + op.len ≤ info.smp_bootreg_addr ∨ info.smp_bootreg_addr + 4 ≤ op.lo) →
          ∀ order, List.Perm order [0, 1, 2, 3] →
            ∃ s', reset_cpus t cpu_reset old_param fuel buf info s order = some s'
              ∧ (s'.cpus 0).regs 15 = u32 info.loader_start
              ∧ (∀ a, Covered ops0 a → s'.mem a = run_ops t s.mem ops0 a)
              ∧ (s'.cpus 1).regs 15 = u32 info.smp_loader_start
              ∧ (s'.cpus 2).regs 15 = u32 info.smp_loader_start
              ∧ (s'.cpus 3).regs 15 = u32 info.smp_loader_start
              ∧ ldl_phys t s'.mem info.smp_bootreg_addr = 0) := by
  obtain ⟨ops0, hprim⟩ := do_cpu_reset_primary t cpu_reset old_param fuel buf info hlinux hold
  refine ⟨ops0, hprim, ?_⟩
  intro hdisj order hperm
  obtain ⟨s', hs', hp, hq⟩ :=
    reset_cpus_invariant t cpu_reset old_param fuel buf info ops0 hlinux hhook hprim hdisj s
      order
  have hmem : ∀ i, i ∈ [0, 1, 2, 3] → i ∈ order := fun i hi => hperm.symm.subset hi
  obtain ⟨h0, hcov⟩ := hp (hmem 0 (by simp))
  have h1 := hq 1 (hmem 1 (by simp)) (by norm_num)
  have h2 := hq 2 (hmem 2 (by simp)) (by norm_num)
  have h3 := hq 3 (hmem 3 (by simp)) (by norm_num)
  exact ⟨s', hs', h0, hcov, h1.1, h2.1, h3.1, h1.2⟩

/-- Witness for `reset_four_cpus`. -/
theorem reset_four_cpus_witness :
    apart_info.is_linux = true
      ∧ apart_info.secondary_cpu_reset_hook = some (default_reset_secondary apart_info)
      ∧ (∀ op ∈ set_kernel_args arm_le32 apart_info zero_bytes,
          op.lo + op.len ≤ apart_info.smp_bootreg_addr
            ∨ apart_info.smp_bootreg_addr + 4 ≤ op.lo)
      ∧ List.Perm [2, 0, 3, 1] [0, 1, 2, 3]
      ∧ ∃ s', reset_cpus arm_le32 zero_cpu_reset false 298 zero_bytes apart_info
            example_machine [2, 0, 3, 1] = some s'
          ∧ (s'.cpus 0).regs 15 = u32 apart_info.loader_start
          ∧ (∀ a, Covered (set_kernel_args arm_le32 apart_info zero_bytes) a →
              s'.mem a
                = run_ops arm_le32 example_machine.mem
                    (set_kernel_args arm_le32 apart_info zero_bytes) a)
          ∧ (s'.cpus 1).regs 15 = u32 apart_info.smp_loader_start
          ∧ (s'.cpus 2).regs 15 = u32 apart_info.smp_loader_start
          ∧ (s'.cpus 3).regs 15 = u32 apart_info.smp_loader_start
          ∧ ldl_phys arm_le32 s'.mem apart_info.smp_bootreg_addr = 0 := by
  have hd : ∀ op ∈ set_kernel_args arm_le32 apart_info zero_bytes,
      op.lo + op.len ≤ apart_info.smp_bootreg_addr
        ∨ apart_info.smp_bootreg_addr + 4 ≤ op.lo := by decide
  have hp : List.Perm [2, 0, 3, 1] [0, 1, 2, 3] := by decide
  obtain ⟨ops0, h0, h⟩ :=
    reset_four_cpus arm_le32 zero_cpu_reset false 298 zero_bytes apart_info example_machine
      rfl rfl (fun h => absurd h (by decide))
  have e : ops0 = set_kernel_args arm_le32 apart_info zero_bytes := by
    have h1 := h0 example_env
    have h2 : do_cpu_reset arm_le32 zero_cpu_reset false 298 zero_bytes true (some apart_info)
        example_env
        = some ((zero_cpu_reset example_env).set_reg 15 (u32 apart_info.loader_start),
            set_kernel_args arm_le32 apart_info zero_bytes) := rfl
    rw [h2] at h1
    simp only [Option.some.injEq, Prod.mk.injEq, true_and] at h1
    exact h1.symm
  subst e
  exact ⟨rfl, rfl, hd, hp, h hd _ hp⟩


/-! ## Executing the spin loop -/

theorem Core.step_ldr_pc_imm (t : Target) (c : Core) (rd imm : Nat) (hrd : rd < 15)
    (himm : imm < 4096)
    (h : ldl_phys t c.mem (c.regs 15) = 0xe59f0000 + rd * 2 ^ 12 + imm) :
    Core.step t c
      = some ((c.set_reg rd (ldl_phys t c.mem (u32 (u32 (c.regs 15 + 8) + imm)))).set_reg 15
          (u32 (c.regs 15 + 4))) := by
  have h1 : (0xe59f0000 + rd * 2 ^ 12 + imm) / 2 ^ 28 = 0xe := by omega
  have h2 : (0xe59f0000 + rd * 2 ^ 12 + imm) / 2 ^ 20 % 256 = 0x59 := by omega
  have h3 : (0xe59f0000 + rd * 2 ^ 12 + imm) / 2 ^ 16 % 16 = 15 := by omega
  have h4 : (0xe59f0000 + rd * 2 ^ 12 + imm) / 2 ^ 12 % 16 = rd := by omega
  have h5 : (0xe59f0000 + rd * 2 ^ 12 + imm) / 2 ^ 23 % 2 = 1 := by omega
  have h6 : (0xe59f0000 + rd * 2 ^ 12 + imm) % 2 ^ 12 = imm := by omega
  have h7 : rd ≠ 15 := by omega
  simp only [Core.step, h, h1, h2, h3, h4, h5, h6]
  simp [h7]

theorem Core.step_mov_r1 (t : Target) (c : Core)
    (h : ldl_phys t c.mem (c.regs 15) = 0xe3a01001) :
    Core.step t c = some ((c.set_reg 1 1).set_reg 15 (u32 (c.regs 15 + 4))) := by
  have hr : ror32 1 0 = 1 := by decide
  simp [Core.step, h, hr]

theorem Core.step_str_r1_r2 (t : Target) (c : Core)
    (h : ldl_phys t c.mem (c.regs 15) = 0xe5821000) :
    Core.step t c
      = some ({ c with mem := stl_phys_notdirty t c.mem (u32 (c.regs 2)) (c.regs 1) }.set_reg 15
          (u32 (c.regs 15 + 4))) := by
  simp [Core.step, h]

theorem Core.step_wfi (t : Target) (c : Core)
    (h : ldl_phys t c.mem (c.regs 15) = 0xe320f003) :
    Core.step t c = some (c.set_reg 15 (u32 (c.regs 15 + 4))) := by
  simp [Core.step, h]

theorem Core.step_ldr_r1_r0 (t : Target) (c : Core)
    (h : ldl_phys t c.mem (c.regs 15) = 0xe5901000) :
    Core.step t c
      = some ((c.set_reg 1 (ldl_phys t c.mem (u32 (c.regs 0)))).set_reg 15
          (u32 (c.regs 15 + 4))) := by
  simp [Core.step, h]

theorem Core.step_tst_r1 (t : Target) (c : Core)
    (h : ldl_phys t c.mem (c.regs 15) = 0xe1110001) :
    Core.step t c
      = some ({ c with zf := decide (c.regs 1 = 0) }.set_reg 15 (u32 (c.regs 15 + 4))) := by
  simp [Core.step, h]

theorem Core.step_beq_not_taken (t : Target) (c : Core)
    (h : ldl_phys t c.mem (c.regs 15) = 0x0afffffb) (hz : c.zf = false) :
    Core.step t c = some (c.set_reg 15 (u32 (c.regs 15 + 4))) := by
  simp [Core.step, h, hz]

theorem Core.step_beq_taken (t : Target) (c : Core)
    (h : ldl_phys t c.mem (c.regs 15) = 0x0afffffb) (hz : c.zf = true) :
    Core.step t c = some (c.set_reg 15 (u32 (c.regs 15 + 8 + 4 * 0xfffffb + (2 ^ 32 - 2 ^ 26)))) := by
  simp [Core.step, h, hz]

theorem Core.step_bx_r1 (t : Target) (c : Core)
    (h : ldl_phys t c.mem (c.regs 15) = 0xe12fff11) :
    Core.step t c = some ({ c with thumb := c.regs 1 % 2 }.set_reg 15 (2 * (c.regs 1 / 2))) := by
  simp [Core.step, h]

theorem patch_smpboot_words (t : Target) (info : arm_boot_info) :
    patch_smpboot t smpboot info = (smpboot_words info).map (tswap32 t) := by
  simp [patch_smpboot, smpboot, smpboot_words]

/-- The words of the spin-loop blob as the guest reads them. -/
theorem smpboot_blob_words (t : Target) (info : arm_boot_info) (m : Mem) (i : Nat)
    (hi : i < 11) :
    ldl_phys t (MemOp.apply t m (default_write_secondary t info))
        (info.smp_loader_start + 4 * i)
      = (smpboot_words info).getD i 0 := by
  unfold default_write_secondary MemOp.apply
  rw [patch_smpboot_words]
  apply ldl_host_bytes
  · simpa [smpboot_words] using hi
  · intro w hw
    simp only [smpboot_words, List.mem_cons, List.mem_singleton, List.not_mem_nil,
      or_false] at hw
    rcases hw with h | h | h | h | h | h | h | h | h | h | h <;> subst h <;>
      first | exact u32_lt _ | norm_num

theorem stl_read_outside (t : Target) (m : Mem) (a v x : Nat) (h : x < a ∨ a + 4 ≤ x) :
    stl_phys_notdirty t m a v x = m x := by
  unfold stl_phys_notdirty
  exact write_read_outside _ _ _ _ (by rw [word_bytes_length]; exact h)

theorem ldl_stl_same (t : Target) (m : Mem) (a v : Nat) (hv : v < 2 ^ 32) :
    ldl_phys t (stl_phys_notdirty t m a v) a = v :=
  run_ops_ldl t m [MemOp.stl a v] (List.pairwise_singleton _ _) a v (by simp) hv

theorem ldl_stl_outside (t : Target) (m : Mem) (a v b : Nat) (h : b + 4 ≤ a ∨ a + 4 ≤ b) :
    ldl_phys t (stl_phys_notdirty t m a v) b = ldl_phys t m b := by
  apply ldl_phys_congr
  intro x h1 h2
  exact stl_read_outside t m a v x (by omega)

theorem Core.run_add (t : Target) (a b : Nat) (c : Core) :
    Core.run t (a + b) c = (Core.run t a c).bind (Core.run t b) := by
  induction a generalizing c with
  | zero => simp [Core.run]
  | succ a ih =>
    have e : a + 1 + b = (a + b) + 1 := by omega
    rw [e]
    simp only [Core.run]
    cases Core.step t c with
    | none => rfl
    | some c1 => exact ih c1

/-- The first four instructions of the spin loop: the core loads the two literals,
stores 1 to the interrupt controller and arrives at the `wfi`. -/
theorem spin_loop_enter (t : Target) (info : arm_boot_info) (regs : Nat → Nat) (zf : Bool)
    (m : Mem)
    (hw : ∀ i, i < 11 →
      ldl_phys t m (info.smp_loader_start + 4 * i) = (smpboot_words info).getD i 0)
    (hfit : info.smp_loader_start + 44 ≤ 2 ^ 32)
    (hg : info.gic_cpu_if_addr < 2 ^ 32) (hb : info.smp_bootreg_addr < 2 ^ 32) :
    ∃ c, Core.run t 4 (spin_start info regs zf m) = some c
      ∧ c.regs 15 = info.smp_loader_start + 16
      ∧ c.regs 0 = info.smp_bootreg_addr
      ∧ c.regs 2 = info.gic_cpu_if_addr
      ∧ c.mem = stl_phys_notdirty t m info.gic_cpu_if_addr 1 := by
  have ug : u32 info.gic_cpu_if_addr = info.gic_cpu_if_addr := Nat.mod_eq_of_lt hg
  have ub : u32 info.smp_bootreg_addr = info.smp_bootreg_addr := Nat.mod_eq_of_lt hb
  have uu : ∀ k, k < 44 → u32 (info.smp_loader_start + k) = info.smp_loader_start + k := by
    intro k hk
    exact Nat.mod_eq_of_lt (by omega)
  have w0 := hw 0 (by norm_num)
  have w1 := hw 1 (by norm_num)
  have w2 := hw 2 (by norm_num)
  have w3 := hw 3 (by norm_num)
  have w9 := hw 9 (by norm_num)
  have w10 := hw 10 (by norm_num)
  simp only [smpboot_words, List.getD_cons_zero, List.getD_cons_succ, Nat.mul_zero,
    Nat.add_zero, Nat.reduceMul, ug, ub] at w0 w1 w2 w3 w9 w10
  generalize hc0 : spin_start info regs zf m = c0
  have hm0 : c0.mem = m := by rw [← hc0]; rfl
  have hp0 : c0.regs 15 = info.smp_loader_start := by rw [← hc0]; simp [spin_start]
  -- ldr r2, gic_cpu_if
  have s1 := Core.step_ldr_pc_imm t c0 2 0x1c (by norm_num) (by norm_num)
    (by rw [hm0, hp0]; exact w0)
  rw [hp0, hm0, uu 8 (by norm_num)] at s1
  simp only [Nat.add_assoc, Nat.reduceAdd] at s1
  rw [uu 36 (by norm_num), uu 4 (by norm_num), w9] at s1
  generalize hc1 : (c0.set_reg 2 info.gic_cpu_if_addr).set_reg 15 (info.smp_loader_start + 4)
    = c1 at s1
  have hm1 : c1.mem = m := by rw [← hc1]; exact hm0
  have hp1 : c1.regs 15 = info.smp_loader_start + 4 := by rw [← hc1]; simp [Core.set_reg]
  have hr1 : c1.regs 2 = info.gic_cpu_if_addr := by rw [← hc1]; simp [Core.set_reg]
  -- ldr r0, startaddr
  have s2 := Core.step_ldr_pc_imm t c1 0 0x1c (by norm_num) (by norm_num)
    (by rw [hm1, hp1]; exact w1)
  rw [hp1, hm1] at s2
  simp only [Nat.add_assoc, Nat.reduceAdd] at s2
  rw [uu 12 (by norm_num)] at s2
  simp only [Nat.add_assoc, Nat.reduceAdd] at s2
  rw [uu 40 (by norm_num), uu 8 (by norm_num), w10] at s2
  generalize hc2 : (c1.set_reg 0 info.smp_bootreg_addr).set_reg 15 (info.smp_loader_start + 8)
    = c2 at s2
  have hm2 : c2.mem = m := by rw [← hc2]; exact hm1
  have hp2 : c2.regs 15 = info.smp_loader_start + 8 := by rw [← hc2]; simp [Core.set_reg]
  have hr2 : c2.regs 2 = info.gic_cpu_if_addr ∧ c2.regs 0 = info.smp_bootreg_addr := by
    rw [← hc2]; simp [Core.set_reg, hr1]
  -- mov r1, #1
  have s3 := Core.step_mov_r1 t c2 (by rw [hm2, hp2]; exact w2)
  rw [hp2] at s3
  simp only [Nat.add_assoc, Nat.reduceAdd] at s3
  rw [uu 12 (by norm_num)] at s3
  generalize hc3 : (c2.set_reg 1 1).set_reg 15 (info.smp_loader_start + 12) = c3 at s3
  have hm3 : c3.mem = m := by rw [← hc3]; exact hm2
  have hp3 : c3.regs 15 = info.smp_loader_start + 12 := by rw [← hc3]; simp [Core.set_reg]
  have hr3 : c3.regs 2 = info.gic_cpu_if_addr ∧ c3.regs 0 = info.smp_bootreg_addr
      ∧ c3.regs 1 = 1 := by
    rw [← hc3]; simp [Core.set_reg, hr2]
  -- str r1, [r2]
  have s4 := Core.step_str_r1_r2 t c3 (by rw [hm3, hp3]; exact w3)
  rw [hp3, hm3, hr3.1, hr3.2.2, ug] at s4
  simp only [Nat.add_assoc, Nat.reduceAdd] at s4
  rw [uu 16 (by norm_num)] at s4
  refine ⟨({ c3 with mem := stl_phys_notdirty t m info.gic_cpu_if_addr 1 } : Core).set_reg 15
    (info.smp_loader_start + 16), ?_, ?_, ?_, ?_, ?_⟩
  · simp [Core.run, s1, s2, s3, s4]
  · simp [Core.set_reg]
  · simp [Core.set_reg, hr3]
  · simp [Core.set_reg, hr3]
  · rfl

/-- One turn of the wait loop, from the `wfi`: with the boot register at 0 the core is
back at the `wfi` after four instructions; with the boot register at `X ≠ 0` it has
jumped to `X` after five, bit 0 of `X` selecting the instruction set. -/
theorem spin_loop_iter (t : Target) (info : arm_boot_info) (c : Core) (X : Nat)
    (hw : ∀ i, 4 ≤ i → i < 9 →
      ldl_phys t c.mem (info.smp_loader_start + 4 * i) = (smpboot_words info).getD i 0)
    (hfit : info.smp_loader_start + 44 ≤ 2 ^ 32)
    (hb : info.smp_bootreg_addr < 2 ^ 32)
    (hp : c.regs 15 = info.smp_loader_start + 16)
    (hr : c.regs 0 = info.smp_bootreg_addr)
    (hX : ldl_phys t c.mem info.smp_bootreg_addr = X) :
    (X = 0 → ∃ c1, Core.run t 4 c = some c1
        ∧ c1.regs 15 = info.smp_loader_start + 16
        ∧ c1.regs 0 = info.smp_bootreg_addr ∧ c1.mem = c.mem)
      ∧ (X ≠ 0 → ∃ c1, Core.run t 5 c = some c1
        ∧ c1.regs 15 = 2 * (X / 2) ∧ c1.thumb = X % 2 ∧ c1.mem = c.mem) := by
  have ub : u32 info.smp_bootreg_addr = info.smp_bootreg_addr := Nat.mod_eq_of_lt hb
  have uu : ∀ k, k < 44 → u32 (info.smp_loader_start + k) = info.smp_loader_start + k := by
    intro k hk
    exact Nat.mod_eq_of_lt (by omega)
  have w4 := hw 4 (by norm_num) (by norm_num)
  have w5 := hw 5 (by norm_num) (by norm_num)
  have w6 := hw 6 (by norm_num) (by norm_num)
  have w7 := hw 7 (by norm_num) (by norm_num)
  have w8 := hw 8 (by norm_num) (by norm_num)
  simp only [smpboot_words, List.getD_cons_zero, List.getD_cons_succ, Nat.reduceMul]
    at w4 w5 w6 w7 w8
  generalize hm : c.mem = m1 at w4 w5 w6 w7 w8 hX
  -- wfi
  have s5 := Core.step_wfi t c (by rw [hm, hp]; exact w4)
  rw [hp] at s5
  simp only [Nat.add_assoc, Nat.reduceAdd] at s5
  rw [uu 20 (by norm_num)] at s5
  generalize hc5 : c.set_reg 15 (info.smp_loader_start + 20) = c5 at s5
  have hm5 : c5.mem = m1 := by rw [← hc5]; exact hm
  have hp5 : c5.regs 15 = info.smp_loader_start + 20 := by rw [← hc5]; simp [Core.set_reg]
  have hr5 : c5.regs 0 = info.smp_bootreg_addr := by
    rw [← hc5]; simp [Core.set_reg, hr]
  -- ldr r1, [r0]
  have s6 := Core.step_ldr_r1_r0 t c5 (by rw [hm5, hp5]; exact w5)
  rw [hp5, hm5, hr5, ub, hX] at s6
  simp only [Nat.add_assoc, Nat.reduceAdd] at s6
  rw [uu 24 (by norm_num)] at s6
  generalize hc6 : (c5.set_reg 1 X).set_reg 15 (info.smp_loader_start + 24) = c6 at s6
  have hm6 : c6.mem = m1 := by rw [← hc6]; exact hm5
  have hp6 : c6.regs 15 = info.smp_loader_start + 24 := by rw [← hc6]; simp [Core.set_reg]
  have hr6 : c6.regs 1 = X ∧ c6.regs 0 = info.smp_bootreg_addr := by
    rw [← hc6]; simp [Core.set_reg, hr5]
  -- tst r1, r1
  have s7 := Core.step_tst_r1 t c6 (by rw [hm6, hp6]; exact w6)
  rw [hp6, hr6.1] at s7
  simp only [Nat.add_assoc, Nat.reduceAdd] at s7
  rw [uu 28 (by norm_num)] at s7
  generalize hc7 : ({ c6 with zf := decide (X = 0) } : Core).set_reg 15
    (info.smp_loader_start + 28) = c7 at s7
  have hm7 : c7.mem = m1 := by rw [← hc7]; exact hm6
  have hp7 : c7.regs 15 = info.smp_loader_start + 28 := by rw [← hc7]; simp [Core.set_reg]
  have hr7 : c7.regs 1 = X ∧ c7.regs 0 = info.smp_bootreg_addr := by
    rw [← hc7]; simp [Core.set_reg, hr6]
  have hz7 : c7.zf = decide (X = 0) := by rw [← hc7]; rfl
  constructor
  · -- the boot register holds 0: beq branches back to the wfi
    intro hX0
    have s8 := Core.step_beq_taken t c7 (by rw [hm7, hp7]; exact w7) (by rw [hz7]; simp [hX0])
    rw [hp7] at s8
    have e : u32 (info.smp_loader_start + 28 + 8 + 4 * 0xfffffb + (2 ^ 32 - 2 ^ 26))
        = info.smp_loader_start + 16 := by
      unfold u32
      omega
    rw [e] at s8
    refine ⟨c7.set_reg 15 (info.smp_loader_start + 16), ?_, ?_, ?_, ?_⟩
    · simp [Core.run, s5, s6, s7, s8]
    · simp [Core.set_reg]
    · simp [Core.set_reg, hr7]
    · exact hm7
  · -- the boot register holds an address: beq is skipped and bx jumps
    intro hX0
    have s8 := Core.step_beq_not_taken t c7 (by rw [hm7, hp7]; exact w7)
      (by rw [hz7]; simp [hX0])
    rw [hp7] at s8
    simp only [Nat.add_assoc, Nat.reduceAdd] at s8
    rw [uu 32 (by norm_num)] at s8
    generalize hc8 : c7.set_reg 15 (info.smp_loader_start + 32) = c8 at s8
    have hm8 : c8.mem = m1 := by rw [← hc8]; exact hm7
    have hp8 : c8.regs 15 = info.smp_loader_start + 32 := by rw [← hc8]; simp [Core.set_reg]
    have hr8 : c8.regs 1 = X := by rw [← hc8]; simp [Core.set_reg, hr7]
    have s9 := Core.step_bx_r1 t c8 (by rw [hm8, hp8]; exact w8)
    rw [hr8] at s9
    refine ⟨({ c8 with thumb := X % 2 } : Core).set_reg 15 (2 * (X / 2)), ?_, ?_, ?_, ?_⟩
    · simp [Core.run, s5, s6, s7, s8, s9]
    · simp [Core.set_reg]
    · rfl
    · exact hm8

/-- While the boot register holds 0 the core stays in the wait loop: after any number
of turns it is at the `wfi` again, memory unchanged. -/
theorem spin_loop_spin (t : Target) (info : arm_boot_info) (n : Nat) (c : Core)
    (hw : ∀ i, 4 ≤ i → i < 9 →
      ldl_phys t c.mem (info.smp_loader_start + 4 * i) = (smpboot_words info).getD i 0)
    (hfit : info.smp_loader_start + 44 ≤ 2 ^ 32)
    (hb : info.smp_bootreg_addr < 2 ^ 32)
    (hp : c.regs 15 = info.smp_loader_start + 16)
    (hr : c.regs 0 = info.smp_bootreg_addr)
    (hX : ldl_phys t c.mem info.smp_bootreg_addr = 0) :
    ∃ c1, Core.run t (4 * n) c = some c1
      ∧ c1.regs 15 = info.smp_loader_start + 16
      ∧ c1.regs 0 = info.smp_bootreg_addr ∧ c1.mem = c.mem := by
  induction n with
  | zero => exact ⟨c, rfl, hp, hr, rfl⟩
  | succ n ih =>
    obtain ⟨c1, h1, hp1, hr1, hm1⟩ := ih
    obtain ⟨c2, h2, hp2, hr2, hm2⟩ :=
      (spin_loop_iter t info c1 0 (by rw [hm1]; exact hw) hfit hb hp1 hr1
        (by rw [hm1]; exact hX)).1 rfl
    refine ⟨c2, ?_, hp2, hr2, by rw [hm2, hm1]⟩
    have e : 4 * (n + 1) = 4 * n + 4 := by omega
    rw [e, Core.run_add, h1]
    exact h2

/-- The spin loop from `smp_loader_start`, in a memory that holds the blob and whose
boot register holds 0: the core enters the wait loop and is at the `wfi` after any
number `n` of turns, having stored 1 to the interrupt controller; when the boot
register is then set to `X ≠ 0`, five instructions later the core has jumped to `X`,
bit 0 of `X` selecting the instruction set. -/
theorem spin_loop_run (t : Target) (info : arm_boot_info) (regs : Nat → Nat) (zf : Bool)
    (m m0 : Mem) (X n : Nat)
    (hblob : ∀ a, info.smp_loader_start ≤ a → a < info.smp_loader_start + 44 →
      m a = MemOp.apply t m0 (default_write_secondary t info) a)
    (hfit : info.smp_loader_start + 44 ≤ 2 ^ 32)
    (hg : info.gic_cpu_if_addr + 4 ≤ 2 ^ 32) (hb : info.smp_bootreg_addr + 4 ≤ 2 ^ 32)
    (hgblob : info.gic_cpu_if_addr + 4 ≤ info.smp_loader_start
      ∨ info.smp_loader_start + 44 ≤ info.gic_cpu_if_addr)
    (hbblob : info.smp_bootreg_addr + 4 ≤ info.smp_loader_start
      ∨ info.smp_loader_start + 44 ≤ info.smp_bootreg_addr)
    (hgb : info.gic_cpu_if_addr + 4 ≤ info.smp_bootreg_addr
      ∨ info.smp_bootreg_addr + 4 ≤ info.gic_cpu_if_addr)
    (h0 : ldl_phys t m info.smp_bootreg_addr = 0)
    (hX32 : X < 2 ^ 32) :
    ∃ c, Core.run t (4 + 4 * n) (spin_start info regs zf m) = some c
      ∧ c.regs 15 = info.smp_loader_start + 16
      ∧ c.mem = stl_phys_notdirty t m info.gic_cpu_if_addr 1
      ∧ (X ≠ 0 → ∃ c1,
          Core.run t 5 { c with mem := stl_phys_notdirty t c.mem info.smp_bootreg_addr X }
            = some c1
          ∧ c1.regs 15 = 2 * (X / 2) ∧ c1.thumb = X % 2
          ∧ c1.mem = stl_phys_notdirty t c.mem info.smp_bootreg_addr X) := by
  have hw : ∀ i, i < 11 →
      ldl_phys t m (info.smp_loader_start + 4 * i) = (smpboot_words info).getD i 0 := by
    intro i hi
    rw [← smpboot_blob_words t info m0 i hi]
    apply ldl_phys_congr
    intro a h1 h2
    exact hblob a (by omega) (by omega)
  obtain ⟨c1, e1, hp1, hr1, -, hm1⟩ :=
    spin_loop_enter t info regs zf m hw hfit (by omega) (by omega)
  have hw1 : ∀ i, 4 ≤ i → i < 9 →
      ldl_phys t c1.mem (info.smp_loader_start + 4 * i) = (smpboot_words info).getD i 0 := by
    intro i _ hi
    rw [hm1, ldl_stl_outside t m _ _ _ (by omega)]
    exact hw i (by omega)
  have h01 : ldl_phys t c1.mem info.smp_bootreg_addr = 0 := by
    rw [hm1, ldl_stl_outside t m _ _ _ (by omega)]
    exact h0
  obtain ⟨c2, e2, hp2, hr2, hm2⟩ :=
    spin_loop_spin t info n c1 hw1 hfit (by omega) hp1 hr1 h01
  refine ⟨c2, ?_, hp2, by rw [hm2, hm1], ?_⟩
  · rw [Core.run_add, e1]
    exact e2
  · intro hX
    have hw2 : ∀ i, 4 ≤ i → i < 9 →
        ldl_phys t (stl_phys_notdirty t c2.mem info.smp_bootreg_addr X)
            (info.smp_loader_start + 4 * i)
          = (smpboot_words info).getD i 0 := by
      intro i h4 hi
      rw [ldl_stl_outside t c2.mem _ _ _ (by omega), hm2]
      exact hw1 i h4 hi
    exact (spin_loop_iter t info
      { c2 with mem := stl_phys_notdirty t c2.mem info.smp_bootreg_addr X } X hw2 hfit
      (by omega) hp2 hr2 (ldl_stl_same t c2.mem _ X hX32)).2 hX

theorem default_write_secondary_length (t : Target) (info : arm_boot_info) :
    (host_bytes t (patch_smpboot t smpboot info)).length = 44 := by
  rw [host_bytes_length, patch_smpboot_words, List.length_map]
  rfl

/-- Guest memory outside the 44 bytes of the spin-loop blob is not touched by it. -/
theorem blob_read_outside (t : Target) (info : arm_boot_info) (m : Mem) (a : Nat)
    (h : a < info.smp_loader_start ∨ info.smp_loader_start + 44 ≤ a) :
    MemOp.apply t m (default_write_secondary t info) a = m a := by
  unfold default_write_secondary MemOp.apply
  exact write_read_outside _ _ _ _ (by rw [default_write_secondary_length]; exact h)

theorem blob_ldl_outside (t : Target) (info : arm_boot_info) (m : Mem) (b : Nat)
    (h : b + 4 ≤ info.smp_loader_start ∨ info.smp_loader_start + 44 ≤ b) :
    ldl_phys t (MemOp.apply t m (default_write_secondary t info)) b = ldl_phys t m b := by
  apply ldl_phys_congr
  intro x h1 h2
  exact blob_read_outside t info m x (by omega)

/-! ## The spin-loop blob -/

/-- C19, the claim refuted: on the blob of `smp_info`, with the word `0x12345678`
stored at `0x8000`, the core enters the wait loop; the boot register is then set to the
address `0x8000`, and five instructions later the program counter is `0x8000`, the
content of the boot register, while the value stored at `0x8000` is `0x12345678`. -/
theorem spin_loop_counterexample :
    ∃ c c1, Core.run arm_le32 4 (spin_start smp_info zero_bytes false spin_example_mem) = some c
      ∧ Core.run arm_le32 5
          { c with mem := stl_phys_notdirty arm_le32 c.mem smp_info.smp_bootreg_addr 0x8000 }
        = some c1
      ∧ c1.regs 15 = 0x8000
      ∧ ldl_phys arm_le32 c1.mem 0x8000 = 0x12345678 := by
  have h0 : ldl_phys arm_le32 spin_example_mem smp_info.smp_bootreg_addr = 0 := by
    unfold spin_example_mem
    rw [blob_ldl_outside arm_le32 smp_info _ _ (by decide),
      ldl_stl_outside arm_le32 zero_bytes _ _ _ (by decide)]
    rfl
  obtain ⟨c, e, -, hm, hrel⟩ :=
    spin_loop_run arm_le32 smp_info zero_bytes false spin_example_mem
      (stl_phys_notdirty arm_le32 zero_bytes 0x8000 0x12345678) 0x8000 0
      (fun _ _ _ => rfl) (by decide) (by decide) (by decide) (by decide) (by decide)
      (by decide) h0 (by decide)
  obtain ⟨c1, e1, hp1, -, hm1⟩ := hrel (by decide)
  refine ⟨c, c1, e, e1, hp1, ?_⟩
  rw [hm1, hm, ldl_stl_outside arm_le32 _ _ _ _ (by decide),
    ldl_stl_outside arm_le32 _ _ _ _ (by decide)]
  unfold spin_example_mem
  rw [blob_ldl_outside arm_le32 smp_info _ _ (by decide)]
  exact ldl_stl_same arm_le32 zero_bytes 0x8000 0x12345678 (by decide)

/-- C19, as the code has it: a core started at `smp_loader_start` on the blob emitted by
`default_write_secondary`, the boot register holding 0, is at the `wfi` of the wait
loop after the four entry instructions and any number `n` of turns of the loop; once
the boot register has been set to a non-zero `X`, the core leaves the loop and, five
instructions later, its program counter is `X` itself with bit 0 cleared, bit 0
selecting the instruction set (the word stored at `X` is not read). The blob, the boot
register and the interrupt-controller register are pairwise disjoint and below 4 GiB. -/
theorem spin_loop_release (t : Target) (info : arm_boot_info) (regs : Nat → Nat) (zf : Bool)
    (m m0 : Mem) (X n : Nat)
    (hblob : ∀ a, info.smp_loader_start ≤ a → a < info.smp_loader_start + 44 →
      m a = MemOp.apply t m0 (default_write_secondary t info) a)
    (hfit : info.smp_loader_start + 44 ≤ 2 ^ 32)
    (hg : info.gic_cpu_if_addr + 4 ≤ 2 ^ 32) (hb : info.smp_bootreg_addr + 4 ≤ 2 ^ 32)
    (hgblob : info.gic_cpu_if_addr + 4 ≤ info.smp_loader_start
      ∨ info.smp_loader_start + 44 ≤ info.gic_cpu_if_addr)
    (hbblob : info.smp_bootreg_addr + 4 ≤ info.smp_loader_start
      ∨ info.smp_loader_start + 44 ≤ info.smp_bootreg_addr)
    (hgb : info.gic_cpu_if_addr + 4 ≤ info.smp_bootreg_addr
      ∨ info.smp_bootreg_addr + 4 ≤ info.gic_cpu_if_addr)
    (h0 : ldl_phys t m info.smp_bootreg_addr = 0)
    (hX : X ≠ 0) (hX32 : X < 2 ^ 32) :
    ∃ c, Core.run t (4 + 4 * n) (spin_start info regs zf m) = some c
      ∧ c.regs 15 = info.smp_loader_start + 16
      ∧ ∃ c1,
          Core.run t 5 { c with mem := stl_phys_notdirty t c.mem info.smp_bootreg_addr X }
            = some c1
          ∧ c1.regs 15 = 2 * (X / 2) ∧ c1.thumb = X % 2 := by
  obtain ⟨c, e, hp, -, hrel⟩ :=
    spin_loop_run t info regs zf m m0 X n hblob hfit hg hb hgblob hbblob hgb h0 hX32
  obtain ⟨c1, e1, hp1, ht1, -⟩ := hrel hX
  exact ⟨c, e, hp, c1, e1, hp1, ht1⟩

/-- Witness for `spin_loop_release`: the blob of `smp_info` in zeroed memory, three
turns of the loop, then the boot register set to `0x18001`. -/
theorem spin_loop_release_witness :
    smp_info.smp_loader_start + 44 ≤ 2 ^ 32
      ∧ ldl_phys arm_le32
          (MemOp.apply arm_le32 zero_bytes (default_write_secondary arm_le32 smp_info))
          smp_info.smp_bootreg_addr = 0
      ∧ (0x18001 : Nat) ≠ 0
      ∧ ∃ c, Core.run arm_le32 (4 + 4 * 3)
            (spin_start smp_info zero_bytes false
              (MemOp.apply arm_le32 zero_bytes (default_write_secondary arm_le32 smp_info)))
          = some c
        ∧ c.regs 15 = smp_info.smp_loader_start + 16
        ∧ ∃ c1,
            Core.run arm_le32 5
              { c with
                mem := stl_phys_notdirty arm_le32 c.mem smp_info.smp_bootreg_addr 0x18001 }
              = some c1
            ∧ c1.regs 15 = 2 * (0x18001 / 2) ∧ c1.thumb = 0x18001 % 2 :=
  ⟨by decide,
    (blob_ldl_outside arm_le32 smp_info zero_bytes _ (by decide)).trans rfl,
    by decide,
    spin_loop_release arm_le32 smp_info zero_bytes false
      (MemOp.apply arm_le32 zero_bytes (default_write_secondary arm_le32 smp_info)) zero_bytes
      0x18001 3 (fun _ _ _ => rfl) (by decide) (by decide) (by decide) (by decide) (by decide)
      (by decide)
      ((blob_ldl_outside arm_le32 smp_info zero_bytes _ (by decide)).trans rfl)
      (by decide) (by decide)⟩

/-- C20: `default_write_secondary` makes one write of 44 bytes at `smp_loader_start`;
read back word by word in the guest's byte order, words 0 to 8 are the nine
instructions of `smpboot[]`, word 9 is `gic_cpu_if_addr` and word 10 is
`smp_bootreg_addr` (as 32-bit values); and in any memory holding words 0 and 1, the two
pc-relative loads executed from `smp_loader_start` load `r2` from the address of word 9
and `r0` from the address of word 10. -/
theorem default_write_secondary_blob (t : Target) (info : arm_boot_info) (m : Mem)
    (hfit : info.smp_loader_start + 44 ≤ 2 ^ 32) :
    (∃ bytes, default_write_secondary t info = MemOp.write info.smp_loader_start bytes
        ∧ bytes.length = 44)
      ∧ (∀ i, i < 9 →
          ldl_phys t (MemOp.apply t m (default_write_secondary t info))
              (info.smp_loader_start + 4 * i)
            = smpboot.getD i 0)
      ∧ ldl_phys t (MemOp.apply t m (default_write_secondary t info))
            (info.smp_loader_start + 4 * 9)
          = u32 info.gic_cpu_if_addr
      ∧ ldl_phys t (MemOp.apply t m (default_write_secondary t info))
            (info.smp_loader_start + 4 * 10)
          = u32 info.smp_bootreg_addr
      ∧ ∀ (m1 : Mem) (regs : Nat → Nat) (zf : Bool),
          ldl_phys t m1 info.smp_loader_start = smpboot.getD 0 0 →
          ldl_phys t m1 (info.smp_loader_start + 4) = smpboot.getD 1 0 →
          ∃ c, Core.run t 2 (spin_start info regs zf m1) = some c
            ∧ c.regs 2 = ldl_phys t m1 (info.smp_loader_start + 4 * 9)
            ∧ c.regs 0 = ldl_phys t m1 (info.smp_loader_start + 4 * 10)
            ∧ c.regs 15 = info.smp_loader_start + 4 * 2
            ∧ c.mem = m1 := by
  refine ⟨⟨_, rfl, default_write_secondary_length t info⟩, ?_, ?_, ?_, ?_⟩
  · intro i hi
    rw [smpboot_blob_words t info m i (by omega)]
    interval_cases i <;> rfl
  · exact smpboot_blob_words t info m 9 (by norm_num)
  · exact smpboot_blob_words t info m 10 (by norm_num)
  · intro m1 regs zf w0 w1
    have uu : ∀ k, k < 44 → u32 (info.smp_loader_start + k) = info.smp_loader_start + k := by
      intro k hk
      exact Nat.mod_eq_of_lt (by omega)
    have e0 : smpboot.getD 0 0 = 0xe59f0000 + 2 * 2 ^ 12 + 0x1c := by decide
    have e1 : smpboot.getD 1 0 = 0xe59f0000 + 0 * 2 ^ 12 + 0x1c := by decide
    rw [e0] at w0
    rw [e1] at w1
    generalize hc0 : spin_start info regs zf m1 = c0
    have hm0 : c0.mem = m1 := by rw [← hc0]; rfl
    have hp0 : c0.regs 15 = info.smp_loader_start := by rw [← hc0]; simp [spin_start]
    have s1 := Core.step_ldr_pc_imm t c0 2 0x1c (by norm_num) (by norm_num)
      (by rw [hm0, hp0]; exact w0)
    rw [hp0, hm0, uu 8 (by norm_num)] at s1
    simp only [Nat.add_assoc, Nat.reduceAdd] at s1
    rw [uu 36 (by norm_num), uu 4 (by norm_num)] at s1
    generalize hc1 : (c0.set_reg 2 (ldl_phys t m1 (info.smp_loader_start + 36))).set_reg 15
      (info.smp_loader_start + 4) = c1 at s1
    have hm1 : c1.mem = m1 := by rw [← hc1]; exact hm0
    have hp1 : c1.regs 15 = info.smp_loader_start + 4 := by rw [← hc1]; simp [Core.set_reg]
    have hr1 : c1.regs 2 = ldl_phys t m1 (info.smp_loader_start + 36) := by
      rw [← hc1]; simp [Core.set_reg]
    have s2 := Core.step_ldr_pc_imm t c1 0 0x1c (by norm_num) (by norm_num)
      (by rw [hm1, hp1]; exact w1)
    rw [hp1, hm1] at s2
    simp only [Nat.add_assoc, Nat.reduceAdd] at s2
    rw [uu 12 (by norm_num)] at s2
    simp only [Nat.add_assoc, Nat.reduceAdd] at s2
    rw [uu 40 (by norm_num), uu 8 (by norm_num)] at s2
    refine ⟨(c1.set_reg 0 (ldl_phys t m1 (info.smp_loader_start + 40))).set_reg 15
      (info.smp_loader_start + 8), ?_, ?_, ?_, ?_, ?_⟩
    · simp [Core.run, s1, s2]
    · simp [Core.set_reg, hr1]
    · simp [Core.set_reg]
    · simp [Core.set_reg]
    · exact hm1

/-- Witness for `default_write_secondary_blob`: the blob of `smp_info` in a little-endian
guest with zeroed memory. -/
theorem default_write_secondary_blob_witness :
    smp_info.smp_loader_start + 44 ≤ 2 ^ 32
      ∧ ldl_phys arm_le32
            (MemOp.apply arm_le32 zero_bytes (default_write_secondary arm_le32 smp_info))
            (smp_info.smp_loader_start + 4 * 9)
          = u32 smp_info.gic_cpu_if_addr
      ∧ ldl_phys arm_le32
            (MemOp.apply arm_le32 zero_bytes (default_write_secondary arm_le32 smp_info))
            (smp_info.smp_loader_start + 4 * 10)
          = u32 smp_info.smp_bootreg_addr
      ∧ ∃ c, Core.run arm_le32 2
            (spin_start smp_info zero_bytes false
              (MemOp.apply arm_le32 zero_bytes (default_write_secondary arm_le32 smp_info)))
          = some c
        ∧ c.regs 2
          = ldl_phys arm_le32
              (MemOp.apply arm_le32 zero_bytes (default_write_secondary arm_le32 smp_info))
              (smp_info.smp_loader_start + 4 * 9)
        ∧ c.regs 0
          = ldl_phys arm_le32
              (MemOp.apply arm_le32 zero_bytes (default_write_secondary arm_le32 smp_info))
              (smp_info.smp_loader_start + 4 * 10)
        ∧ c.regs 15 = smp_info.smp_loader_start + 4 * 2
        ∧ c.mem
          = MemOp.apply arm_le32 zero_bytes (default_write_secondary arm_le32 smp_info) :=
  ⟨by decide,
    (default_write_secondary_blob arm_le32 smp_info zero_bytes (by decide)).2.2.1,
    (default_write_secondary_blob arm_le32 smp_info zero_bytes (by decide)).2.2.2.1,
    (default_write_secondary_blob arm_le32 smp_info zero_bytes (by decide)).2.2.2.2
      (MemOp.apply arm_le32 zero_bytes (default_write_secondary arm_le32 smp_info))
      zero_bytes false
      ((default_write_secondary_blob arm_le32 smp_info zero_bytes (by decide)).2.1 0
        (by decide))
      ((default_write_secondary_blob arm_le32 smp_info zero_bytes (by decide)).2.1 1
        (by decide))⟩


/-! ## Loading the kernel -/

theorem arm_load_kernel_image_elf (t : Target) (ld : Loaders) (ram_size : Nat)
    (info : arm_boot_info) (f : List Nat) (h : 0 ≤ (ld.load_elf f).1) :
    arm_load_kernel_image t ld ram_size info f
      = ((ld.load_elf f).1, t.paddr (ld.load_elf f).2, if strstr f vmlinux then 1 else 0) := by
  have h1 : ¬ (ld.load_elf f).1 < 0 := by omega
  simp only [arm_load_kernel_image, h1, if_false]

theorem arm_load_kernel_image_uimage (t : Target) (ld : Loaders) (ram_size : Nat)
    (info : arm_boot_info) (f : List Nat) (h : (ld.load_elf f).1 < 0)
    (hu : 0 ≤ (ld.load_uimage f (t.paddr (ld.load_elf f).2)
      (if strstr f vmlinux then 1 else 0)).1) :
    arm_load_kernel_image t ld ram_size info f
      = ((ld.load_uimage f (t.paddr (ld.load_elf f).2) (if strstr f vmlinux then 1 else 0)).1,
         t.paddr (ld.load_uimage f (t.paddr (ld.load_elf f).2)
           (if strstr f vmlinux then 1 else 0)).2.1,
         (ld.load_uimage f (t.paddr (ld.load_elf f).2)
           (if strstr f vmlinux then 1 else 0)).2.2) := by
  have h1 : ¬ (ld.load_uimage f (t.paddr (ld.load_elf f).2)
      (if strstr f vmlinux then 1 else 0)).1 < 0 := by omega
  simp only [arm_load_kernel_image, h, if_true, h1, if_false]

theorem arm_load_kernel_image_raw (t : Target) (ld : Loaders) (ram_size : Nat)
    (info : arm_boot_info) (f : List Nat) (h : (ld.load_elf f).1 < 0)
    (hu : (ld.load_uimage f (t.paddr (ld.load_elf f).2)
      (if strstr f vmlinux then 1 else 0)).1 < 0) :
    arm_load_kernel_image t ld ram_size info f
      = (ld.load_image_targphys f (t.paddr (info.loader_start + KERNEL_LOAD_ADDR))
          ((ram_size : Int) - KERNEL_LOAD_ADDR),
         t.paddr (info.loader_start + KERNEL_LOAD_ADDR), 1) := by
  simp only [arm_load_kernel_image, h, if_true, hu]

/-- The three loaders read `loader_start` only. -/
theorem arm_load_kernel_image_congr (t : Target) (ld : Loaders) (ram_size : Nat)
    (info1 info2 : arm_boot_info) (f : List Nat)
    (h : info1.loader_start = info2.loader_start) :
    arm_load_kernel_image t ld ram_size info1 f = arm_load_kernel_image t ld ram_size info2 f := by
  simp only [arm_load_kernel_image, h]

/-- Lines 258-266 change nothing but the two hooks and the number of CPUs. -/
theorem arm_load_kernel_defaults_fields (info : arm_boot_info) :
    (arm_load_kernel_defaults info).loader_start = info.loader_start
      ∧ (arm_load_kernel_defaults info).board_id = info.board_id
      ∧ (arm_load_kernel_defaults info).initrd_filename = info.initrd_filename
      ∧ (arm_load_kernel_defaults info).initrd_size = info.initrd_size
      ∧ (arm_load_kernel_defaults info).smp_loader_start = info.smp_loader_start
      ∧ (arm_load_kernel_defaults info).smp_bootreg_addr = info.smp_bootreg_addr
      ∧ (arm_load_kernel_defaults info).gic_cpu_if_addr = info.gic_cpu_if_addr
      ∧ (arm_load_kernel_defaults info).nb_cpus = (if info.nb_cpus = 0 then 1 else info.nb_cpus)
      ∧ (arm_load_kernel_defaults info).write_secondary_boot
          = some (info.write_secondary_boot.getD SecondaryBoot.default_hook) := by
  unfold arm_load_kernel_defaults
  dsimp only
  generalize hi1 :
    (match info.secondary_cpu_reset_hook with
      | none => { info with secondary_cpu_reset_hook := some (default_reset_secondary info) }
      | some _ => info) = i1
  generalize hi2 :
    (match i1.write_secondary_boot with
      | none => { i1 with write_secondary_boot := some SecondaryBoot.default_hook }
      | some _ => i1) = i2
  have e1 : i1.loader_start = info.loader_start ∧ i1.board_id = info.board_id
      ∧ i1.initrd_filename = info.initrd_filename ∧ i1.initrd_size = info.initrd_size
      ∧ i1.smp_loader_start = info.smp_loader_start
      ∧ i1.smp_bootreg_addr = info.smp_bootreg_addr
      ∧ i1.gic_cpu_if_addr = info.gic_cpu_if_addr ∧ i1.nb_cpus = info.nb_cpus
      ∧ i1.write_secondary_boot = info.write_secondary_boot := by
    rw [← hi1]
    cases info.secondary_cpu_reset_hook <;> simp
  have e2 : i2.loader_start = info.loader_start ∧ i2.board_id = info.board_id
      ∧ i2.initrd_filename = info.initrd_filename ∧ i2.initrd_size = info.initrd_size
      ∧ i2.smp_loader_start = info.smp_loader_start
      ∧ i2.smp_bootreg_addr = info.smp_bootreg_addr
      ∧ i2.gic_cpu_if_addr = info.gic_cpu_if_addr ∧ i2.nb_cpus = info.nb_cpus
      ∧ i2.write_secondary_boot
          = some (info.write_secondary_boot.getD SecondaryBoot.default_hook) := by
    obtain ⟨a1, a2, a3, a4, a5, a6, a7, a8, a9⟩ := e1
    rw [← hi2, ← a9]
    cases hw : i1.write_secondary_boot <;> simp [a1, a2, a3, a4, a5, a6, a7, a8, hw]
  obtain ⟨a1, a2, a3, a4, a5, a6, a7, a8, a9⟩ := e2
  rw [← a8]
  by_cases hn : i2.nb_cpus = 0 <;> simp [a1, a2, a3, a4, a5, a6, a7, a9, hn]

/-- The ways through `arm_load_kernel` once a kernel file is named. -/
theorem arm_load_kernel_cases (t : Target) (ld : Loaders) (ram_size : Nat) (envs : List Nat)
    (info : arm_boot_info) (st : LoaderState) (f : List Nat)
    (hf : info.kernel_filename = some f) :
    ((arm_load_kernel_image t ld ram_size info f).1 < 0 →
        arm_load_kernel t ld ram_size envs info st
          = { fatal := some Fatal.kernel_load, info := arm_load_kernel_defaults info, st := st })
      ∧ (0 ≤ (arm_load_kernel_image t ld ram_size info f).1 →
          (arm_load_kernel_image t ld ram_size info f).2.2 = 0 →
          arm_load_kernel t ld ram_size envs info st
            = arm_load_kernel_finish envs 0
                { arm_load_kernel_defaults info with
                  entry := (arm_load_kernel_image t ld ram_size info f).2.1 } st)
      ∧ (0 ≤ (arm_load_kernel_image t ld ram_size info f).1 →
          (arm_load_kernel_image t ld ram_size info f).2.2 ≠ 0 →
          ∀ i, info.initrd_filename = some i →
          ld.load_image_targphys i (t.paddr (info.loader_start + INITRD_LOAD_ADDR))
            ((ram_size : Int) - INITRD_LOAD_ADDR) < 0 →
          arm_load_kernel t ld ram_size envs info st
            = { fatal := some Fatal.initrd_load,
                info := { arm_load_kernel_defaults info with
                  entry := (arm_load_kernel_image t ld ram_size info f).2.1 },
                st := st })
      ∧ (0 ≤ (arm_load_kernel_image t ld ram_size info f).1 →
          (arm_load_kernel_image t ld ram_size info f).2.2 ≠ 0 →
          ∀ i, info.initrd_filename = some i →
          0 ≤ ld.load_image_targphys i (t.paddr (info.loader_start + INITRD_LOAD_ADDR))
            ((ram_size : Int) - INITRD_LOAD_ADDR) →
          arm_load_kernel t ld ram_size envs info st
            = arm_load_kernel_finish envs (arm_load_kernel_image t ld ram_size info f).2.2
                { arm_load_kernel_defaults info with
                  entry := (arm_load_kernel_image t ld ram_size info f).2.1
                  initrd_size :=
                    (ld.load_image_targphys i (t.paddr (info.loader_start + INITRD_LOAD_ADDR))
                      ((ram_size : Int) - INITRD_LOAD_ADDR)).toNat }
                (arm_load_kernel_blobs t
                  { arm_load_kernel_defaults info with
                    entry := (arm_load_kernel_image t ld ram_size info f).2.1 }
                  (arm_load_kernel_image t ld ram_size info f).2.1 st))
      ∧ (0 ≤ (arm_load_kernel_image t ld ram_size info f).1 →
          (arm_load_kernel_image t ld ram_size info f).2.2 ≠ 0 →
          info.initrd_filename = none →
          arm_load_kernel t ld ram_size envs info st
            = arm_load_kernel_finish envs (arm_load_kernel_image t ld ram_size info f).2.2
                { arm_load_kernel_defaults info with
                  entry := (arm_load_kernel_image t ld ram_size info f).2.1
                  initrd_size := 0 }
                (arm_load_kernel_blobs t
                  { arm_load_kernel_defaults info with
                    entry := (arm_load_kernel_image t ld ram_size info f).2.1 }
                  (arm_load_kernel_image t ld ram_size info f).2.1 st)) := by
  obtain ⟨d1, -, d3, -⟩ := arm_load_kernel_defaults_fields info
  have himg := arm_load_kernel_image_congr t ld ram_size (arm_load_kernel_defaults info) info f d1
  refine ⟨?_, ?_, ?_, ?_, ?_⟩
  · intro h
    simp only [arm_load_kernel, hf, himg, h, if_true]
  · intro h h0
    have h1 : ¬ (arm_load_kernel_image t ld ram_size info f).1 < 0 := by omega
    simp only [arm_load_kernel, hf, himg, h1, if_false, h0, ne_eq, not_true_eq_false]
  · intro h h0 i hi hl
    have h1 : ¬ (arm_load_kernel_image t ld ram_size info f).1 < 0 := by omega
    simp only [arm_load_kernel, hf, himg, h1, if_false, h0, ne_eq, not_false_eq_true, if_true,
      d3, hi, d1, hl]
  · intro h h0 i hi hl
    have h1 : ¬ (arm_load_kernel_image t ld ram_size info f).1 < 0 := by omega
    have h2 : ¬ ld.load_image_targphys i (t.paddr (info.loader_start + INITRD_LOAD_ADDR))
        ((ram_size : Int) - INITRD_LOAD_ADDR) < 0 := by omega
    simp only [arm_load_kernel, hf, himg, h1, if_false, h0, ne_eq, not_false_eq_true, if_true,
      d3, hi, d1, h2]
  · intro h h0 hi
    have h1 : ¬ (arm_load_kernel_image t ld ram_size info f).1 < 0 := by omega
    simp only [arm_load_kernel, hf, himg, h1, if_false, h0, ne_eq, not_false_eq_true, if_true,
      d3, hi, Int.toNat_zero]

/-- Every call of `arm_load_kernel` ends in one of six ways. -/
theorem arm_load_kernel_outcome (t : Target) (ld : Loaders) (ram_size : Nat) (envs : List Nat)
    (info : arm_boot_info) (st : LoaderState) :
    (info.kernel_filename = none
        ∧ arm_load_kernel t ld ram_size envs info st
          = { fatal := some Fatal.no_kernel, info := info, st := st })
      ∨ ∃ f, info.kernel_filename = some f
        ∧ (((arm_load_kernel_image t ld ram_size info f).1 < 0
            ∧ arm_load_kernel t ld ram_size envs info st
              = { fatal := some Fatal.kernel_load, info := arm_load_kernel_defaults info,
                  st := st })
          ∨ (0 ≤ (arm_load_kernel_image t ld ram_size info f).1
            ∧ (arm_load_kernel_image t ld ram_size info f).2.2 = 0
            ∧ arm_load_kernel t ld ram_size envs info st
              = arm_load_kernel_finish envs 0
                  { arm_load_kernel_defaults info with
                    entry := (arm_load_kernel_image t ld ram_size info f).2.1 } st)
          ∨ (0 ≤ (arm_load_kernel_image t ld ram_size info f).1
            ∧ (arm_load_kernel_image t ld ram_size info f).2.2 ≠ 0
            ∧ ∃ i, info.initrd_filename = some i
              ∧ ld.load_image_targphys i (t.paddr (info.loader_start + INITRD_LOAD_ADDR))
                  ((ram_size : Int) - INITRD_LOAD_ADDR) < 0
              ∧ arm_load_kernel t ld ram_size envs info st
                = { fatal := some Fatal.initrd_load,
                    info := { arm_load_kernel_defaults info with
                      entry := (arm_load_kernel_image t ld ram_size info f).2.1 },
                    st := st })
          ∨ (0 ≤ (arm_load_kernel_image t ld ram_size info f).1
            ∧ (arm_load_kernel_image t ld ram_size info f).2.2 ≠ 0
            ∧ ∃ isz : Nat,
              ((info.initrd_filename = none ∧ isz = 0)
                ∨ ∃ i, info.initrd_filename = some i
                  ∧ (isz : Int)
                    = ld.load_image_targphys i (t.paddr (info.loader_start + INITRD_LOAD_ADDR))
                        ((ram_size : Int) - INITRD_LOAD_ADDR))
              ∧ arm_load_kernel t ld ram_size envs info st
                = arm_load_kernel_finish envs (arm_load_kernel_image t ld ram_size info f).2.2
                    { arm_load_kernel_defaults info with
                      entry := (arm_load_kernel_image t ld ram_size info f).2.1
                      initrd_size := isz }
                    (arm_load_kernel_blobs t
                      { arm_load_kernel_defaults info with
                        entry := (arm_load_kernel_image t ld ram_size info f).2.1 }
                      (arm_load_kernel_image t ld ram_size info f).2.1 st))) := by
  cases hf : info.kernel_filename with
  | none =>
    left
    refine ⟨rfl, ?_⟩
    simp only [arm_load_kernel, hf]
  | some f =>
    right
    refine ⟨f, rfl, ?_⟩
    obtain ⟨c1, c2, c3, c4, c5⟩ := arm_load_kernel_cases t ld ram_size envs info st f hf
    by_cases h : (arm_load_kernel_image t ld ram_size info f).1 < 0
    · exact Or.inl ⟨h, c1 h⟩
    · have h' : 0 ≤ (arm_load_kernel_image t ld ram_size info f).1 := by omega
      by_cases h0 : (arm_load_kernel_image t ld ram_size info f).2.2 = 0
      · exact Or.inr (Or.inl ⟨h', h0, c2 h' h0⟩)
      · cases hi : info.initrd_filename with
        | none => exact Or.inr (Or.inr (Or.inr ⟨h', h0, 0, Or.inl ⟨rfl, rfl⟩, c5 h' h0 hi⟩))
        | some i =>
          by_cases hl : ld.load_image_targphys i (t.paddr (info.loader_start + INITRD_LOAD_ADDR))
              ((ram_size : Int) - INITRD_LOAD_ADDR) < 0
          · exact Or.inr (Or.inr (Or.inl ⟨h', h0, i, rfl, hl, c3 h' h0 i hi hl⟩))
          · have hl' : 0 ≤ ld.load_image_targphys i
                (t.paddr (info.loader_start + INITRD_LOAD_ADDR))
                ((ram_size : Int) - INITRD_LOAD_ADDR) := by omega
            exact Or.inr (Or.inr (Or.inr ⟨h', h0, _, Or.inr ⟨i, rfl, (Int.toNat_of_nonneg hl')⟩,
              c4 h' h0 i hi hl'⟩))

theorem patch_bootloader_congr (t : Target) (bl : List Nat) (info1 info2 : arm_boot_info)
    (entry : Nat) (h1 : info1.board_id = info2.board_id)
    (h2 : info1.loader_start = info2.loader_start) :
    patch_bootloader t bl info1 entry = patch_bootloader t bl info2 entry := by
  simp only [patch_bootloader, h1, h2]

theorem patch_smpboot_congr (t : Target) (sb : List Nat) (info1 info2 : arm_boot_info)
    (h1 : info1.smp_bootreg_addr = info2.smp_bootreg_addr)
    (h2 : info1.gic_cpu_if_addr = info2.gic_cpu_if_addr) :
    patch_smpboot t sb info1 = patch_smpboot t sb info2 := by
  simp only [patch_smpboot, h1, h2]

/-- The blobs of the secondary boot hook depend on the hook and on the three addresses of
the secondary boot protocol only. -/
theorem secondary_blobs_congr (t : Target) (info1 info : arm_boot_info) (st : LoaderState)
    (h5 : info1.smp_loader_start = info.smp_loader_start)
    (h6 : info1.smp_bootreg_addr = info.smp_bootreg_addr)
    (h7 : info1.gic_cpu_if_addr = info.gic_cpu_if_addr)
    (h9 : info1.write_secondary_boot
      = some (info.write_secondary_boot.getD SecondaryBoot.default_hook)) :
    secondary_blobs t info1 st = secondary_blobs t info st := by
  unfold secondary_blobs
  rw [h9, h5, patch_smpboot_congr t st.smpboot info1 info h6 h7]
  cases hh : info.write_secondary_boot with
  | none => rfl
  | some hook => cases hook <;> rfl

/-- Lines 304-314 in closed form, for a configuration `info1` that has gone through lines
258-266: the trampoline is registered, and with more than one CPU the hook is called
once. -/
theorem arm_load_kernel_blobs_eq (t : Target) (info1 info : arm_boot_info) (entry : Nat)
    (st : LoaderState)
    (h1 : info1.loader_start = info.loader_start) (h2 : info1.board_id = info.board_id)
    (h5 : info1.smp_loader_start = info.smp_loader_start)
    (h6 : info1.smp_bootreg_addr = info.smp_bootreg_addr)
    (h7 : info1.gic_cpu_if_addr = info.gic_cpu_if_addr)
    (h9 : info1.write_secondary_boot
      = some (info.write_secondary_boot.getD SecondaryBoot.default_hook)) :
    (arm_load_kernel_blobs t info1 entry st).roms
        = st.roms
          ++ MemOp.write info.loader_start
              (host_bytes t (patch_bootloader t st.bootloader info entry))
            :: (if 1 < info1.nb_cpus then secondary_blobs t info st else [])
      ∧ (arm_load_kernel_blobs t info1 entry st).secondary_boot_calls
        = st.secondary_boot_calls + (if 1 < info1.nb_cpus then 1 else 0)
      ∧ (arm_load_kernel_blobs t info1 entry st).bootloader
        = patch_bootloader t st.bootloader info entry
      ∧ (arm_load_kernel_blobs t info1 entry st).resets = st.resets := by
  rw [← secondary_blobs_congr t info1 info st h5 h6 h7 h9,
    ← patch_bootloader_congr t st.bootloader info1 info entry h2 h1, ← h1]
  unfold arm_load_kernel_blobs
  by_cases hn : 1 < info1.nb_cpus
  · have hn' : info1.nb_cpus > 1 := hn
    simp only [hn', hn, if_true]
    cases hh : info1.write_secondary_boot with
    | none => rw [hh] at h9; exact absurd h9 (by simp)
    | some hook =>
      cases hook with
      | default_hook =>
        simp [write_secondary_boot, hh, default_write_secondary_on, secondary_blobs]
      | board_hook blobs =>
        simp [write_secondary_boot, hh, secondary_blobs]
  · have hn' : ¬ info1.nb_cpus > 1 := hn
    simp only [hn', hn, if_false]
    simp

/-- A call that finds a kernel, and whose initrd (if one is named and wanted) loads,
returns with the entry point and the classification of the loader that succeeded. -/
theorem arm_load_kernel_returns (t : Target) (ld : Loaders) (ram_size : Nat) (envs : List Nat)
    (info : arm_boot_info) (st : LoaderState) (f : List Nat)
    (hf : info.kernel_filename = some f)
    (h : 0 ≤ (arm_load_kernel_image t ld ram_size info f).1)
    (hinitrd : ∀ i, info.initrd_filename = some i →
      0 ≤ ld.load_image_targphys i (t.paddr (info.loader_start + INITRD_LOAD_ADDR))
        ((ram_size : Int) - INITRD_LOAD_ADDR)) :
    (arm_load_kernel t ld ram_size envs info st).fatal = none
      ∧ (arm_load_kernel t ld ram_size envs info st).info.entry
        = (arm_load_kernel_image t ld ram_size info f).2.1
      ∧ (arm_load_kernel t ld ram_size envs info st).info.is_linux
        = decide ((arm_load_kernel_image t ld ram_size info f).2.2 ≠ 0) := by
  obtain ⟨-, c2, -, c4, c5⟩ := arm_load_kernel_cases t ld ram_size envs info st f hf
  by_cases h0 : (arm_load_kernel_image t ld ram_size info f).2.2 = 0
  · rw [c2 h h0, h0]
    exact ⟨rfl, rfl, rfl⟩
  · cases hi : info.initrd_filename with
    | none =>
      rw [c5 h h0 hi]
      exact ⟨rfl, rfl, rfl⟩
    | some i =>
      rw [c4 h h0 i hi (hinitrd i hi)]
      exact ⟨rfl, rfl, rfl⟩

/-- The kernel is not loaded exactly when all of the three loaders fail. -/
theorem arm_load_kernel_image_fails_iff (t : Target) (ld : Loaders) (ram_size : Nat)
    (info : arm_boot_info) (f : List Nat) :
    (arm_load_kernel_image t ld ram_size info f).1 < 0
      ↔ (ld.load_elf f).1 < 0
        ∧ (ld.load_uimage f (t.paddr (ld.load_elf f).2) (if strstr f vmlinux then 1 else 0)).1
            < 0
        ∧ ld.load_image_targphys f (t.paddr (info.loader_start + KERNEL_LOAD_ADDR))
            ((ram_size : Int) - KERNEL_LOAD_ADDR) < 0 := by
  by_cases he : (ld.load_elf f).1 < 0
  · by_cases hu : (ld.load_uimage f (t.paddr (ld.load_elf f).2)
        (if strstr f vmlinux then 1 else 0)).1 < 0
    · rw [arm_load_kernel_image_raw t ld ram_size info f he hu]
      simp only [he, hu, true_and]
    · rw [arm_load_kernel_image_uimage t ld ram_size info f he (by omega)]
      simp only [he, hu, true_and, false_and]
  · rw [arm_load_kernel_image_elf t ld ram_size info f (by omega)]
    simp only [he, false_and]

/-! ## The claims about `arm_load_kernel` -/

/-- C21: on an OS-style boot, the first blob `arm_load_kernel` registers is 28 bytes at
`loader_start`; read word by word in the guest's byte order it is the four instructions
followed by `board_id`, `loader_start + 0x100` and the entry point (as 32-bit words). The
static array holds its initial content before the call. -/
theorem arm_load_kernel_trampoline (t : Target) (ld : Loaders) (ram_size : Nat)
    (envs : List Nat) (info : arm_boot_info) (st : LoaderState)
    (hst : st.bootloader = bootloader)
    (hret : (arm_load_kernel t ld ram_size envs info st).fatal = none)
    (hlin : (arm_load_kernel t ld ram_size envs info st).info.is_linux = true) :
    ∃ bytes rest,
      (arm_load_kernel t ld ram_size envs info st).st.roms
          = st.roms ++ MemOp.write info.loader_start bytes :: rest
        ∧ bytes.length = 28
        ∧ ∀ (m : Mem) (i : Nat), i < 7 →
            ldl_phys t (MemOp.apply t m (MemOp.write info.loader_start bytes))
                (info.loader_start + 4 * i)
              = [0xe3a00000, 0xe59f1004, 0xe59f2004, 0xe59ff004, u32 info.board_id,
                  u32 (t.paddr (info.loader_start + KERNEL_ARGS_ADDR)),
                  u32 (arm_load_kernel t ld ram_size envs info st).info.entry].getD i 0 := by
  obtain ⟨d1, d2, -, -, d5, d6, d7, -, d9⟩ := arm_load_kernel_defaults_fields info
  rcases arm_load_kernel_outcome t ld ram_size envs info st with
    ⟨-, e⟩ | ⟨f, -, ⟨-, e⟩ | ⟨-, -, e⟩ | ⟨-, -, i, -, -, e⟩ | ⟨-, -, isz, -, e⟩⟩
  · rw [e] at hret
    exact absurd hret (by simp)
  · rw [e] at hret
    exact absurd hret (by simp)
  · rw [e] at hlin
    exact absurd hlin (by simp [arm_load_kernel_finish])
  · rw [e] at hret
    exact absurd hret (by simp)
  · rw [e]
    have hb := (arm_load_kernel_blobs_eq t
      { arm_load_kernel_defaults info with
        entry := (arm_load_kernel_image t ld ram_size info f).2.1 } info
      (arm_load_kernel_image t ld ram_size info f).2.1 st d1 d2 d5 d6 d7 d9).1
    rw [hst] at hb
    refine ⟨_, _, hb, ?_, ?_⟩
    · rw [host_bytes_length]
      simp [patch_bootloader, bootloader]
    · intro m i hi
      exact trampoline_words t info (arm_load_kernel_image t ld ram_size info f).2.1 m i hi

/-- C22: `arm_load_kernel` takes the first loader that succeeds, in the order ELF, legacy
image, raw. On ELF success `entry` is the ELF entry point and `is_linux` tells whether the
file name contains `"vmlinux"`; else on legacy-image success `entry` and `is_linux` are
those the legacy loader reports; else on raw success `entry` is `loader_start + 0x10000`
and `is_linux` is true. `entry` is a guest physical address; a named initrd loads. -/
theorem arm_load_kernel_first_success (t : Target) (ld : Loaders) (ram_size : Nat)
    (envs : List Nat) (info : arm_boot_info) (st : LoaderState) (f : List Nat)
    (hf : info.kernel_filename = some f)
    (hinitrd : ∀ i, info.initrd_filename = some i →
      0 ≤ ld.load_image_targphys i (t.paddr (info.loader_start + INITRD_LOAD_ADDR))
        ((ram_size : Int) - INITRD_LOAD_ADDR)) :
    (0 ≤ (ld.load_elf f).1 →
        (arm_load_kernel t ld ram_size envs info st).fatal = none
        ∧ (arm_load_kernel t ld ram_size envs info st).info.entry = t.paddr (ld.load_elf f).2
        ∧ (arm_load_kernel t ld ram_size envs info st).info.is_linux = strstr f vmlinux)
      ∧ ((ld.load_elf f).1 < 0 →
          0 ≤ (ld.load_uimage f (t.paddr (ld.load_elf f).2)
            (if strstr f vmlinux then 1 else 0)).1 →
          (arm_load_kernel t ld ram_size envs info st).fatal = none
          ∧ (arm_load_kernel t ld ram_size envs info st).info.entry
            = t.paddr (ld.load_uimage f (t.paddr (ld.load_elf f).2)
                (if strstr f vmlinux then 1 else 0)).2.1
          ∧ (arm_load_kernel t ld ram_size envs info st).info.is_linux
            = decide ((ld.load_uimage f (t.paddr (ld.load_elf f).2)
                (if strstr f vmlinux then 1 else 0)).2.2 ≠ 0))
      ∧ ((ld.load_elf f).1 < 0 →
          (ld.load_uimage f (t.paddr (ld.load_elf f).2)
            (if strstr f vmlinux then 1 else 0)).1 < 0 →
          0 ≤ ld.load_image_targphys f (t.paddr (info.loader_start + KERNEL_LOAD_ADDR))
            ((ram_size : Int) - KERNEL_LOAD_ADDR) →
          (arm_load_kernel t ld ram_size envs info st).fatal = none
          ∧ (arm_load_kernel t ld ram_size envs info st).info.entry
            = t.paddr (info.loader_start + 0x10000)
          ∧ (arm_load_kernel t ld ram_size envs info st).info.is_linux = true) := by
  refine ⟨?_, ?_, ?_⟩
  · intro he
    have himg := arm_load_kernel_image_elf t ld ram_size info f he
    have := arm_load_kernel_returns t ld ram_size envs info st f hf (by rw [himg]; exact he)
      hinitrd
    rw [himg] at this
    refine ⟨this.1, this.2.1, ?_⟩
    rw [this.2.2]
    cases strstr f vmlinux <;> simp
  · intro he hu
    have himg := arm_load_kernel_image_uimage t ld ram_size info f he hu
    have := arm_load_kernel_returns t ld ram_size envs info st f hf (by rw [himg]; exact hu)
      hinitrd
    rw [himg] at this
    exact this
  · intro he hu hr
    have himg := arm_load_kernel_image_raw t ld ram_size info f he hu
    have := arm_load_kernel_returns t ld ram_size envs info st f hf (by rw [himg]; exact hr)
      hinitrd
    rw [himg] at this
    refine ⟨this.1, this.2.1, ?_⟩
    rw [this.2.2]
    simp

/-- Witness for `arm_load_kernel_first_success`: an ELF file `"vmlinux"` with an initrd, a
legacy image `"kernel"` and a raw image `"kernel"`, each on its own loaders. -/
theorem arm_load_kernel_first_success_witness :
    ((arm_load_kernel arm_le32 elf_loaders 0x10000000 [0, 1, 2, 3] quad_info
          initial_state).fatal = none
        ∧ (arm_load_kernel arm_le32 elf_loaders 0x10000000 [0, 1, 2, 3] quad_info
            initial_state).info.entry = arm_le32.paddr 0x18000
        ∧ (arm_load_kernel arm_le32 elf_loaders 0x10000000 [0, 1, 2, 3] quad_info
            initial_state).info.is_linux = strstr vmlinux vmlinux)
      ∧ ((arm_load_kernel arm_le32 uimage_loaders 0x10000000 [0] stale_info
            initial_state).fatal = none
        ∧ (arm_load_kernel arm_le32 uimage_loaders 0x10000000 [0] stale_info
            initial_state).info.entry = arm_le32.paddr 0x28000
        ∧ (arm_load_kernel arm_le32 uimage_loaders 0x10000000 [0] stale_info
            initial_state).info.is_linux = decide ((0 : Int) ≠ 0))
      ∧ ((arm_load_kernel arm_le32 raw_loaders 0x10000000 [0] stale_info
            initial_state).fatal = none
        ∧ (arm_load_kernel arm_le32 raw_loaders 0x10000000 [0] stale_info
            initial_state).info.entry = arm_le32.paddr (stale_info.loader_start + 0x10000)
        ∧ (arm_load_kernel arm_le32 raw_loaders 0x10000000 [0] stale_info
            initial_state).info.is_linux = true) :=
  ⟨(arm_load_kernel_first_success arm_le32 elf_loaders 0x10000000 [0, 1, 2, 3] quad_info
      initial_state vmlinux rfl (fun _ _ => (by decide : (0 : Int) ≤ 0x1000))).1 (by decide),
    (arm_load_kernel_first_success arm_le32 uimage_loaders 0x10000000 [0] stale_info
      initial_state kernel_name rfl (fun _ _ => (by decide : (0 : Int) ≤ 0x1000))).2.1 (by decide) (by decide),
    (arm_load_kernel_first_success arm_le32 raw_loaders 0x10000000 [0] stale_info
      initial_state kernel_name rfl (fun _ _ => (by decide : (0 : Int) ≤ 0x1000))).2.2 (by decide) (by decide)
      (by decide)⟩

/-- Witness for `arm_load_kernel_trampoline`: the ELF file `"vmlinux"` loaded for the
four-CPU board `quad_info`. -/
theorem arm_load_kernel_trampoline_witness :
    initial_state.bootloader = bootloader
      ∧ (arm_load_kernel arm_le32 elf_loaders 0x10000000 [0, 1, 2, 3] quad_info
          initial_state).fatal = none
      ∧ (arm_load_kernel arm_le32 elf_loaders 0x10000000 [0, 1, 2, 3] quad_info
          initial_state).info.is_linux = true
      ∧ ∃ bytes rest,
        (arm_load_kernel arm_le32 elf_loaders 0x10000000 [0, 1, 2, 3] quad_info
            initial_state).st.roms
          = initial_state.roms ++ MemOp.write quad_info.loader_start bytes :: rest
        ∧ bytes.length = 28
        ∧ ∀ (m : Mem) (i : Nat), i < 7 →
            ldl_phys arm_le32
                (MemOp.apply arm_le32 m (MemOp.write quad_info.loader_start bytes))
                (quad_info.loader_start + 4 * i)
              = [0xe3a00000, 0xe59f1004, 0xe59f2004, 0xe59ff004, u32 quad_info.board_id,
                  u32 (arm_le32.paddr (quad_info.loader_start + KERNEL_ARGS_ADDR)),
                  u32 (arm_load_kernel arm_le32 elf_loaders 0x10000000 [0, 1, 2, 3] quad_info
                    initial_state).info.entry].getD i 0 :=
  ⟨rfl, by decide, by decide,
    arm_load_kernel_trampoline arm_le32 elf_loaders 0x10000000 [0, 1, 2, 3] quad_info
      initial_state rfl (by decide) (by decide)⟩

/-- C23: `arm_load_kernel` ends in `exit(1)` exactly when no kernel file is named, or the
ELF, legacy-image and raw loaders all fail, or the image is OS-style, an initrd is named
and loading it fails. On such an exit the state is the one before the call: no reset
callback and no blob has been registered. When one of the three loaders succeeds and a
named initrd loads, the call returns. -/
theorem arm_load_kernel_fatal_iff (t : Target) (ld : Loaders) (ram_size : Nat)
    (envs : List Nat) (info : arm_boot_info) (st : LoaderState) :
    ((arm_load_kernel t ld ram_size envs info st).fatal ≠ none ↔
        info.kernel_filename = none
        ∨ (∃ f, info.kernel_filename = some f
            ∧ (ld.load_elf f).1 < 0
            ∧ (ld.load_uimage f (t.paddr (ld.load_elf f).2)
                (if strstr f vmlinux then 1 else 0)).1 < 0
            ∧ ld.load_image_targphys f (t.paddr (info.loader_start + KERNEL_LOAD_ADDR))
                ((ram_size : Int) - KERNEL_LOAD_ADDR) < 0)
        ∨ (∃ f i, info.kernel_filename = some f
            ∧ (arm_load_kernel_image t ld ram_size info f).2.2 ≠ 0
            ∧ info.initrd_filename = some i
            ∧ ld.load_image_targphys i (t.paddr (info.loader_start + INITRD_LOAD_ADDR))
                ((ram_size : Int) - INITRD_LOAD_ADDR) < 0))
      ∧ ((arm_load_kernel t ld ram_size envs info st).fatal ≠ none →
          (arm_load_kernel t ld ram_size envs info st).st = st
          ∧ (arm_load_kernel t ld ram_size envs info st).st.resets = st.resets)
      ∧ (∀ f, info.kernel_filename = some f →
          (0 ≤ (ld.load_elf f).1
            ∨ 0 ≤ (ld.load_uimage f (t.paddr (ld.load_elf f).2)
                (if strstr f vmlinux then 1 else 0)).1
            ∨ 0 ≤ ld.load_image_targphys f (t.paddr (info.loader_start + KERNEL_LOAD_ADDR))
                ((ram_size : Int) - KERNEL_LOAD_ADDR)) →
          (∀ i, info.initrd_filename = some i →
            0 ≤ ld.load_image_targphys i (t.paddr (info.loader_start + INITRD_LOAD_ADDR))
              ((ram_size : Int) - INITRD_LOAD_ADDR)) →
          (arm_load_kernel t ld ram_size envs info st).fatal = none) := by
  refine ⟨⟨?_, ?_⟩, ?_, ?_⟩
  · intro hfat
    rcases arm_load_kernel_outcome t ld ram_size envs info st with
      ⟨hk, -⟩ | ⟨f, hf, ⟨h, -⟩ | ⟨-, -, e⟩ | ⟨-, h0, i, hi, hl, -⟩ | ⟨-, -, isz, -, e⟩⟩
    · exact Or.inl hk
    · exact Or.inr (Or.inl ⟨f, hf, (arm_load_kernel_image_fails_iff t ld ram_size info f).1 h⟩)
    · rw [e] at hfat
      exact absurd rfl hfat
    · exact Or.inr (Or.inr ⟨f, i, hf, h0, hi, hl⟩)
    · rw [e] at hfat
      exact absurd rfl hfat
  · rintro (hk | ⟨f, hf, h⟩ | ⟨f, i, hf, h0, hi, hl⟩)
    · simp only [arm_load_kernel, hk]
      simp
    · obtain ⟨c1, -⟩ := arm_load_kernel_cases t ld ram_size envs info st f hf
      rw [c1 ((arm_load_kernel_image_fails_iff t ld ram_size info f).2 h)]
      simp
    · obtain ⟨c1, -, c3, -⟩ := arm_load_kernel_cases t ld ram_size envs info st f hf
      by_cases h : (arm_load_kernel_image t ld ram_size info f).1 < 0
      · rw [c1 h]
        simp
      · rw [c3 (by omega) h0 i hi hl]
        simp
  · intro hfat
    rcases arm_load_kernel_outcome t ld ram_size envs info st with
      ⟨-, e⟩ | ⟨f, -, ⟨-, e⟩ | ⟨-, -, e⟩ | ⟨-, -, i, -, -, e⟩ | ⟨-, -, isz, -, e⟩⟩
    · rw [e]
      exact ⟨rfl, rfl⟩
    · rw [e]
      exact ⟨rfl, rfl⟩
    · rw [e] at hfat
      exact absurd rfl hfat
    · rw [e]
      exact ⟨rfl, rfl⟩
    · rw [e] at hfat
      exact absurd rfl hfat
  · intro f hf hok hinitrd
    have h : 0 ≤ (arm_load_kernel_image t ld ram_size info f).1 := by
      have := arm_load_kernel_image_fails_iff t ld ram_size info f
      by_contra hc
      have h3 := this.1 (by omega)
      omega
    exact (arm_load_kernel_returns t ld ram_size envs info st f hf h hinitrd).1

/-- Witness for `arm_load_kernel_fatal_iff`: with loaders that all fail the call is fatal
and the state is unchanged; with a raw image that loads the call returns. -/
theorem arm_load_kernel_fatal_iff_witness :
    (arm_load_kernel arm_le32 failing_loaders 0x10000000 [0] stale_info initial_state).fatal
        ≠ none
      ∧ ((arm_load_kernel arm_le32 failing_loaders 0x10000000 [0] stale_info
            initial_state).st = initial_state
        ∧ (arm_load_kernel arm_le32 failing_loaders 0x10000000 [0] stale_info
            initial_state).st.resets = initial_state.resets)
      ∧ (arm_load_kernel arm_le32 raw_loaders 0x10000000 [0] stale_info initial_state).fatal
        = none :=
  ⟨by decide,
    (arm_load_kernel_fatal_iff arm_le32 failing_loaders 0x10000000 [0] stale_info
      initial_state).2.1 (by decide),
    (arm_load_kernel_fatal_iff arm_le32 raw_loaders 0x10000000 [0] stale_info
      initial_state).2.2 kernel_name rfl (Or.inr (Or.inr (by decide)))
      (fun _ h => Option.noConfusion h)⟩

/-- C24, the claim refuted: an ELF file named `"kernel"` is loaded with no initrd for a
configuration whose `initrd_size` held 5 before the call; the call returns and
`initrd_size` is still 5. -/
theorem initrd_size_counterexample :
    (arm_load_kernel arm_le32 elf_loaders 0x10000000 [0] stale_info initial_state).fatal = none
      ∧ stale_info.initrd_filename = none
      ∧ stale_info.initrd_size = 5
      ∧ (arm_load_kernel arm_le32 elf_loaders 0x10000000 [0] stale_info
          initial_state).info.initrd_size = 5 := by
  decide

/-- C24, as the code has it: after a call that returns with an OS-style image,
`initrd_size` is 0 when no initrd is named, whatever it held before, and the size the
loader returned when an initrd is named; after a call that returns with an image that
is not OS-style, `initrd_size` is what it was before the call. -/
theorem arm_load_kernel_initrd_size (t : Target) (ld : Loaders) (ram_size : Nat)
    (envs : List Nat) (info : arm_boot_info) (st : LoaderState)
    (hret : (arm_load_kernel t ld ram_size envs info st).fatal = none) :
    ((arm_load_kernel t ld ram_size envs info st).info.is_linux = true →
        info.initrd_filename = none →
        (arm_load_kernel t ld ram_size envs info st).info.initrd_size = 0)
      ∧ ((arm_load_kernel t ld ram_size envs info st).info.is_linux = true →
          ∀ i, info.initrd_filename = some i →
          ((arm_load_kernel t ld ram_size envs info st).info.initrd_size : Int)
            = ld.load_image_targphys i (t.paddr (info.loader_start + INITRD_LOAD_ADDR))
                ((ram_size : Int) - INITRD_LOAD_ADDR))
      ∧ ((arm_load_kernel t ld ram_size envs info st).info.is_linux = false →
          (arm_load_kernel t ld ram_size envs info st).info.initrd_size = info.initrd_size) := by
  obtain ⟨-, -, -, d4, -⟩ := arm_load_kernel_defaults_fields info
  rcases arm_load_kernel_outcome t ld ram_size envs info st with
    ⟨-, e⟩ | ⟨f, -, ⟨-, e⟩ | ⟨-, -, e⟩ | ⟨-, -, i, -, -, e⟩ | ⟨-, h0, isz, hisz, e⟩⟩
  · rw [e] at hret
    exact absurd hret (by simp)
  · rw [e] at hret
    exact absurd hret (by simp)
  · rw [e]
    refine ⟨fun h => absurd h (by simp [arm_load_kernel_finish]),
      fun h => absurd h (by simp [arm_load_kernel_finish]), fun _ => d4⟩
  · rw [e] at hret
    exact absurd hret (by simp)
  · rw [e]
    refine ⟨?_, ?_, fun h => absurd h (by simp [arm_load_kernel_finish, h0])⟩
    · intro _ hn
      rcases hisz with ⟨-, hz⟩ | ⟨i, hi, -⟩
      · exact hz
      · rw [hn] at hi
        exact absurd hi (by simp)
    · intro _ i hi
      rcases hisz with ⟨hn, -⟩ | ⟨j, hj, hz⟩
      · rw [hn] at hi
        exact absurd hi (by simp)
      · rw [hi] at hj
        have : i = j := by simpa using hj
        subst this
        exact hz

/-- Witness for `arm_load_kernel_initrd_size`: the ELF file `"vmlinux"` with no initrd on
a configuration whose `initrd_size` held 5, the same file with an initrd of `0x1000`
bytes, and the ELF file `"kernel"`. -/
theorem arm_load_kernel_initrd_size_witness :
    (arm_load_kernel arm_le32 elf_loaders 0x10000000 [0]
          { stale_info with kernel_filename := some vmlinux } initial_state).info.initrd_size = 0
      ∧ ((arm_load_kernel arm_le32 elf_loaders 0x10000000 [0, 1, 2, 3] quad_info
            initial_state).info.initrd_size : Int) = 0x1000
      ∧ (arm_load_kernel arm_le32 elf_loaders 0x10000000 [0] stale_info
          initial_state).info.initrd_size = stale_info.initrd_size :=
  ⟨(arm_load_kernel_initrd_size arm_le32 elf_loaders 0x10000000 [0]
      { stale_info with kernel_filename := some vmlinux } initial_state (by decide)).1
      (by decide) rfl,
    (arm_load_kernel_initrd_size arm_le32 elf_loaders 0x10000000 [0, 1, 2, 3] quad_info
      initial_state (by decide)).2.1 (by decide) kernel_name rfl,
    (arm_load_kernel_initrd_size arm_le32 elf_loaders 0x10000000 [0] stale_info
      initial_state (by decide)).2.2 (by decide)⟩

/-- C25: a call of `arm_load_kernel` that returns has replaced a CPU count of 0 by 1. For
an image that is not OS-style it has registered no blob and has not called
`write_secondary_boot`. For an OS-style image it has registered the trampoline at
`loader_start`, once, and has called `write_secondary_boot` once if there is more than
one CPU and not at all otherwise; the blobs registered are the trampoline followed by
those of the hook. -/
theorem arm_load_kernel_registers (t : Target) (ld : Loaders) (ram_size : Nat)
    (envs : List Nat) (info : arm_boot_info) (st : LoaderState)
    (hret : (arm_load_kernel t ld ram_size envs info st).fatal = none) :
    (arm_load_kernel t ld ram_size envs info st).info.nb_cpus
        = (if info.nb_cpus = 0 then 1 else info.nb_cpus)
      ∧ ((arm_load_kernel t ld ram_size envs info st).info.is_linux = false →
          (arm_load_kernel t ld ram_size envs info st).st.roms = st.roms
          ∧ (arm_load_kernel t ld ram_size envs info st).st.secondary_boot_calls
            = st.secondary_boot_calls)
      ∧ ((arm_load_kernel t ld ram_size envs info st).info.is_linux = true →
          (arm_load_kernel t ld ram_size envs info st).st.roms
            = st.roms
              ++ MemOp.write info.loader_start
                  (host_bytes t (patch_bootloader t st.bootloader info
                    (arm_load_kernel t ld ram_size envs info st).info.entry))
                :: (if 1 < (arm_load_kernel t ld ram_size envs info st).info.nb_cpus then
                      secondary_blobs t info st
                    else [])
          ∧ (arm_load_kernel t ld ram_size envs info st).st.secondary_boot_calls
            = st.secondary_boot_calls
              + (if 1 < (arm_load_kernel t ld ram_size envs info st).info.nb_cpus then 1
                 else 0)) := by
  obtain ⟨d1, d2, -, -, d5, d6, d7, d8, d9⟩ := arm_load_kernel_defaults_fields info
  rcases arm_load_kernel_outcome t ld ram_size envs info st with
    ⟨-, e⟩ | ⟨f, -, ⟨-, e⟩ | ⟨-, -, e⟩ | ⟨-, -, i, -, -, e⟩ | ⟨-, h0, isz, -, e⟩⟩
  · rw [e] at hret
    exact absurd hret (by simp)
  · rw [e] at hret
    exact absurd hret (by simp)
  · rw [e]
    exact ⟨d8, fun _ => ⟨rfl, rfl⟩, fun h => absurd h (by simp [arm_load_kernel_finish])⟩
  · rw [e] at hret
    exact absurd hret (by simp)
  · rw [e]
    obtain ⟨b1, b2, -, -⟩ := arm_load_kernel_blobs_eq t
      { arm_load_kernel_defaults info with
        entry := (arm_load_kernel_image t ld ram_size info f).2.1 } info
      (arm_load_kernel_image t ld ram_size info f).2.1 st d1 d2 d5 d6 d7 d9
    exact ⟨d8, fun h => absurd h (by simp [arm_load_kernel_finish, h0]), fun _ => ⟨b1, b2⟩⟩

/-- Witness for `arm_load_kernel_registers`: the ELF file `"vmlinux"` on the four-CPU
board registers the trampoline and the spin loop of the default hook; the ELF file
`"kernel"` registers nothing. -/
theorem arm_load_kernel_registers_witness :
    ((arm_load_kernel arm_le32 elf_loaders 0x10000000 [0] stale_info initial_state).st.roms
          = initial_state.roms
        ∧ (arm_load_kernel arm_le32 elf_loaders 0x10000000 [0] stale_info
            initial_state).st.secondary_boot_calls = initial_state.secondary_boot_calls)
      ∧ ((arm_load_kernel arm_le32 elf_loaders 0x10000000 [0, 1, 2, 3] quad_info
            initial_state).st.roms
          = initial_state.roms
            ++ MemOp.write quad_info.loader_start
                (host_bytes arm_le32 (patch_bootloader arm_le32 initial_state.bootloader
                  quad_info
                  (arm_load_kernel arm_le32 elf_loaders 0x10000000 [0, 1, 2, 3] quad_info
                    initial_state).info.entry))
              :: (if 1 < (arm_load_kernel arm_le32 elf_loaders 0x10000000 [0, 1, 2, 3]
                    quad_info initial_state).info.nb_cpus then
                    secondary_blobs arm_le32 quad_info initial_state
                  else [])
        ∧ (arm_load_kernel arm_le32 elf_loaders 0x10000000 [0, 1, 2, 3] quad_info
            initial_state).st.secondary_boot_calls
          = initial_state.secondary_boot_calls
            + (if 1 < (arm_load_kernel arm_le32 elf_loaders 0x10000000 [0, 1, 2, 3] quad_info
                  initial_state).info.nb_cpus then 1
               else 0)) :=
  ⟨(arm_load_kernel_registers arm_le32 elf_loaders 0x10000000 [0] stale_info initial_state
      (by decide)).2.1 (by decide),
    (arm_load_kernel_registers arm_le32 elf_loaders 0x10000000 [0, 1, 2, 3] quad_info
      initial_state (by decide)).2.2 (by decide)⟩


/-! ## Encoding the blobs twice in one process -/

theorem patch_bootloader_twice (t : Target) (info : arm_boot_info) (entry : Nat) :
    patch_bootloader t bootloader info entry
        = [tswap32 t 0xe3a00000, tswap32 t 0xe59f1004, tswap32 t 0xe59f2004,
            tswap32 t 0xe59ff004, tswap32 t (u32 info.board_id),
            tswap32 t (u32 (t.paddr (info.loader_start + KERNEL_ARGS_ADDR))),
            tswap32 t (u32 entry)]
      ∧ patch_bootloader t (patch_bootloader t bootloader info entry) info entry
        = [tswap32 t (tswap32 t 0xe3a00000), tswap32 t (tswap32 t 0xe59f1004),
            tswap32 t (tswap32 t 0xe59f2004), tswap32 t (tswap32 t 0xe59ff004),
            tswap32 t (u32 info.board_id),
            tswap32 t (u32 (t.paddr (info.loader_start + KERNEL_ARGS_ADDR))),
            tswap32 t (u32 entry)] := by
  constructor <;> simp [patch_bootloader, bootloader]

theorem patch_smpboot_twice (t : Target) (info : arm_boot_info) :
    patch_smpboot t smpboot info
        = [tswap32 t 0xe59f201c, tswap32 t 0xe59f001c, tswap32 t 0xe3a01001,
            tswap32 t 0xe5821000, tswap32 t 0xe320f003, tswap32 t 0xe5901000,
            tswap32 t 0xe1110001, tswap32 t 0x0afffffb, tswap32 t 0xe12fff11,
            tswap32 t (u32 info.gic_cpu_if_addr), tswap32 t (u32 info.smp_bootreg_addr)]
      ∧ patch_smpboot t (patch_smpboot t smpboot info) info
        = [tswap32 t (tswap32 t 0xe59f201c), tswap32 t (tswap32 t 0xe59f001c),
            tswap32 t (tswap32 t 0xe3a01001), tswap32 t (tswap32 t 0xe5821000),
            tswap32 t (tswap32 t 0xe320f003), tswap32 t (tswap32 t 0xe5901000),
            tswap32 t (tswap32 t 0xe1110001), tswap32 t (tswap32 t 0x0afffffb),
            tswap32 t (tswap32 t 0xe12fff11),
            tswap32 t (u32 info.gic_cpu_if_addr), tswap32 t (u32 info.smp_bootreg_addr)] := by
  constructor <;> simp [patch_smpboot, smpboot]

theorem tswap32_swap (t : Target) (h : t.host_words_bigendian ≠ t.words_bigendian) (v : Nat) :
    tswap32 t v = bswap32 v := by
  unfold tswap32
  rw [if_pos]
  simpa using h

theorem tswap32_id (t : Target) (h : t.host_words_bigendian = t.words_bigendian) (v : Nat) :
    tswap32 t v = v := by
  unfold tswap32
  rw [if_neg]
  simp [h]

/-- Two successive calls of lines 304-314 with the default hook and more than one CPU:
the arrays and the four blobs registered. -/
theorem arm_load_kernel_blobs_twice (t : Target) (info : arm_boot_info) (entry : Nat)
    (hhook : info.write_secondary_boot = some SecondaryBoot.default_hook)
    (hn : 1 < info.nb_cpus) :
    (arm_load_kernel_blobs t info entry initial_state).bootloader
        = patch_bootloader t bootloader info entry
      ∧ (arm_load_kernel_blobs t info entry initial_state).smpboot
        = patch_smpboot t smpboot info
      ∧ (arm_load_kernel_blobs t info entry initial_state).roms
        = [MemOp.write info.loader_start
            (host_bytes t (patch_bootloader t bootloader info entry)),
           MemOp.write info.smp_loader_start (host_bytes t (patch_smpboot t smpboot info))]
      ∧ (arm_load_kernel_blobs t info entry
          (arm_load_kernel_blobs t info entry initial_state)).bootloader
        = patch_bootloader t (patch_bootloader t bootloader info entry) info entry
      ∧ (arm_load_kernel_blobs t info entry
          (arm_load_kernel_blobs t info entry initial_state)).smpboot
        = patch_smpboot t (patch_smpboot t smpboot info) info
      ∧ (arm_load_kernel_blobs t info entry
          (arm_load_kernel_blobs t info entry initial_state)).roms
        = (arm_load_kernel_blobs t info entry initial_state).roms
          ++ [MemOp.write info.loader_start
                (host_bytes t
                  (patch_bootloader t (patch_bootloader t bootloader info entry) info entry)),
              MemOp.write info.smp_loader_start
                (host_bytes t (patch_smpboot t (patch_smpboot t smpboot info) info))] := by
  have hn' : info.nb_cpus > 1 := hn
  simp [arm_load_kernel_blobs, write_secondary_boot, default_write_secondary_on, initial_state,
    hhook, hn']

theorem host_bytes_cons (t : Target) (w : Nat) (ws : List Nat) :
    host_bytes t (w :: ws) = word_bytes t.host_words_bigendian w ++ host_bytes t ws := by
  simp [host_bytes]

/-- Byte arrays of word arrays whose first words have different bytes are different. -/
theorem host_bytes_ne (t : Target) (a b : Nat) (l1 l2 : List Nat)
    (h : word_bytes t.host_words_bigendian a ≠ word_bytes t.host_words_bigendian b) :
    host_bytes t (a :: l1) ≠ host_bytes t (b :: l2) := by
  intro he
  rw [host_bytes_cons, host_bytes_cons] at he
  exact h (List.append_inj_left he (by rw [word_bytes_length, word_bytes_length]))

/-- C27: the arrays `bootloader[]` and `smpboot[]` are static and converted in place. When
`tswap32` is a byte swap, a second encoding in the same process leaves the fixed
instruction words swapped twice, that is as they are written in the source and
different from the words of the first encoding, and the two blobs it registers differ
from those the first encoding registered for the same configuration. When `tswap32` is
the identity, the second encoding registers the same two blobs again. -/
theorem blobs_encoded_twice (t : Target) (info : arm_boot_info) (entry : Nat)
    (hhook : info.write_secondary_boot = some SecondaryBoot.default_hook)
    (hn : 1 < info.nb_cpus) :
    (t.host_words_bigendian ≠ t.words_bigendian →
        (∀ i, i < 4 →
          (arm_load_kernel_blobs t info entry
              (arm_load_kernel_blobs t info entry initial_state)).bootloader.getD i 0
            = bootloader.getD i 0
          ∧ (arm_load_kernel_blobs t info entry initial_state).bootloader.getD i 0
            = bswap32 (bootloader.getD i 0)
          ∧ bswap32 (bootloader.getD i 0) ≠ bootloader.getD i 0)
        ∧ (∀ i, i < 9 →
          (arm_load_kernel_blobs t info entry
              (arm_load_kernel_blobs t info entry initial_state)).smpboot.getD i 0
            = smpboot.getD i 0
          ∧ (arm_load_kernel_blobs t info entry initial_state).smpboot.getD i 0
            = bswap32 (smpboot.getD i 0)
          ∧ bswap32 (smpboot.getD i 0) ≠ smpboot.getD i 0)
        ∧ ∃ b1 s1 b2 s2,
          (arm_load_kernel_blobs t info entry initial_state).roms
              = [MemOp.write info.loader_start b1, MemOp.write info.smp_loader_start s1]
            ∧ (arm_load_kernel_blobs t info entry
                (arm_load_kernel_blobs t info entry initial_state)).roms
              = [MemOp.write info.loader_start b1, MemOp.write info.smp_loader_start s1,
                 MemOp.write info.loader_start b2, MemOp.write info.smp_loader_start s2]
            ∧ b2 ≠ b1 ∧ s2 ≠ s1)
      ∧ (t.host_words_bigendian = t.words_bigendian →
          ∃ b1 s1,
            (arm_load_kernel_blobs t info entry initial_state).roms
                = [MemOp.write info.loader_start b1, MemOp.write info.smp_loader_start s1]
              ∧ (arm_load_kernel_blobs t info entry
                  (arm_load_kernel_blobs t info entry initial_state)).roms
                = [MemOp.write info.loader_start b1, MemOp.write info.smp_loader_start s1,
                   MemOp.write info.loader_start b1, MemOp.write info.smp_loader_start s1]) := by
  obtain ⟨a1, a2, a3, a4, a5, a6⟩ := arm_load_kernel_blobs_twice t info entry hhook hn
  obtain ⟨p1, p2⟩ := patch_bootloader_twice t info entry
  obtain ⟨q1, q2⟩ := patch_smpboot_twice t info
  have c0 : bswap32 0xe3a00000 = 0xa0e3 := by decide
  have c1 : bswap32 0xe59f1004 = 0x04109fe5 := by decide
  have c2 : bswap32 0xe59f2004 = 0x04209fe5 := by decide
  have c3 : bswap32 0xe59ff004 = 0x04f09fe5 := by decide
  have c0' : bswap32 0xa0e3 = 0xe3a00000 := by decide
  have c1' : bswap32 0x04109fe5 = 0xe59f1004 := by decide
  have c2' : bswap32 0x04209fe5 = 0xe59f2004 := by decide
  have c3' : bswap32 0x04f09fe5 = 0xe59ff004 := by decide
  have k0 : bswap32 0xe59f201c = 0x1c209fe5 := by decide
  have k1 : bswap32 0xe59f001c = 0x1c009fe5 := by decide
  have k2 : bswap32 0xe3a01001 = 0x0110a0e3 := by decide
  have k3 : bswap32 0xe5821000 = 0x001082e5 := by decide
  have k4 : bswap32 0xe320f003 = 0x03f020e3 := by decide
  have k5 : bswap32 0xe5901000 = 0x001090e5 := by decide
  have k6 : bswap32 0xe1110001 = 0x010011e1 := by decide
  have k7 : bswap32 0x0afffffb = 0xfbffff0a := by decide
  have k8 : bswap32 0xe12fff11 = 0x11ff2fe1 := by decide
  have k0' : bswap32 0x1c209fe5 = 0xe59f201c := by decide
  have k1' : bswap32 0x1c009fe5 = 0xe59f001c := by decide
  have k2' : bswap32 0x0110a0e3 = 0xe3a01001 := by decide
  have k3' : bswap32 0x001082e5 = 0xe5821000 := by decide
  have k4' : bswap32 0x03f020e3 = 0xe320f003 := by decide
  have k5' : bswap32 0x001090e5 = 0xe5901000 := by decide
  have k6' : bswap32 0x010011e1 = 0xe1110001 := by decide
  have k7' : bswap32 0xfbffff0a = 0x0afffffb := by decide
  have k8' : bswap32 0x11ff2fe1 = 0xe12fff11 := by decide
  constructor
  · intro hsw
    have ts := tswap32_swap t hsw
    refine ⟨?_, ?_, _, _,
      host_bytes t (patch_bootloader t (patch_bootloader t bootloader info entry) info entry),
      host_bytes t (patch_smpboot t (patch_smpboot t smpboot info) info), a3, ?_, ?_, ?_⟩
    · intro i hi
      rw [a4, a1, p2, p1]
      simp only [ts, c0, c1, c2, c3, c0', c1', c2', c3']
      interval_cases i <;> simp [bootloader, c0, c1, c2, c3]
    · intro i hi
      rw [a5, a2, q2, q1]
      simp only [ts, k0, k1, k2, k3, k4, k5, k6, k7, k8, k0', k1', k2', k3', k4', k5', k6', k7',
        k8']
      interval_cases i <;> simp [smpboot, k0, k1, k2, k3, k4, k5, k6, k7, k8]
    · rw [a6, a3]
      rfl
    · rw [p2, p1, ts, ts, c0, c0']
      apply host_bytes_ne
      cases t.host_words_bigendian <;> decide
    · rw [q2, q1, ts, ts, k0, k0']
      apply host_bytes_ne
      cases t.host_words_bigendian <;> decide
  · intro hid
    have ti := tswap32_id t hid
    refine ⟨_, _, a3, ?_⟩
    rw [a6, a3, p2, p1, q2, q1]
    simp only [ti]
    rfl

/-- Witness for `blobs_encoded_twice`: the four-CPU board `quad_info` after lines 258-266,
for a big-endian guest on a little-endian host and for a little-endian guest on a
little-endian host. -/
theorem blobs_encoded_twice_witness :
    (arm_load_kernel_defaults quad_info).write_secondary_boot
        = some SecondaryBoot.default_hook
      ∧ 1 < (arm_load_kernel_defaults quad_info).nb_cpus
      ∧ (∃ b1 s1 b2 s2,
          (arm_load_kernel_blobs ⟨32, true, false⟩ (arm_load_kernel_defaults quad_info) 0x18000
              initial_state).roms
            = [MemOp.write (arm_load_kernel_defaults quad_info).loader_start b1,
               MemOp.write (arm_load_kernel_defaults quad_info).smp_loader_start s1]
          ∧ (arm_load_kernel_blobs ⟨32, true, false⟩ (arm_load_kernel_defaults quad_info)
              0x18000
              (arm_load_kernel_blobs ⟨32, true, false⟩ (arm_load_kernel_defaults quad_info)
                0x18000 initial_state)).roms
            = [MemOp.write (arm_load_kernel_defaults quad_info).loader_start b1,
               MemOp.write (arm_load_kernel_defaults quad_info).smp_loader_start s1,
               MemOp.write (arm_load_kernel_defaults quad_info).loader_start b2,
               MemOp.write (arm_load_kernel_defaults quad_info).smp_loader_start s2]
          ∧ b2 ≠ b1 ∧ s2 ≠ s1)
      ∧ ∃ b1 s1,
          (arm_load_kernel_blobs arm_le32 (arm_load_kernel_defaults quad_info) 0x18000
              initial_state).roms
            = [MemOp.write (arm_load_kernel_defaults quad_info).loader_start b1,
               MemOp.write (arm_load_kernel_defaults quad_info).smp_loader_start s1]
          ∧ (arm_load_kernel_blobs arm_le32 (arm_load_kernel_defaults quad_info) 0x18000
              (arm_load_kernel_blobs arm_le32 (arm_load_kernel_defaults quad_info) 0x18000
                initial_state)).roms
            = [MemOp.write (arm_load_kernel_defaults quad_info).loader_start b1,
               MemOp.write (arm_load_kernel_defaults quad_info).smp_loader_start s1,
               MemOp.write (arm_load_kernel_defaults quad_info).loader_start b1,
               MemOp.write (arm_load_kernel_defaults quad_info).smp_loader_start s1] :=
  ⟨rfl, by decide,
    ((blobs_encoded_twice ⟨32, true, false⟩ (arm_load_kernel_defaults quad_info) 0x18000 rfl
      (by decide)).1 (by decide)).2.2,
    (blobs_encoded_twice arm_le32 (arm_load_kernel_defaults quad_info) 0x18000 rfl
      (by decide)).2 rfl⟩

/-! ## The command-line record holds its string -/

/-- C26: for a non-empty command line of length `n`, the `ATAG_CMDLINE` record has
`4 * ((n >> 2) + 1) ≥ n + 1` payload bytes; the string and its NUL are written at the
record address + 8 and end inside the record the size word announces; no other access
of `set_kernel_args`, so neither the header of the next record nor the terminator,
touches one of these `n + 1` bytes; and they are read back from the memory the function
leaves. -/
theorem cmdline_record_holds_string (t : Target) (info : arm_boot_info)
    (atag_board_buf : Nat → Nat) (m : Mem) (wf : WellFormed t info atag_board_buf)
    (c : Nat) (cs : List Nat) (hc : info.kernel_cmdline = some (c :: cs)) :
    strlen (c :: cs) + 1 ≤ 4 * ((strlen (c :: cs) >>> 2) + 1)
      ∧ MemOp.write (cmdline_addr info + 8) ((c :: cs) ++ [0])
          ∈ set_kernel_args t info atag_board_buf
      ∧ ldl_phys t (run_ops t m (set_kernel_args t info atag_board_buf)) (cmdline_addr info)
        = (strlen (c :: cs) >>> 2) + 1 + 2
      ∧ ldl_phys t (run_ops t m (set_kernel_args t info atag_board_buf))
          (cmdline_addr info + 4) = ATAG_CMDLINE
      ∧ cmdline_addr info + 8 + (strlen (c :: cs) + 1)
        ≤ cmdline_addr info + 4 * ((strlen (c :: cs) >>> 2) + 1 + 2)
      ∧ (∀ op ∈ set_kernel_args t info atag_board_buf,
          op ≠ MemOp.write (cmdline_addr info + 8) ((c :: cs) ++ [0]) →
          op.lo + op.len ≤ cmdline_addr info + 8
            ∨ cmdline_addr info + 8 + (strlen (c :: cs) + 1) ≤ op.lo)
      ∧ ∀ i, i ≤ strlen (c :: cs) →
          run_ops t m (set_kernel_args t info atag_board_buf) (cmdline_addr info + 8 + i)
            = ((c :: cs) ++ [0]).getD i 0 := by
  have hsh : strlen (c :: cs) >>> 2 = strlen (c :: cs) / 4 := by
    rw [Nat.shiftRight_eq_div_pow]
  have hlen := wf.cmdline_len _ hc
  have hmem : MemOp.write (cmdline_addr info + 8) ((c :: cs) ++ [0])
      ∈ set_kernel_args t info atag_board_buf := by
    rw [set_kernel_args_eq t info atag_board_buf wf]
    simp [cmdline_ops, hc]
  have hsize : MemOp.stl (cmdline_addr info) (strlen (c :: cs) / 4 + 3)
      ∈ set_kernel_args t info atag_board_buf := by
    rw [set_kernel_args_eq t info atag_board_buf wf]
    simp [cmdline_ops, hc]
  have htag : MemOp.stl (cmdline_addr info + 4) ATAG_CMDLINE
      ∈ set_kernel_args t info atag_board_buf := by
    rw [set_kernel_args_eq t info atag_board_buf wf]
    simp [cmdline_ops, hc]
  have hpw := set_kernel_args_pairwise t info atag_board_buf wf
  refine ⟨by rw [hsh]; omega, hmem, ?_, ?_, by rw [hsh]; omega, ?_, ?_⟩
  · rw [hsh]
    exact set_kernel_args_ldl t info atag_board_buf m wf _ _ hsize (by omega)
  · exact set_kernel_args_ldl t info atag_board_buf m wf _ _ htag (by decide)
  · intro op hop hne
    have hsym : Symmetric MemOp.Disjoint := fun a b h => Or.symm h
    have hd := hpw.forall hsym hop hmem hne
    unfold MemOp.Disjoint at hd
    simp only [MemOp.lo, MemOp.len, List.length_append, List.length_cons, List.length_nil,
      strlen] at hd ⊢
    omega
  · intro i hi
    exact set_kernel_args_bytes t info atag_board_buf m wf _ _ hmem i
      (by simp only [strlen, List.length_cons] at hi; simp; omega)

/-- Witness for `cmdline_record_holds_string`: the command line `"console=ttyAMA0"` of
`full_info`. -/
theorem cmdline_record_holds_string_witness :
    WellFormed arm_le32 full_info zero_bytes
      ∧ full_info.kernel_cmdline = some (99 :: console_cmdline.tail)
      ∧ strlen (99 :: console_cmdline.tail) + 1
        ≤ 4 * ((strlen (99 :: console_cmdline.tail) >>> 2) + 1)
      ∧ MemOp.write (cmdline_addr full_info + 8) ((99 :: console_cmdline.tail) ++ [0])
          ∈ set_kernel_args arm_le32 full_info zero_bytes
      ∧ 15 ≤ strlen (99 :: console_cmdline.tail)
      ∧ run_ops arm_le32 zero_bytes (set_kernel_args arm_le32 full_info zero_bytes)
            (cmdline_addr full_info + 8 + 15)
          = ((99 :: console_cmdline.tail) ++ [0]).getD 15 0 :=
  ⟨full_info_wf, rfl,
    (cmdline_record_holds_string arm_le32 full_info zero_bytes zero_bytes full_info_wf 99
      console_cmdline.tail rfl).1,
    (cmdline_record_holds_string arm_le32 full_info zero_bytes zero_bytes full_info_wf 99
      console_cmdline.tail rfl).2.1,
    by decide,
    (cmdline_record_holds_string arm_le32 full_info zero_bytes zero_bytes full_info_wf 99
      console_cmdline.tail rfl).2.2.2.2.2.2 15 (by decide)⟩

/-! ## The zero-fill loop of the legacy block -/

/-- The function `set_kernel_args_old` up to its loop: the 23 fixed words, then the
zero-fill loop, then the command line. -/
theorem set_kernel_args_old_writer_eq (t : Target) (info : arm_boot_info) (fuel : Nat) :
    set_kernel_args_old_writer t info fuel
      = (zero_unused_fields t (t.paddr (info.loader_start + KERNEL_ARGS_ADDR + 256 + 1024)) fuel
          (write_words t ⟨t.paddr (info.loader_start + KERNEL_ARGS_ADDR), []⟩
            (legacy_fixed_values t info))).map
        (fun w =>
          match info.kernel_cmdline with
          | some s => w.write w.p (s ++ [0])
          | none => WRITE_WORD t w 0) := by
  unfold set_kernel_args_old_writer legacy_fixed_values write_words
  by_cases hi : info.initrd_size = 0
  · simp only [hi, ne_eq, not_true_eq_false, if_false]
    rfl
  · simp only [hi, ne_eq, not_false_eq_true, if_true]
    rfl

/-- The loop does not end before its condition has been tested once more than there are
words to write. -/
theorem zero_unused_fields_none (t : Target) (bound n : Nat) (fuel : Nat) (w : Writer)
    (hb : w.p + 4 * n = bound) (hlt : bound < 2 ^ t.phys_addr_bits) (hf : fuel ≤ n) :
    zero_unused_fields t bound fuel w = none := by
  induction fuel generalizing w n with
  | zero => rfl
  | succ k ih =>
    obtain ⟨n', rfl⟩ : ∃ n', n = n' + 1 := ⟨n - 1, by omega⟩
    have hlt' : w.p < bound := by omega
    have e4 := t.paddr_eq (w.p + 4) (by omega)
    have hw : WRITE_WORD t w 0 = ⟨w.p + 4, w.ops ++ [MemOp.stl w.p 0]⟩ := by
      simp [WRITE_WORD, e4, u32]
    simp only [zero_unused_fields, hlt', if_true]
    exact ih n' (WRITE_WORD t w 0) (by rw [hw]; dsimp only; omega) (by omega)

/-- C28: when `loader_start + 0x100 + 1280` does not wrap around the guest physical
address space, the zero-fill loop of `set_kernel_args_old` starts with the write pointer
at byte offset 92 of the block, ends after exactly 297 word writes, that is at the 298th
test of its condition and not before, with the write pointer at
`loader_start + 0x100 + 1280`; every word it writes is 0. -/
theorem zero_unused_fields_terminates (t : Target) (info : arm_boot_info) (ops : List MemOp)
    (h : info.loader_start + KERNEL_ARGS_ADDR + 1280 < 2 ^ t.phys_addr_bits) :
    (∀ fuel, set_kernel_args_old_writer t info fuel
        = (zero_unused_fields t (t.paddr (info.loader_start + KERNEL_ARGS_ADDR + 256 + 1024))
            fuel
            (write_words t ⟨t.paddr (info.loader_start + KERNEL_ARGS_ADDR), []⟩
              (legacy_fixed_values t info))).map
          (fun w =>
            match info.kernel_cmdline with
            | some s => w.write w.p (s ++ [0])
            | none => WRITE_WORD t w 0))
      ∧ (write_words t ⟨t.paddr (info.loader_start + KERNEL_ARGS_ADDR), []⟩
          (legacy_fixed_values t info)).p = info.loader_start + KERNEL_ARGS_ADDR + 92
      ∧ (∀ fuel, 298 ≤ fuel →
          zero_unused_fields t (t.paddr (info.loader_start + KERNEL_ARGS_ADDR + 256 + 1024)) fuel
              ⟨info.loader_start + KERNEL_ARGS_ADDR + 92, ops⟩
            = some ⟨info.loader_start + KERNEL_ARGS_ADDR + 1280,
                ops ++ word_stores (info.loader_start + KERNEL_ARGS_ADDR + 92)
                  (List.replicate 297 0)⟩)
      ∧ (word_stores (info.loader_start + KERNEL_ARGS_ADDR + 92)
          (List.replicate 297 0)).length = 297
      ∧ (∀ fuel, fuel < 298 →
          zero_unused_fields t (t.paddr (info.loader_start + KERNEL_ARGS_ADDR + 256 + 1024)) fuel
              ⟨info.loader_start + KERNEL_ARGS_ADDR + 92, ops⟩
            = none) := by
  have e0 : t.paddr (info.loader_start + KERNEL_ARGS_ADDR)
      = info.loader_start + KERNEL_ARGS_ADDR := t.paddr_eq _ (by omega)
  have eb : t.paddr (info.loader_start + KERNEL_ARGS_ADDR + 256 + 1024)
      = info.loader_start + KERNEL_ARGS_ADDR + 1280 := by
    rw [t.paddr_eq _ (by omega)]
  have hlen : (legacy_fixed_values t info).length = 23 := by simp [legacy_fixed_values]
  refine ⟨set_kernel_args_old_writer_eq t info, ?_, ?_, ?_, ?_⟩
  · rw [e0, write_words_eq t _ _ (by dsimp only; rw [hlen]; omega), hlen]
  · intro fuel hf
    rw [eb]
    exact zero_unused_fields_eq t _ 297 fuel _ (by dsimp only) h (by omega)
  · rw [word_stores_length, List.length_replicate]
  · intro fuel hf
    rw [eb]
    exact zero_unused_fields_none t _ 297 fuel _ (by dsimp only) h (by omega)

/-- Witness for `zero_unused_fields_terminates`: the block at `0x8100`. -/
theorem zero_unused_fields_terminates_witness :
    full_info.loader_start + KERNEL_ARGS_ADDR + 1280 < 2 ^ arm_le32.phys_addr_bits
      ∧ zero_unused_fields arm_le32
          (arm_le32.paddr (full_info.loader_start + KERNEL_ARGS_ADDR + 256 + 1024)) 298
          ⟨full_info.loader_start + KERNEL_ARGS_ADDR + 92, []⟩
        = some ⟨full_info.loader_start + KERNEL_ARGS_ADDR + 1280,
            [] ++ word_stores (full_info.loader_start + KERNEL_ARGS_ADDR + 92)
              (List.replicate 297 0)⟩
      ∧ zero_unused_fields arm_le32
          (arm_le32.paddr (full_info.loader_start + KERNEL_ARGS_ADDR + 256 + 1024)) 297
          ⟨full_info.loader_start + KERNEL_ARGS_ADDR + 92, []⟩
        = none :=
  ⟨by decide,
    (zero_unused_fields_terminates arm_le32 full_info [] (by decide)).2.2.1 298 (by decide),
    (zero_unused_fields_terminates arm_le32 full_info [] (by decide)).2.2.2.2 297
      (by decide)⟩


end ArmBoot

namespace S3C24xx

/-! ## Register indices of the GPIO controller -/

/-- C29, at its failing input: for the guest address `0xBC` (the register `GSTATUS4`) the
index with which `s3c24xx_gpio_write_f` and `s3c24xx_gpio_read_f` access `gpio_reg` is
47, which is not below the 47 elements of the array; the clamping bounds every index by
47 and not by 46. -/
theorem gpio_index_past_the_end :
    s3c24xx_gpio_write_index 0xBC = 47
      ∧ s3c24xx_gpio_read_index 0xBC = 47
      ∧ ¬ (s3c24xx_gpio_write_index 0xBC < gpio_reg_len)
      ∧ ¬ (s3c24xx_gpio_read_index 0xBC < gpio_reg_len)
      ∧ GPRN S3C_GPIO_GSTATUS4 = 47
      ∧ ∀ addr_, s3c24xx_gpio_write_index addr_ ≤ 47 ∧ s3c24xx_gpio_read_index addr_ ≤ 47 := by
  refine ⟨by decide, by decide, by decide, by decide, by decide, ?_⟩
  intro addr_
  constructor
  · unfold s3c24xx_gpio_write_index
    dsimp only
    split <;> omega
  · unfold s3c24xx_gpio_read_index
    have : GPRN S3C_GPIO_GSTATUS4 = 47 := by decide
    rw [this]
    dsimp only
    split <;> omega

/-! ## Writes to the external-interrupt registers -/

theorem testBit_not32 (v k : Nat) (hk : k < 32) :
    (not32 (ArmBoot.u32 v)).testBit k = !v.testBit k := by
  have e : (0xffffffff : Nat) = 2 ^ 32 - 1 := by norm_num
  unfold not32 ArmBoot.u32
  rw [e, Nat.testBit_xor, Nat.testBit_two_pow_sub_one, Nat.testBit_mod_two_pow]
  simp [hk]

theorem testBit_and_fffffff0 (v k : Nat) (hk : k < 32) :
    (ArmBoot.u32 v &&& 0xfffffff0).testBit k = (decide (4 ≤ k) && v.testBit k) := by
  have e : (0xfffffff0 : Nat) = (2 ^ 32 - 1) ^^^ (2 ^ 4 - 1) := by decide
  unfold ArmBoot.u32
  rw [e, Nat.testBit_and, Nat.testBit_xor, Nat.testBit_two_pow_sub_one,
    Nat.testBit_two_pow_sub_one, Nat.testBit_mod_two_pow]
  by_cases h4 : 4 ≤ k
  · have : ¬ k < 4 := by omega
    simp [hk, h4, this]
  · have : k < 4 := by omega
    simp [hk, h4, this]

/-- Bit `i` of `x` is set exactly when `x & (1 << i)` is not zero. -/
theorem and_one_shiftLeft_ne_zero (x i : Nat) : x &&& (1 <<< i) ≠ 0 ↔ x.testBit i = true := by
  rw [Nat.one_shiftLeft]
  constructor
  · intro h
    by_contra hc
    apply h
    apply Nat.eq_of_testBit_eq
    intro j
    rw [Nat.testBit_and, Nat.testBit_two_pow, Nat.zero_testBit]
    by_cases hij : i = j
    · subst hij
      simp [hc]
    · simp [hij]
  · intro h h0
    have := congrArg (fun n => n.testBit i) h0
    simp [Nat.testBit_and, Nat.testBit_two_pow_self, h] at this

/-- C30: a write of `v` to `EINT_PEND` (offset `0xA8`) makes the register `old & ~v`,
bit by bit "old and not v", and leaves every other register as it was. A write of `v` to
`EINT_MASK` (offset `0xA4`) stores `v` with its low four bits cleared and leaves every
other register as it was, so that after it the lines of EINT0 to EINT3 follow the
pending bits. -/
theorem eint_write (s : s3c24xx_gpio_state_s) (v : Nat) :
    (∀ i, (s3c24xx_gpio_write_f s 0xA8 v).gpio_reg i
        = if i = 42 then s.gpio_reg 42 &&& not32 (ArmBoot.u32 v) else s.gpio_reg i)
      ∧ (∀ k, k < 32 →
          ((s3c24xx_gpio_write_f s 0xA8 v).gpio_reg 42).testBit k
            = ((s.gpio_reg 42).testBit k && !v.testBit k))
      ∧ (∀ i, (s3c24xx_gpio_write_f s 0xA4 v).gpio_reg i
          = if i = 41 then ArmBoot.u32 v &&& 0xfffffff0 else s.gpio_reg i)
      ∧ (∀ k, k < 32 →
          ((s3c24xx_gpio_write_f s 0xA4 v).gpio_reg 41).testBit k
            = (decide (4 ≤ k) && v.testBit k))
      ∧ (∀ i, i < 4 →
          (s3c24xx_gpio_write_f s 0xA4 v).irq_level i
            = if (s.gpio_reg 42).testBit i then 1 else 0) := by
  have i8 : s3c24xx_gpio_write_index 0xA8 = 42 := by decide
  have i4 : s3c24xx_gpio_write_index 0xA4 = 41 := by decide
  have m : S3C_GPIO_EINT_MASK >>> 2 = 41 := by decide
  have p : S3C_GPIO_EINT_PEND >>> 2 = 42 := by decide
  have hpend : ∀ i, (s3c24xx_gpio_write_f s 0xA8 v).gpio_reg i
      = if i = 42 then s.gpio_reg 42 &&& not32 (ArmBoot.u32 v) else s.gpio_reg i := by
    intro i
    simp [s3c24xx_gpio_write_f, i8, m, p, s3c24xx_gpio_propogate_eint,
      s3c24xx_gpio_state_s.set_reg]
  have hmask : ∀ i, (s3c24xx_gpio_write_f s 0xA4 v).gpio_reg i
      = if i = 41 then ArmBoot.u32 v &&& 0xfffffff0 else s.gpio_reg i := by
    intro i
    simp [s3c24xx_gpio_write_f, i4, m, p, s3c24xx_gpio_propogate_eint,
      s3c24xx_gpio_state_s.set_reg]
  refine ⟨hpend, ?_, hmask, ?_, ?_⟩
  · intro k hk
    rw [hpend 42, if_pos rfl, Nat.testBit_and, testBit_not32 v k hk]
  · intro k hk
    rw [hmask 41, if_pos rfl, testBit_and_fffffff0 v k hk]
  · intro i hi
    have hl : (s3c24xx_gpio_write_f s 0xA4 v).irq_level i
        = if (s.gpio_reg 42 &&& not32 (ArmBoot.u32 v &&& 0xfffffff0)) &&& (1 <<< i) ≠ 0 then 1
          else 0 := by
      simp [s3c24xx_gpio_write_f, i4, m, p, s3c24xx_gpio_propogate_eint,
        s3c24xx_gpio_state_s.set_reg, GPR, hi]
    rw [hl]
    have hb : (s.gpio_reg 42 &&& not32 (ArmBoot.u32 v &&& 0xfffffff0)).testBit i
        = (s.gpio_reg 42).testBit i := by
      have e : (0xffffffff : Nat) = 2 ^ 32 - 1 := by norm_num
      have hlt : i < 32 := by omega
      have h4 : ¬ 4 ≤ i := by omega
      rw [Nat.testBit_and]
      unfold not32
      rw [e, Nat.testBit_xor, Nat.testBit_two_pow_sub_one, testBit_and_fffffff0 v i hlt]
      simp [hlt, h4]
    by_cases hbit : (s.gpio_reg 42).testBit i = true
    · rw [if_pos hbit, if_pos]
      exact (and_one_shiftLeft_ne_zero _ _).2 (by rw [hb]; exact hbit)
    · rw [if_neg hbit, if_neg]
      intro h
      exact hbit (by rw [← hb]; exact (and_one_shiftLeft_ne_zero _ _).1 h)

/-- Witness for `eint_write`: the value `0x11` written to the two registers of
`example_gpio`. -/
theorem eint_write_witness :
    ((s3c24xx_gpio_write_f example_gpio 0xA8 0x11).gpio_reg 42).testBit 0
        = ((example_gpio.gpio_reg 42).testBit 0 && !(0x11 : Nat).testBit 0)
      ∧ ((s3c24xx_gpio_write_f example_gpio 0xA4 0x11).gpio_reg 41).testBit 4
        = (decide (4 ≤ 4) && (0x11 : Nat).testBit 4)
      ∧ (s3c24xx_gpio_write_f example_gpio 0xA4 0x11).irq_level 1
        = if (example_gpio.gpio_reg 42).testBit 1 then 1 else 0 :=
  ⟨(eint_write example_gpio 0x11).2.1 0 (by decide),
    (eint_write example_gpio 0x11).2.2.2.1 4 (by decide),
    (eint_write example_gpio 0x11).2.2.2.2 1 (by decide)⟩

end S3C24xx

namespace BCM2835

/-! ## The receive FIFO of the mini UART -/

set_option maxRecDepth 8000 in
/-- C31, at its failing input: eight characters fill the FIFO and a break event then
makes `read_count` 9; when this happens with `read_pos = 7`, the slot the next
`bcm2835_aux_put_fifo` writes is 8, outside the 8-entry FIFO. -/
theorem aux_fifo_overflow :
    (aux_run aux_reset (List.replicate 8 (AuxOp.receive 0x41))).read_count = 8
      ∧ (aux_run aux_reset overflow_ops).read_count = 9
      ∧ ¬ aux_bounds (aux_run aux_reset overflow_ops)
      ∧ (aux_run aux_reset wrapped_overflow_ops).read_pos = 7
      ∧ (aux_run aux_reset wrapped_overflow_ops).read_count = 9
      ∧ bcm2835_aux_put_slot (aux_run aux_reset wrapped_overflow_ops) = 8 := by
  refine ⟨by decide, by decide, ?_, by decide, by decide, by decide⟩
  intro h
  have h9 : (aux_run aux_reset overflow_ops).read_count = 9 := by decide
  have := h.2.2.2
  omega

/-- Writing the slot that follows `n < 8` waiting entries appends to them. -/
theorem fifo_entries_push (fifo : Int → Nat) (v : Nat) (n : Nat) :
    ∀ (pos slot : Int), 0 ≤ pos → pos < 8 → n < 8 → slot = (pos + n) % 8 →
      fifo_entries (fun i => if i = slot then v else fifo i) pos (n + 1)
        = fifo_entries fifo pos n ++ [v] := by
  induction n with
  | zero =>
    intro pos slot h0 h8 _ hs
    have : slot = pos := by omega
    simp [fifo_entries, this]
  | succ n ih =>
    intro pos slot h0 h8 hn hs
    have hne : pos ≠ slot := by omega
    have := ih ((pos + 1) % 8) slot (by omega) (by omega) (by omega) (by omega)
    rw [fifo_entries, this]
    simp [fifo_entries, hne]

/-- A push into a FIFO that can receive keeps the bounds and appends to the characters
waiting. -/
theorem bcm2835_aux_put_fifo_pending (s : BCM2835_AUXState) (v : Nat) (hb : aux_bounds s)
    (hc : bcm2835_aux_can_receive s = true) :
    aux_bounds (bcm2835_aux_put_fifo s v)
      ∧ aux_pending (bcm2835_aux_put_fifo s v) = aux_pending s ++ [ArmBoot.u32 v]
      ∧ (bcm2835_aux_put_fifo s v).read_count = s.read_count + 1
      ∧ (bcm2835_aux_put_fifo s v).read_pos = s.read_pos
      ∧ 0 ≤ bcm2835_aux_put_slot s ∧ bcm2835_aux_put_slot s < 8 := by
  obtain ⟨h0, h8, c0, c8⟩ := hb
  have hlt : s.read_count < 8 := by simpa [bcm2835_aux_can_receive] using hc
  have hslot : bcm2835_aux_put_slot s = (s.read_pos + s.read_count) % 8 := by
    unfold bcm2835_aux_put_slot
    dsimp only
    split <;> omega
  refine ⟨⟨h0, h8, ?_, ?_⟩, ?_, rfl, rfl, by omega, by omega⟩
  · show 0 ≤ s.read_count + 1
    omega
  · show s.read_count + 1 ≤ 8
    omega
  · unfold aux_pending
    have e1 : (bcm2835_aux_put_fifo s v).read_count.toNat = s.read_count.toNat + 1 := by
      show (s.read_count + 1).toNat = s.read_count.toNat + 1
      omega
    rw [e1]
    exact fifo_entries_push s.read_fifo (ArmBoot.u32 v) s.read_count.toNat s.read_pos
      (bcm2835_aux_put_slot s) h0 h8 (by omega)
      (by rw [hslot, Int.toNat_of_nonneg c0])

/-- A read of `AUX_MU_IO_REG` from a FIFO that is not empty returns the oldest character
waiting and removes it. -/
theorem bcm2835_aux_read_pending (s : BCM2835_AUXState) (offset : Nat)
    (ho : offset >>> 2 = 16) (hb : aux_bounds s) (hc : 0 < s.read_count) :
    aux_bounds (bcm2835_aux_read s offset).1
      ∧ aux_pending s = (bcm2835_aux_read s offset).2 :: aux_pending (bcm2835_aux_read s offset).1
      ∧ (bcm2835_aux_read s offset).1.read_count = s.read_count - 1
      ∧ (bcm2835_aux_read s offset).2 = s.read_fifo s.read_pos := by
  obtain ⟨h0, h8, c0, c8⟩ := hb
  have hc' : s.read_count > 0 := hc
  obtain ⟨n, hn⟩ : ∃ n : Nat, s.read_count.toNat = n + 1 := ⟨s.read_count.toNat - 1, by omega⟩
  have hn' : (s.read_count - 1).toNat = n := by omega
  by_cases h7 : s.read_pos + 1 = 8
  · have hp : (s.read_pos + 1) % 8 = 0 := by omega
    simp only [bcm2835_aux_read, ho, if_true, hc', h7]
    refine ⟨⟨by simp, by simp, by dsimp only; omega, by dsimp only; omega⟩, ?_,
      trivial, trivial⟩
    unfold aux_pending
    dsimp only
    rw [hn, hn', fifo_entries, hp]
  · have hp : (s.read_pos + 1) % 8 = s.read_pos + 1 := by omega
    simp only [bcm2835_aux_read, ho, if_true, hc', h7, if_false]
    refine ⟨⟨by dsimp only; omega, by dsimp only; omega, by dsimp only; omega,
      by dsimp only; omega⟩, ?_, trivial, trivial⟩
    unfold aux_pending
    dsimp only
    rw [hn, hn', fifo_entries, hp]

/-- A read from an empty FIFO changes nothing. -/
theorem bcm2835_aux_read_empty (s : BCM2835_AUXState) (offset : Nat)
    (hc : s.read_count = 0) :
    (bcm2835_aux_read s offset).1 = s := by
  have : ¬ s.read_count > 0 := by omega
  unfold bcm2835_aux_read
  dsimp only
  split
  · simp only [this, if_false]
  · split <;> rfl

/-- Values pushed while the FIFO can receive are appended in order. -/
theorem aux_put_all_pending (vs : List Nat) :
    ∀ s : BCM2835_AUXState, aux_bounds s → s.read_count + vs.length ≤ 8 →
      aux_bounds (aux_put_all s vs)
        ∧ aux_pending (aux_put_all s vs) = aux_pending s ++ vs.map ArmBoot.u32
        ∧ (aux_put_all s vs).read_count = s.read_count + vs.length := by
  induction vs with
  | nil =>
    intro s hb _
    simp [aux_put_all, hb]
  | cons v vs ih =>
    intro s hb hl
    simp only [List.length_cons, Nat.cast_add, Nat.cast_one] at hl
    have hc : bcm2835_aux_can_receive s = true := by
      simp only [bcm2835_aux_can_receive, decide_eq_true_eq]
      omega
    obtain ⟨b1, p1, c1, -⟩ := bcm2835_aux_put_fifo_pending s v hb hc
    obtain ⟨b2, p2, c2⟩ := ih (bcm2835_aux_put_fifo s v) b1 (by rw [c1]; omega)
    have e : aux_put_all s (v :: vs) = aux_put_all (bcm2835_aux_put_fifo s v) vs := rfl
    rw [e]
    refine ⟨b2, ?_, ?_⟩
    · rw [p2, p1]
      simp
    · rw [c2, c1]
      simp only [List.length_cons, Nat.cast_add, Nat.cast_one]
      omega

/-- Successive reads return the characters waiting, oldest first. -/
theorem aux_read_n_pending (n : Nat) :
    ∀ s : BCM2835_AUXState, aux_bounds s → (n : Int) ≤ s.read_count →
      aux_bounds (aux_read_n s n).1
        ∧ aux_pending s = (aux_read_n s n).2 ++ aux_pending (aux_read_n s n).1
        ∧ (aux_read_n s n).2.length = n
        ∧ (aux_read_n s n).1.read_count = s.read_count - n := by
  induction n with
  | zero =>
    intro s hb _
    simp [aux_read_n, hb]
  | succ n ih =>
    intro s hb hl
    simp only [Nat.cast_add, Nat.cast_one] at hl
    obtain ⟨b1, p1, c1, -⟩ := bcm2835_aux_read_pending s 0x40 (by decide) hb (by omega)
    obtain ⟨b2, p2, l2, c2⟩ := ih (bcm2835_aux_read s 0x40).1 b1 (by rw [c1]; omega)
    simp only [aux_read_n]
    refine ⟨b2, ?_, ?_, ?_⟩
    · rw [p1, p2]
      simp
    · simp [l2]
    · rw [c2, c1]
      simp only [Nat.cast_add, Nat.cast_one]
      omega

theorem aux_pending_empty (s : BCM2835_AUXState) (h : s.read_count = 0) :
    aux_pending s = [] := by
  unfold aux_pending
  rw [h]
  rfl

/-- C32: values pushed with `bcm2835_aux_put_fifo` while `bcm2835_aux_can_receive` holds
come back from successive reads of `AUX_MU_IO_REG` in the order they were pushed, each
once: a push appends to the characters waiting and a read removes the oldest, so after
`vs` is pushed into an empty FIFO, as many reads as values return exactly `vs` (as
32-bit values) and leave the FIFO empty; a read with `read_count == 0` leaves
`read_pos` and `read_count` unchanged. -/
theorem aux_fifo_order (s : BCM2835_AUXState) (vs : List Nat) (hb : aux_bounds s)
    (hempty : s.read_count = 0) (hlen : vs.length ≤ 8) :
    (∀ k, k < vs.length → bcm2835_aux_can_receive (aux_put_all s (vs.take k)) = true)
      ∧ aux_pending (aux_put_all s vs) = vs.map ArmBoot.u32
      ∧ (aux_read_n (aux_put_all s vs) vs.length).2 = vs.map ArmBoot.u32
      ∧ (aux_read_n (aux_put_all s vs) vs.length).1.read_count = 0
      ∧ (∀ (s1 : BCM2835_AUXState) (v : Nat), aux_bounds s1 →
          bcm2835_aux_can_receive s1 = true →
          aux_pending (bcm2835_aux_put_fifo s1 v) = aux_pending s1 ++ [ArmBoot.u32 v])
      ∧ (∀ (s1 : BCM2835_AUXState) (offset : Nat), offset >>> 2 = 16 → aux_bounds s1 →
          0 < s1.read_count →
          aux_pending s1
            = (bcm2835_aux_read s1 offset).2 :: aux_pending (bcm2835_aux_read s1 offset).1)
      ∧ (∀ (s1 : BCM2835_AUXState) (offset : Nat), s1.read_count = 0 →
          (bcm2835_aux_read s1 offset).1.read_pos = s1.read_pos
          ∧ (bcm2835_aux_read s1 offset).1.read_count = s1.read_count) := by
  obtain ⟨b1, p1, c1⟩ := aux_put_all_pending vs s hb (by rw [hempty]; omega)
  rw [aux_pending_empty s hempty, List.nil_append] at p1
  obtain ⟨b2, p2, l2, c2⟩ := aux_read_n_pending vs.length (aux_put_all s vs) b1
    (by rw [c1, hempty]; omega)
  have hz : (aux_read_n (aux_put_all s vs) vs.length).1.read_count = 0 := by
    rw [c2, c1, hempty]
    omega
  rw [aux_pending_empty _ hz, List.append_nil, p1] at p2
  refine ⟨?_, p1, p2.symm, hz, ?_, ?_, ?_⟩
  · intro k hk
    have := (aux_put_all_pending (vs.take k) s hb
      (by rw [hempty, List.length_take]; omega)).2.2
    simp only [bcm2835_aux_can_receive, decide_eq_true_eq]
    rw [this, hempty, List.length_take]
    omega
  · intro s1 v hb1 hc1
    exact (bcm2835_aux_put_fifo_pending s1 v hb1 hc1).2.1
  · intro s1 offset ho hb1 hc1
    exact (bcm2835_aux_read_pending s1 offset ho hb1 hc1).2.1
  · intro s1 offset h0
    rw [bcm2835_aux_read_empty s1 offset h0]
    exact ⟨rfl, rfl⟩

/-- Witness for `aux_fifo_order`: three values pushed into the FIFO of a device just
created. -/
theorem aux_fifo_order_witness :
    aux_bounds aux_reset
      ∧ aux_reset.read_count = 0
      ∧ [0x41, 0x42, 0x400].length ≤ 8
      ∧ bcm2835_aux_can_receive (aux_put_all aux_reset ([0x41, 0x42, 0x400].take 2)) = true
      ∧ (aux_read_n (aux_put_all aux_reset [0x41, 0x42, 0x400]) [0x41, 0x42, 0x400].length).2
        = [0x41, 0x42, 0x400].map ArmBoot.u32
      ∧ (aux_read_n (aux_put_all aux_reset [0x41, 0x42, 0x400])
          [0x41, 0x42, 0x400].length).1.read_count = 0
      ∧ ((bcm2835_aux_read aux_reset 0x40).1.read_pos = aux_reset.read_pos
        ∧ (bcm2835_aux_read aux_reset 0x40).1.read_count = aux_reset.read_count) :=
  ⟨by decide, rfl, by decide,
    (aux_fifo_order aux_reset [0x41, 0x42, 0x400] (by decide) rfl (by decide)).1 2 (by decide),
    (aux_fifo_order aux_reset [0x41, 0x42, 0x400] (by decide) rfl (by decide)).2.2.1,
    (aux_fifo_order aux_reset [0x41, 0x42, 0x400] (by decide) rfl (by decide)).2.2.2.1,
    (aux_fifo_order aux_reset [0x41, 0x42, 0x400] (by decide) rfl (by decide)).2.2.2.2.2.2
      aux_reset 0x40 rfl⟩

/-! ## The loop over the tags of a property request -/

theorem property_tag_board_model (env : PropertyEnv) (w : PropertyWorld) (value : Nat) :
    property_tag env w value 0x00010001 = (w, 4) := by
  rfl

/-- A tag "Get board model" whose value-buffer size is `0xFFFFFFF4` is processed again
and again: the cursor comes back to the tag, and the loop uses up any fuel. -/
theorem property_loop_spins (env : PropertyEnv) (tot_len a : Nat) (ha : a + 12 ≤ 2 ^ 32) :
    ∀ (fuel : Nat) (w : PropertyWorld),
      ArmBoot.u32 (a + 8) ≤ ArmBoot.u32 (w.addr + tot_len) →
      ldl env w a = 0x00010001 →
      ldl env w (ArmBoot.u32 (a + 4)) = 0xFFFFFFF4 →
      property_loop env tot_len fuel w a = none := by
  have e4 : ArmBoot.u32 (a + 4) = a + 4 := Nat.mod_eq_of_lt (by omega)
  have e8 : ArmBoot.u32 (a + 8) = a + 8 := Nat.mod_eq_of_lt (by omega)
  have eb : ArmBoot.u32 (a + 0xFFFFFFF4 + 12) = a := by
    unfold ArmBoot.u32
    omega
  intro fuel
  induction fuel with
  | zero => intro w _ _ _; rfl
  | succ fuel ih =>
    intro w hc htag hbuf
    have h0 : ¬ (0x00010001 : Nat) = 0 := by decide
    simp only [property_loop, hc, if_true, htag, hbuf, property_tag_board_model, h0, if_false,
      eb]
    apply ih
    · exact hc
    · unfold ldl stl at *
      dsimp only
      rw [e8, ArmBoot.ldl_stl_outside _ _ _ _ _ (by omega)]
      exact htag
    · unfold ldl stl at *
      dsimp only
      rw [e8, e4, ArmBoot.ldl_stl_outside _ _ _ _ _ (by omega)]
      rw [e4] at hbuf
      exact hbuf

/-- C33, at its failing input: for the request `looping_request`, whose first tag has
the value-buffer size `0xFFFFFFF4`, the 32-bit cursor is `0x1008` again after the tag
(`0x1008 + 0xFFFFFFF4 + 12` is `0x1008` modulo `2^32`), the tag is not the end tag and
the cursor has not passed the end of the request: the loop of
`bcm2835_property_mbox_push` does not end, whatever the fuel. A request with a
value-buffer size of 4 is processed in three tests of the loop condition. -/
theorem property_loop_never_ends :
    (∀ fuel, bcm2835_property_mbox_push example_platform fuel looping_request 0x1000 = none)
      ∧ ArmBoot.u32 (0x1008 + 0xFFFFFFF4 + 12) = 0x1008
      ∧ ldl example_platform looping_request 0x1008 ≠ 0
      ∧ (bcm2835_property_mbox_push example_platform 3 model_request 0x1000).isSome = true := by
  have hm : ∀ a v, ArmBoot.MemOp.stl a v ∈
      [ArmBoot.MemOp.stl 0x1000 0x20, ArmBoot.MemOp.stl 0x1008 0x00010001,
        ArmBoot.MemOp.stl 0x100c 0xFFFFFFF4] → v < 2 ^ 32 →
      ArmBoot.ldl_phys ⟨32, false, false⟩ looping_request.mem a = v := by
    intro a v hmem hv
    exact ArmBoot.run_ops_ldl _ _ _
      (by simp [ArmBoot.MemOp.Disjoint, ArmBoot.MemOp.lo, ArmBoot.MemOp.len]) a v hmem hv
  have h0 := hm 0x1000 0x20 (by simp) (by norm_num)
  have h8 := hm 0x1008 0x00010001 (by simp) (by norm_num)
  have hc := hm 0x100c 0xFFFFFFF4 (by simp) (by norm_num)
  have l8 : ldl example_platform looping_request 0x1008 = 0x00010001 := by
    unfold ldl
    show ArmBoot.u32 (ArmBoot.ldl_phys ⟨32, false, false⟩ looping_request.mem 0x1008) = _
    rw [h8]
    decide
  refine ⟨?_, by decide, by rw [l8]; decide, ?_⟩
  · intro fuel
    have hv : (if ArmBoot.u32 0x1000 &&& 0xfffffff0 > 0xc0000000 then
        (ArmBoot.u32 0x1000 &&& 0xfffffff0) - 0xc0000000
        else ArmBoot.u32 0x1000 &&& 0xfffffff0) = 0x1000 := by decide
    have hs := property_loop_spins example_platform 0x20 0x1008 (by norm_num) fuel
      { looping_request with addr := 0x1000 } (by decide)
      (by
        unfold ldl
        show ArmBoot.u32 (ArmBoot.ldl_phys ⟨32, false, false⟩ looping_request.mem 0x1008) = _
        rw [h8]
        decide)
      (by
        unfold ldl
        show ArmBoot.u32 (ArmBoot.ldl_phys ⟨32, false, false⟩ looping_request.mem
          (ArmBoot.u32 (0x1008 + 4))) = _
        have : ArmBoot.u32 (0x1008 + 4) = 0x100c := by decide
        rw [this, hc]
        decide)
    have ht : ldl example_platform { looping_request with addr := 0x1000 } 0x1000 = 0x20 := by
      unfold ldl
      show ArmBoot.u32 (ArmBoot.ldl_phys ⟨32, false, false⟩ looping_request.mem 0x1000) = _
      rw [h0]
      decide
    have ha : ArmBoot.u32 (0x1000 + 8) = 0x1008 := by decide
    simp only [bcm2835_property_mbox_push, hv, ht, ha, hs, Option.map_none']
  · decide

end BCM2835

